import Mathlib

/-!
Shallow embedding of the Memory Scramble board ADT (`src/Lab3/src/board.ts`).

The TypeScript `Board` class is modelled as a pure Lean structure; every
mutating method becomes a function returning the updated board.  JS `Map`s
are modelled as insertion-ordered association lists (`mset` replaces in
place, like `Map.prototype.set`).  The `await`-points of `flip` (waiting on
`watch`) are modelled by a distinguished `blocked` outcome: in a sequential
execution no other actor can publish, so a suspension never resumes.
-/

namespace MS

/-- A board coordinate, as the `{row, col}` records used in `board.ts`.
JS numbers used as indices are modelled as `Int` (they may be negative). -/
structure Coord where
  row : Int
  col : Int
deriving DecidableEq, Repr

/-- The sentinel `Board.noneCard = { row: -19527, col: -19527 }` used by
`board.ts` to record "second flip failed, no real second card". -/
def noneCard : Coord := ⟨-19527, -19527⟩

/-- `CardCell` from `board.ts`: card value, face-up flag, optional controller. -/
structure CardCell where
  card : String
  faceUp : Bool
  controller : Option String
deriving DecidableEq, Repr

/-- `PlayerState` from `board.ts`. -/
structure PlayerState where
  firstCard : Option Coord
  secondCard : Option Coord
  hasMatch : Bool
deriving DecidableEq, Repr

/-- The fresh player state `{ hasMatch: false }`. -/
def idleState : PlayerState := ⟨none, none, false⟩

/-- JS `Map.prototype.get` on an insertion-ordered association list. -/
def mget {α : Type} (k : String) : List (String × α) → Option α
  | [] => none
  | (k', v) :: rest => if k' = k then some v else mget k rest

/-- JS `Map.prototype.set`: replace in place (keeping insertion order) or
append a new entry. -/
def mset {α : Type} (k : String) (v : α) : List (String × α) → List (String × α)
  | [] => [(k, v)]
  | (k', v') :: rest => if k' = k then (k', v) :: rest else (k', v') :: mset k v rest

/-- JS `Map.prototype.delete` (keys are unique, so deleting the first hit). -/
def mdel {α : Type} (k : String) : List (String × α) → List (String × α)
  | [] => []
  | (k', v') :: rest => if k' = k then rest else (k', v') :: mdel k rest

/-- JS array read `l[i]` for a possibly negative index: `undefined` (`none`)
out of range. -/
def jsIndex {α : Type} (l : List α) (i : Int) : Option α :=
  if i < 0 then none else l[i.toNat]?

/-- Update the element at position `i` (no-op when out of range). -/
def lmodify {α : Type} (i : Nat) (f : α → α) : List α → List α
  | [] => []
  | x :: xs =>
    match i with
    | 0 => f x :: xs
    | i + 1 => x :: lmodify i f xs

/-- JS `String.prototype.trim`: strip leading and trailing whitespace. -/
def jsTrim (s : String) : String :=
  ⟨(((s.data.dropWhile Char.isWhitespace).reverse).dropWhile Char.isWhitespace).reverse⟩

/-- Split a character list on a separator character (JS
`String.prototype.split` with a one-character separator). -/
def splitChar (sep : Char) : List Char → List (List Char)
  | [] => [[]]
  | c :: rest =>
    match splitChar sep rest with
    | [] => [[]]
    | h :: t => if c = sep then [] :: h :: t else (c :: h) :: t

/-- JS `s.split(sep)` for a one-character separator. -/
def jsSplit (s : String) (sep : Char) : List String :=
  (splitChar sep s.data).map fun l => (⟨l⟩ : String)

/-- The state of the `Board` class: dimensions, grid, `playerStates`,
the `listeners` array of pending `watch`ers, and `claimLocks`. -/
structure Board where
  height : Nat
  width : Nat
  board : List (List CardCell)
  playerStates : List (String × PlayerState)
  listeners : List String
  claimLocks : List (String × String)
deriving DecidableEq, Repr

namespace Board

/-- `this.board[r]?.[c]`. -/
def cellAt (b : Board) (r c : Int) : Option CardCell :=
  (jsIndex b.board r).bind fun row => jsIndex row c

/-- Mutate the cell at `(r, c)` in place (no-op when the cell does not exist),
modelling `const cell = this.board[r]?.[c]; if (cell) ...` mutation. -/
def updCell (b : Board) (r c : Int) (f : CardCell → CardCell) : Board :=
  if r < 0 ∨ c < 0 then b
  else { b with board := lmodify r.toNat (lmodify c.toNat f) b.board }

/-- `cellKey` from `board.ts`: `` `${row},${col}` ``. -/
def cellKey (row col : Int) : String := s!"{row},{col}"

/-- `tryClaimCell` from `board.ts`: succeeds only when no claim exists. -/
def tryClaimCell (b : Board) (row col : Int) (owner : String) : Bool × Board :=
  let k := cellKey row col
  if (mget k b.claimLocks).isSome then (false, b)
  else (true, { b with claimLocks := mset k owner b.claimLocks })

/-- `releaseClaim` from `board.ts`: removes the claim iff held by `owner`. -/
def releaseClaim (b : Board) (row col : Int) (owner : String) : Board :=
  let k := cellKey row col
  if mget k b.claimLocks = some owner then { b with claimLocks := mdel k b.claimLocks }
  else b

/-- One line of `look`'s body for one cell (the `status`/`text` computation
of `board.ts` lines 314–325, including the commented-out face-down branch
being absent, exactly as in the source). -/
def renderCell (playerId : String) (cell : CardCell) : String :=
  if cell.card = "" then jsTrim ("none" ++ " " ++ "")
  else if cell.controller = some playerId ∧ cell.faceUp then jsTrim ("my" ++ " " ++ cell.card)
  else jsTrim ("up" ++ " " ++ cell.card)

/-- `look` from `board.ts`: header line then one line per cell, row-major. -/
def look (b : Board) (playerId : String) : String :=
  String.intercalate "\n"
    (s!"{b.height}x{b.width}" :: (b.board.map (fun row => row.map (renderCell playerId))).flatten)

/-- `notifyAll`: drains the listener list (each listener only resolves a
pending `watch` promise with a fresh `look`; none of them mutates the board). -/
def notifyAll (b : Board) : Board := { b with listeners := [] }

/-- `watch` from `board.ts`: registers a listener; the promise resolves with a
snapshot only at the next publish. -/
def watch (b : Board) (playerId : String) : Board :=
  { b with listeners := b.listeners ++ [playerId] }

/-- The closure `isCardInPlayerStates` inside `cleanupPreviousMove`. -/
def isCardInPlayerStates (states : List (String × PlayerState)) (playerId : String)
    (row col : Int) : Bool :=
  states.any fun p =>
    decide (p.1 ≠ playerId ∧
      (p.2.firstCard = some ⟨row, col⟩ ∨ p.2.secondCard = some ⟨row, col⟩))

/-- Clear a cell, as the Rule 3-A removal in `cleanupPreviousMove`. -/
def clearCell (c : CardCell) : CardCell := { c with card := "", faceUp := false, controller := none }

/-- The Rule 3-B step for one recorded coordinate: turn it face down when it
still exists, is face up, has no controller, and no other player's state
references the exact coordinate. -/
def faceDownStep (b : Board) (playerId : String) (pos : Coord) : Board :=
  match b.cellAt pos.row pos.col with
  | some cell =>
    if cell.faceUp ∧ cell.controller = none ∧
        ¬ isCardInPlayerStates b.playerStates playerId pos.row pos.col then
      b.updCell pos.row pos.col (fun c => { c with faceUp := false })
    else b
  | none => b

/-- `cleanupPreviousMove` from `board.ts`. -/
def cleanupPreviousMove (b : Board) (playerId : String) : Board :=
  match mget playerId b.playerStates with
  | none => b
  | some state =>
    match state.firstCard, state.secondCard, state.hasMatch with
    | some f, some s, true =>
      -- Rule 3-A: remove the matched cards
      let b := b.updCell f.row f.col clearCell
      let b := b.updCell s.row s.col clearCell
      { b with playerStates := mset playerId idleState b.playerStates }
    | some f, some s, false =>
      -- Rule 3-B: turn face-up uncontrolled cards face down
      let b := faceDownStep b playerId f
      if s = noneCard then
        notifyAll { b with playerStates := mset playerId idleState b.playerStates }
      else
        let b := faceDownStep b playerId s
        { b with playerStates := mset playerId idleState b.playerStates }
    | _, _, _ => b

end Board

/-- Outcome of a `flip` call: a returned snapshot, a thrown error message, or
a suspension on `watch` that (in a sequential execution) never resumes. -/
inductive FlipResult where
  | ok (snapshot : String)
  | error (msg : String)
  | blocked
deriving DecidableEq, Repr

namespace Board

/-- `flip`, Rule 1-A / 2-A: the target cell is gone (`cell === undefined ||
cell.card.length === 0`), lines 369–383 of `board.ts`. -/
def flipNoCard (b : Board) (playerId : String) (state : PlayerState) : FlipResult × Board :=
  match state.firstCard with
  | some f =>
    match b.cellAt f.row f.col with
    | some _ =>
      let b := b.updCell f.row f.col (fun c => { c with controller := none })
      let state := { state with secondCard := some noneCard }
      let b := notifyAll { b with playerStates := mset playerId state b.playerStates }
      (.error "invalid card position", b)
    | none => (.error "invalid card position", b)
  | none => (.error "invalid card position", b)

/-- `flip`, first-card branch (lines 386–440 of `board.ts`).  The `while`
loop and the retry loop run at most one decision in an atomic step; every
`await this.watch(...)` becomes the `blocked` outcome. -/
def flipFirst (b : Board) (playerId : String) (row column : Int) (cell : CardCell)
    (state : PlayerState) : FlipResult × Board :=
  -- Rule 1-D: while face-up and controlled by a different player, wait.
  if cell.faceUp ∧ cell.controller ≠ none ∧ cell.controller ≠ some playerId then
    (.blocked, b.watch playerId)
  else if cell.card = "" then (.error "card was removed while waiting", b)
  else if cell.controller ≠ none ∧ cell.controller ≠ some playerId then
    (.blocked, b.watch playerId)
  else
    match b.tryClaimCell row column playerId with
    | (false, b) => (.blocked, b.watch playerId)
    | (true, b) =>
      -- double-check the invariants after acquiring the claim
      if cell.card = "" then
        (.error "card was removed while waiting", b.releaseClaim row column playerId)
      else if cell.controller ≠ none ∧ cell.controller ≠ some playerId then
        -- the `await` sits inside the `try`, so the claim is held at suspension
        (.blocked, b.watch playerId)
      else
        -- Rules 1-B and 1-C: flip face up and take control
        let b := b.updCell row column (fun c => { c with faceUp := true, controller := some playerId })
        let state := { state with firstCard := some ⟨row, column⟩ }
        let b := notifyAll { b with playerStates := mset playerId state b.playerStates }
        let out := b.look playerId
        (.ok out, b.releaseClaim row column playerId)

/-- `flip`, second-card branch (lines 442–493 of `board.ts`). -/
def flipSecond (b : Board) (playerId : String) (row column : Int) (cell : CardCell)
    (state : PlayerState) (f : Coord) : FlipResult × Board :=
  -- Rule 2-B: fail if the card is controlled (by anyone)
  if cell.faceUp ∧ cell.controller ≠ none then
    match b.cellAt f.row f.col with
    | some _ =>
      let b := b.updCell f.row f.col (fun c => { c with controller := none })
      let state := { state with secondCard := some noneCard }
      let b := notifyAll { b with playerStates := mset playerId state b.playerStates }
      (.error "card is controlled by another player", b)
    | none => (.error "card is controlled by another player", b)
  else
    -- Rule 2-C: turn face up
    let b := b.updCell row column (fun c => { c with faceUp := true })
    match b.cellAt f.row f.col with
    | none =>
      let state := { state with firstCard := none }
      (.error "first card no longer exists", { b with playerStates := mset playerId state b.playerStates })
    | some firstCell =>
      -- Rules 2-D and 2-E: check for a match
      if cell.card = firstCell.card then
        let b := b.updCell row column (fun c => { c with controller := some playerId })
        let b := b.updCell f.row f.col (fun c => { c with controller := some playerId })
        let state := { state with hasMatch := true, secondCard := some ⟨row, column⟩ }
        let b := notifyAll { b with playerStates := mset playerId state b.playerStates }
        (.ok (b.look playerId), b)
      else
        let b := b.updCell row column (fun c => { c with controller := none })
        let b := b.updCell f.row f.col (fun c => { c with controller := none })
        let state := { state with secondCard := some ⟨row, column⟩, hasMatch := false }
        let b := notifyAll { b with playerStates := mset playerId state b.playerStates }
        (.ok (b.look playerId), b)

/-- `flip` from `board.ts` (lines 349–493). -/
def flip (b0 : Board) (playerId : String) (row column : Int) : FlipResult × Board :=
  -- get or initialize the player state
  let b1 := match mget playerId b0.playerStates with
    | none => { b0 with playerStates := mset playerId idleState b0.playerStates }
    | some _ => b0
  -- validate the position
  if row < 0 ∨ row ≥ (b1.height : Int) ∨ column < 0 ∨ column ≥ (b1.width : Int) then
    (.error "invalid card position", b1)
  else
    -- always clean up any previous move for this player first
    let b2 := b1.cleanupPreviousMove playerId
    let state := (mget playerId b2.playerStates).getD idleState
    let b3 := { b2 with playerStates := mset playerId state b2.playerStates }
    match b3.cellAt row column with
    | none => flipNoCard b3 playerId state
    | some cell =>
      if cell.card = "" then flipNoCard b3 playerId state
      else
        match state.firstCard with
        | none => flipFirst b3 playerId row column cell state
        | some f => flipSecond b3 playerId row column cell state f

/-- One cell of `map`'s sweep: memoize `f` on first sight of a label, then
substitute (`board.ts` lines 522–529). -/
def mapCell (f : String → String) (memo : List (String × String)) (cell : CardCell) :
    CardCell × List (String × String) :=
  if cell.card = "" then (cell, memo)
  else
    let memo := if (mget cell.card memo).isSome then memo else mset cell.card (f cell.card) memo
    ({ cell with card := (mget cell.card memo).getD cell.card }, memo)

/-- `map`'s sweep over one row, threading the memo table. -/
def mapRow (f : String → String) (memo : List (String × String)) :
    List CardCell → List CardCell × List (String × String)
  | [] => ([], memo)
  | c :: cs =>
    let p := mapCell f memo c
    let q := mapRow f p.2 cs
    (p.1 :: q.1, q.2)

/-- `map`'s sweep over the whole grid, threading the memo table. -/
def mapGrid (f : String → String) (memo : List (String × String)) :
    List (List CardCell) → List (List CardCell) × List (String × String)
  | [] => ([], memo)
  | r :: rs =>
    let p := mapRow f memo r
    let q := mapGrid f p.2 rs
    (p.1 :: q.1, q.2)

/-- `map` from `board.ts` (lines 518–538): replace every card by `f(card)`,
memoized per distinct label, then publish and return the caller's snapshot. -/
def map (b : Board) (playerId : String) (f : String → String) : String × Board :=
  let g := mapGrid f [] b.board
  let b := notifyAll { b with board := g.1 }
  (b.look playerId, b)

end Board

/-- `Number.parseInt(s, 10)` on an already-trimmed string: optional sign,
then the longest digit prefix; `NaN` (here `none`) when there is none. -/
def jsParseInt (s : String) : Option Int :=
  let cs := s.toList
  let signAndRest : Int × List Char :=
    match cs with
    | '-' :: r => (-1, r)
    | '+' :: r => (1, r)
    | r => (1, r)
  let digits := signAndRest.2.takeWhile Char.isDigit
  if digits.isEmpty then none
  else some (signAndRest.1 * (digits.foldl (fun a c => a * 10 + (c.toNat - 48)) 0 : Nat))

/-- The counting loop of `parseFromFile`: a JS `Map` from card to count in
first-occurrence (insertion) order. -/
def bumpCount (m : List (String × Nat)) (c : String) : List (String × Nat) :=
  match mget c m with
  | some n => mset c (n + 1) m
  | none => m ++ [(c, 1)]

/-- Card occurrence counts in insertion order, as `cardCounts` in
`parseFromFile`. -/
def countCards (l : List String) : List (String × Nat) := l.foldl bumpCount []

/-- Split a flat token list into an `h × w` grid, as the nested loops of
`parseFromFile` (`allCards[i * width + j]`). -/
def chunkGrid (h w : Nat) (allCards : List String) : List (List String) :=
  (List.range h).map fun i => (List.range w).map fun j => (allCards.get? (i * w + j)).getD ""

/-- The private `Board` constructor: every card starts face down with no
controller, and the player-state, listener, and claim tables start empty. -/
def Board.fromCards (height width : Nat) (cards : List (List String)) : Board :=
  ⟨height, width, cards.map (fun row => row.map fun card => ⟨card, false, none⟩), [], [], []⟩

/-- `parseFromFile` from `board.ts` (lines 124–190), on the file's contents
(the `fs` read itself is outside the model). -/
def parseFromFile (content : String) : Except String Board :=
  let lines := jsSplit (jsTrim content) '\n'
  let firstLine := jsTrim ((lines.get? 0).getD "")
  if firstLine = "" then .error "empty board file"
  else
    let dimensionParts := jsSplit firstLine 'x'
    if dimensionParts.length ≠ 2 ∨ jsTrim ((dimensionParts.get? 0).getD "") = "" ∨
        jsTrim ((dimensionParts.get? 1).getD "") = "" then
      .error "invalid board dimensions format"
    else
      match jsParseInt (jsTrim ((dimensionParts.get? 0).getD "")),
            jsParseInt (jsTrim ((dimensionParts.get? 1).getD "")) with
      | some height, some width =>
        if height ≤ 0 ∨ width ≤ 0 then .error "invalid board dimensions"
        else if (lines.length : Int) < height + 1 then .error "insufficient board rows"
        else
          let allCards := ((lines.drop 1).map jsTrim).filter (fun l => l ≠ "")
          let totalCards := height.toNat * width.toNat
          if totalCards % 2 ≠ 0 then .error "total number of cards must be even"
          else if allCards.length ≠ totalCards then
            .error s!"expected {totalCards} cards ({height}x{width}), but got {allCards.length} cards"
          else
            match (List.range totalCards).find? (fun idx => (allCards.get? idx).getD "" = "") with
            | some idx => .error s!"missing card at position {idx}"
            | none =>
              match (countCards allCards).find? (fun p => p.2 % 2 ≠ 0) with
              | some p => .error s!"card \"{p.1}\" appears {p.2} times, which is not a multiple of 2"
              | none =>
                .ok (Board.fromCards height.toNat width.toNat (chunkGrid height.toNat width.toNat allCards))
      | _, _ => .error "invalid board dimensions"

/-! ### Association-list (JS `Map`) lemmas -/

theorem mget_mset {α : Type} (k j : String) (v : α) (m : List (String × α)) :
    mget j (mset k v m) = if k = j then some v else mget j m := by
  induction m with
  | nil => simp [mget, mset]
  | cons hd tl ih =>
    obtain ⟨k', v'⟩ := hd
    by_cases hk : k' = k
    · subst hk
      by_cases hj : k' = j
      · subst hj; simp [mget, mset]
      · simp [mget, mset, hj]
    · by_cases hj : k' = j
      · subst hj
        have hkj : k ≠ k' := fun h => hk h.symm
        simp [mget, mset, hk, hkj]
      · simp [mget, mset, hk, hj, ih]

theorem mget_mset_self {α : Type} (k : String) (v : α) (m : List (String × α)) :
    mget k (mset k v m) = some v := by
  simp [mget_mset]

theorem mget_mset_ne {α : Type} {k j : String} (v : α) (m : List (String × α)) (h : k ≠ j) :
    mget j (mset k v m) = mget j m := by
  simp [mget_mset, h]

theorem mset_eq_of_mget {α : Type} {k : String} {v : α} {m : List (String × α)}
    (h : mget k m = some v) : mset k v m = m := by
  induction m with
  | nil => simp [mget] at h
  | cons hd tl ih =>
    obtain ⟨k', v'⟩ := hd
    by_cases hk : k' = k
    · subst hk
      simp [mget] at h
      simp [mset, h]
    · simp [mget, hk] at h
      simp [mset, hk, ih h]

theorem mset_mset_self {α : Type} (k : String) (v v' : α) (m : List (String × α)) :
    mset k v' (mset k v m) = mset k v' m := by
  induction m with
  | nil => simp [mset]
  | cons hd tl ih =>
    obtain ⟨k', w⟩ := hd
    by_cases hk : k' = k
    · subst hk; simp [mset]
    · simp [mset, hk, ih]

theorem mdel_mset_of_mget_none {α : Type} {k : String} {m : List (String × α)} (v : α)
    (h : mget k m = none) : mdel k (mset k v m) = m := by
  induction m with
  | nil => simp [mset, mdel]
  | cons hd tl ih =>
    obtain ⟨k', v'⟩ := hd
    by_cases hk : k' = k
    · subst hk; simp [mget] at h
    · simp [mget, hk] at h
      simp [mset, mdel, hk, ih h]

theorem mget_some_mem {α : Type} {k : String} {v : α} {m : List (String × α)}
    (h : mget k m = some v) : (k, v) ∈ m := by
  induction m with
  | nil => simp [mget] at h
  | cons hd tl ih =>
    obtain ⟨k', v'⟩ := hd
    by_cases hk : k' = k
    · subst hk
      simp [mget] at h
      simp [h]
    · simp [mget, hk] at h
      exact List.mem_cons_of_mem _ (ih h)

theorem mem_mset {α : Type} {e : String × α} {k : String} {v : α} {m : List (String × α)}
    (h : e ∈ mset k v m) : e ∈ m ∨ e = (k, v) := by
  induction m with
  | nil => simp [mset] at h; simp [h]
  | cons hd tl ih =>
    obtain ⟨k', v'⟩ := hd
    by_cases hk : k' = k
    · subst hk
      simp [mset] at h
      rcases h with h | h
      · right; simp [h]
      · left; simp [h]
    · simp [mset, hk] at h
      rcases h with h | h
      · left; simp [h]
      · rcases ih h with h' | h'
        · left; simp [h']
        · right; exact h'

theorem map_fst_mset_of_mget_some {α : Type} {k : String} {m : List (String × α)} (v : α)
    (h : (mget k m).isSome) : (mset k v m).map Prod.fst = m.map Prod.fst := by
  induction m with
  | nil => simp [mget] at h
  | cons hd tl ih =>
    obtain ⟨k', v'⟩ := hd
    by_cases hk : k' = k
    · subst hk; simp [mset]
    · simp [mget, hk] at h
      simp [mset, hk, ih h]

theorem map_fst_mset_of_mget_none {α : Type} {k : String} {m : List (String × α)} (v : α)
    (h : mget k m = none) : (mset k v m).map Prod.fst = m.map Prod.fst ++ [k] := by
  induction m with
  | nil => simp [mset]
  | cons hd tl ih =>
    obtain ⟨k', v'⟩ := hd
    by_cases hk : k' = k
    · subst hk; simp [mget] at h
    · simp [mget, hk] at h
      simp [mset, hk, ih h]

theorem mget_eq_none_iff {α : Type} {k : String} {m : List (String × α)} :
    mget k m = none ↔ k ∉ m.map Prod.fst := by
  induction m with
  | nil => simp [mget]
  | cons hd tl ih =>
    obtain ⟨k', v'⟩ := hd
    by_cases hk : k' = k
    · subst hk; simp [mget]
    · rw [List.map_cons]
      constructor
      · intro h hmem
        rcases List.mem_cons.mp hmem with h1 | h1
        · exact hk h1.symm
        · simp only [mget, if_neg hk] at h
          exact (ih.mp h) h1
      · intro hmem
        simp only [mget, if_neg hk]
        exact ih.mpr (fun hin => hmem (List.mem_cons.mpr (Or.inr hin)))

theorem nodup_mset {α : Type} {k : String} {m : List (String × α)} (v : α)
    (h : (m.map Prod.fst).Nodup) : ((mset k v m).map Prod.fst).Nodup := by
  cases hk : mget k m with
  | none =>
    rw [map_fst_mset_of_mget_none _ hk]
    rw [List.nodup_append]
    refine ⟨h, List.nodup_singleton _, ?_⟩
    intro a ha hb
    simp at hb
    subst hb
    exact (mget_eq_none_iff.mp hk) ha
  | some w => rw [map_fst_mset_of_mget_some _ (by simp [hk])]; exact h

theorem mget_eq_of_mem_nodup {α : Type} {k : String} {v : α} {m : List (String × α)}
    (hmem : (k, v) ∈ m) (h : (m.map Prod.fst).Nodup) : mget k m = some v := by
  induction m with
  | nil => simp at hmem
  | cons hd tl ih =>
    obtain ⟨k', v'⟩ := hd
    rw [List.map_cons, List.nodup_cons] at h
    rcases List.mem_cons.mp hmem with he | he
    · injection he with h1 h2
      subst h1; subst h2
      simp [mget]
    · have hk : k' ≠ k := by
        intro hkk
        subst hkk
        exact h.1 (List.mem_map.mpr ⟨(k', v), he, rfl⟩)
      simp [mget, hk]
      exact ih he h.2

/-! ### Positional list-update lemmas -/

theorem lmodify_length {α : Type} (i : Nat) (f : α → α) (l : List α) :
    (lmodify i f l).length = l.length := by
  induction l generalizing i with
  | nil => simp [lmodify]
  | cons hd tl ih =>
    cases i with
    | zero => simp [lmodify]
    | succ j => simp [lmodify, ih]

theorem lget_lmodify_self {α : Type} (i : Nat) (f : α → α) (l : List α) :
    (lmodify i f l)[i]? = l[i]?.map f := by
  induction l generalizing i with
  | nil => simp [lmodify]
  | cons hd tl ih =>
    cases i with
    | zero => simp [lmodify]
    | succ j => simpa [lmodify] using ih j

theorem lget_lmodify_ne {α : Type} {i j : Nat} (f : α → α) (l : List α) (h : j ≠ i) :
    (lmodify i f l)[j]? = l[j]? := by
  induction l generalizing i j with
  | nil => simp [lmodify]
  | cons hd tl ih =>
    cases i with
    | zero =>
      cases j with
      | zero => exact absurd rfl h
      | succ j' => simp [lmodify]
    | succ i' =>
      cases j with
      | zero => simp [lmodify]
      | succ j' => simpa [lmodify] using ih (fun hh => h (by simp [hh]))

theorem mem_lmodify {α : Type} {x : α} {i : Nat} {f : α → α} {l : List α}
    (h : x ∈ lmodify i f l) : x ∈ l ∨ ∃ y, y ∈ l ∧ x = f y := by
  induction l generalizing i with
  | nil => simp [lmodify] at h
  | cons hd tl ih =>
    cases i with
    | zero =>
      simp [lmodify] at h
      rcases h with h | h
      · right; exact ⟨hd, by simp, h⟩
      · left; simp [h]
    | succ j =>
      simp [lmodify] at h
      rcases h with h | h
      · left; simp [h]
      · rcases ih h with h' | ⟨y, hy, hxy⟩
        · left; simp [h']
        · right; exact ⟨y, by simp [hy], hxy⟩

/-! ### Board access lemmas -/

namespace Board

@[simp] theorem updCell_height (b : Board) (r c : Int) (f : CardCell → CardCell) :
    (b.updCell r c f).height = b.height := by
  unfold updCell; split <;> rfl

@[simp] theorem updCell_width (b : Board) (r c : Int) (f : CardCell → CardCell) :
    (b.updCell r c f).width = b.width := by
  unfold updCell; split <;> rfl

@[simp] theorem updCell_playerStates (b : Board) (r c : Int) (f : CardCell → CardCell) :
    (b.updCell r c f).playerStates = b.playerStates := by
  unfold updCell; split <;> rfl

@[simp] theorem updCell_listeners (b : Board) (r c : Int) (f : CardCell → CardCell) :
    (b.updCell r c f).listeners = b.listeners := by
  unfold updCell; split <;> rfl

@[simp] theorem updCell_claimLocks (b : Board) (r c : Int) (f : CardCell → CardCell) :
    (b.updCell r c f).claimLocks = b.claimLocks := by
  unfold updCell; split <;> rfl

@[simp] theorem releaseClaim_height (b : Board) (r c : Int) (o : String) :
    (b.releaseClaim r c o).height = b.height := by
  unfold releaseClaim
  by_cases h : mget (cellKey r c) b.claimLocks = some o <;> simp [h]

@[simp] theorem releaseClaim_width (b : Board) (r c : Int) (o : String) :
    (b.releaseClaim r c o).width = b.width := by
  unfold releaseClaim
  by_cases h : mget (cellKey r c) b.claimLocks = some o <;> simp [h]

@[simp] theorem releaseClaim_board (b : Board) (r c : Int) (o : String) :
    (b.releaseClaim r c o).board = b.board := by
  unfold releaseClaim
  by_cases h : mget (cellKey r c) b.claimLocks = some o <;> simp [h]

@[simp] theorem releaseClaim_playerStates (b : Board) (r c : Int) (o : String) :
    (b.releaseClaim r c o).playerStates = b.playerStates := by
  unfold releaseClaim
  by_cases h : mget (cellKey r c) b.claimLocks = some o <;> simp [h]

@[simp] theorem releaseClaim_listeners (b : Board) (r c : Int) (o : String) :
    (b.releaseClaim r c o).listeners = b.listeners := by
  unfold releaseClaim
  by_cases h : mget (cellKey r c) b.claimLocks = some o <;> simp [h]

theorem look_ext {b b' : Board} (p : String) (h1 : b'.height = b.height)
    (h2 : b'.width = b.width) (h3 : b'.board = b.board) : b'.look p = b.look p := by
  unfold look; rw [h1, h2, h3]

@[simp] theorem updCell_board (b : Board) (r c : Int) (f : CardCell → CardCell) :
    (b.updCell r c f).board =
      if r < 0 ∨ c < 0 then b.board else lmodify r.toNat (lmodify c.toNat f) b.board := by
  unfold updCell; split <;> rfl

theorem cellAt_board (b : Board) (r c : Int) :
    b.cellAt r c = (jsIndex b.board r).bind fun row => jsIndex row c := rfl

theorem cellAt_updCell_self (b : Board) (r c : Int) (f : CardCell → CardCell) :
    (b.updCell r c f).cellAt r c = (b.cellAt r c).map f := by
  rw [cellAt_board, cellAt_board, updCell_board]
  unfold jsIndex
  by_cases hr : r < 0
  · simp [hr]
  · by_cases hc : c < 0
    · simp only [hr, hc, or_self, if_false, if_neg hr]
      cases b.board.get? r.toNat <;> simp [hc]
    · have hcond : ¬(r < 0 ∨ c < 0) := by simp [hr, hc]
      simp only [if_neg hcond, if_neg hr, if_neg hc]
      rw [lget_lmodify_self]
      cases b.board[r.toNat]? <;> simp [hc, lget_lmodify_self]

theorem cellAt_updCell_ne (b : Board) {r c r' c' : Int} (f : CardCell → CardCell)
    (hne : r' ≠ r ∨ c' ≠ c) :
    (b.updCell r c f).cellAt r' c' = b.cellAt r' c' := by
  rw [cellAt_board, cellAt_board, updCell_board]
  unfold jsIndex
  by_cases h0 : r < 0 ∨ c < 0
  · simp [h0]
  · push_neg at h0
    have hcond : ¬(r < 0 ∨ c < 0) := by simp [not_lt.mpr h0.1, not_lt.mpr h0.2]
    simp only [if_neg hcond]
    by_cases hr' : r' < 0
    · simp [hr']
    · simp only [if_neg hr']
      by_cases hrr : r'.toNat = r.toNat
      · rcases hne with hne | hne
        · exact absurd (by omega : r' = r) hne
        · rw [hrr, lget_lmodify_self]
          cases hrow : b.board[r.toNat]? with
          | none => simp
          | some row =>
            simp only [Option.map_some', Option.some_bind]
            by_cases hc' : c' < 0
            · simp [hc']
            · have htn : c'.toNat ≠ c.toNat := by omega
              simp only [if_neg hc']
              rw [lget_lmodify_ne _ _ htn]
      · rw [lget_lmodify_ne _ _ hrr]

@[simp] theorem notifyAll_height (b : Board) : (notifyAll b).height = b.height := rfl
@[simp] theorem notifyAll_width (b : Board) : (notifyAll b).width = b.width := rfl
@[simp] theorem notifyAll_board (b : Board) : (notifyAll b).board = b.board := rfl
@[simp] theorem notifyAll_playerStates (b : Board) : (notifyAll b).playerStates = b.playerStates := rfl
@[simp] theorem notifyAll_listeners (b : Board) : (notifyAll b).listeners = [] := rfl
@[simp] theorem notifyAll_claimLocks (b : Board) : (notifyAll b).claimLocks = b.claimLocks := rfl

@[simp] theorem watch_height (b : Board) (p : String) : (b.watch p).height = b.height := rfl
@[simp] theorem watch_width (b : Board) (p : String) : (b.watch p).width = b.width := rfl
@[simp] theorem watch_board (b : Board) (p : String) : (b.watch p).board = b.board := rfl
@[simp] theorem watch_playerStates (b : Board) (p : String) :
    (b.watch p).playerStates = b.playerStates := rfl
@[simp] theorem watch_claimLocks (b : Board) (p : String) :
    (b.watch p).claimLocks = b.claimLocks := rfl

/-- `cleanupPreviousMove` is a no-op unless the caller's state records both a
first and a second card. -/
theorem cleanup_noop (b : Board) (playerId : String)
    (h : ∀ st, mget playerId b.playerStates = some st →
      st.firstCard = none ∨ st.secondCard = none) :
    b.cleanupPreviousMove playerId = b := by
  unfold cleanupPreviousMove
  cases hst : mget playerId b.playerStates with
  | none => rfl
  | some st =>
    obtain ⟨fc, sc, hm⟩ := st
    rcases h _ hst with h1 | h1 <;> simp at h1 <;> subst h1
    · cases sc <;> cases hm <;> rfl
    · cases fc <;> cases hm <;> rfl

/-- `flip` with no recorded state for the caller first registers the idle
state and then proceeds exactly as on the board with that entry added. -/
theorem flip_init_none (b : Board) (playerId : String) (row column : Int)
    (h : mget playerId b.playerStates = none) :
    b.flip playerId row column =
      ({ b with playerStates := mset playerId idleState b.playerStates } : Board).flip
        playerId row column := by
  conv_lhs => rw [flip]
  conv_rhs => rw [flip]
  rw [h, mget_mset_self]

theorem cellAt_congr {b b' : Board} (r c : Int) (h : b'.board = b.board) :
    b'.cellAt r c = b.cellAt r c := by
  unfold cellAt jsIndex; rw [h]

/-- Evaluation of a successful first flip: caller idle (with a recorded idle
entry), target in bounds, holding a card, not controlled by another player,
and not claimed. -/
theorem first_flip_eval (b : Board) (playerId : String) (row column : Int) (cell : CardCell)
    (hIdle : mget playerId b.playerStates = some idleState)
    (hr0 : 0 ≤ row) (hr1 : row < (b.height : Int))
    (hc0 : 0 ≤ column) (hc1 : column < (b.width : Int))
    (hcell : b.cellAt row column = some cell)
    (hcard : ¬cell.card = "")
    (hctl : cell.controller = none ∨ cell.controller = some playerId)
    (hclaim : mget (cellKey row column) b.claimLocks = none) :
    ∃ b' : Board,
      b.flip playerId row column = (.ok (b'.look playerId), b') ∧
      b'.cellAt row column = some { cell with faceUp := true, controller := some playerId } ∧
      (∀ r c : Int, r ≠ row ∨ c ≠ column → b'.cellAt r c = b.cellAt r c) ∧
      mget playerId b'.playerStates = some ⟨some ⟨row, column⟩, none, false⟩ ∧
      (∀ q, q ≠ playerId → mget q b'.playerStates = mget q b.playerStates) ∧
      b'.listeners = [] ∧
      b'.claimLocks = b.claimLocks ∧
      b'.height = b.height ∧ b'.width = b.width := by
  have hb3 : mset playerId idleState b.playerStates = b.playerStates := mset_eq_of_mget hIdle
  have hclean : b.cleanupPreviousMove playerId = b :=
    cleanup_noop _ _ (fun st hst => by rw [hIdle] at hst; cases hst; exact Or.inl rfl)
  have hbnd : ¬(row < 0 ∨ row ≥ (b.height : Int) ∨ column < 0 ∨ column ≥ (b.width : Int)) := by
    omega
  have hw : ¬(cell.faceUp = true ∧ cell.controller ≠ none ∧ cell.controller ≠ some playerId) := by
    rcases hctl with h | h <;> simp [h]
  have hw2 : ¬(cell.controller ≠ none ∧ cell.controller ≠ some playerId) := by
    rcases hctl with h | h <;> simp [h]
  obtain ⟨bN, hBN⟩ : ∃ x : Board, notifyAll { b.updCell row column
      (fun c => { c with faceUp := true, controller := some playerId }) with
    playerStates := mset playerId ⟨some ⟨row, column⟩, none, false⟩ b.playerStates,
    claimLocks := mset (cellKey row column) playerId b.claimLocks } = x := ⟨_, rfl⟩
  have hflip : b.flip playerId row column =
      (.ok (bN.look playerId), releaseClaim bN row column playerId) := by
    rw [← hBN]
    simp only [flip, hIdle, if_neg hbnd, hclean, Option.getD_some, hb3, flipFirst,
      tryClaimCell, hcell, if_neg hcard, if_neg hw, if_neg hw2, hclaim, Option.isSome_none,
      Bool.false_eq_true, if_false,
      show idleState.firstCard = none from rfl,
      show idleState.secondCard = none from rfl,
      show idleState.hasMatch = false from rfl]
    simp only [updCell_board, updCell_height, updCell_width, updCell_playerStates,
      updCell_listeners, updCell_claimLocks]
  have hps : bN.playerStates = mset playerId ⟨some ⟨row, column⟩, none, false⟩ b.playerStates := by
    rw [← hBN]; rfl
  have hlis : bN.listeners = [] := by rw [← hBN]; rfl
  have hclk : bN.claimLocks = mset (cellKey row column) playerId b.claimLocks := by
    rw [← hBN]; rfl
  have hhh : bN.height = b.height := by rw [← hBN]; simp
  have hww : bN.width = b.width := by rw [← hBN]; simp
  have hbb : bN.board =
      (b.updCell row column (fun c => { c with faceUp := true, controller := some playerId })).board := by
    rw [← hBN]; rfl
  have hrelb : (releaseClaim bN row column playerId).board =
      (b.updCell row column (fun c => { c with faceUp := true, controller := some playerId })).board := by
    rw [releaseClaim_board]; exact hbb
  refine ⟨releaseClaim bN row column playerId, ?_, ?_, ?_, ?_, ?_, ?_, ?_, ?_, ?_⟩
  · have hlk : (releaseClaim bN row column playerId).look playerId = bN.look playerId :=
      @look_ext bN (releaseClaim bN row column playerId) playerId
        (releaseClaim_height _ _ _ _) (releaseClaim_width _ _ _ _) (releaseClaim_board _ _ _ _)
    rw [hflip, hlk]
  · rw [@cellAt_congr
      (b.updCell row column (fun c => { c with faceUp := true, controller := some playerId }))
      (releaseClaim bN row column playerId) row column hrelb]
    rw [cellAt_updCell_self, hcell]
    rfl
  · intro r c hne
    rw [@cellAt_congr
      (b.updCell row column (fun c => { c with faceUp := true, controller := some playerId }))
      (releaseClaim bN row column playerId) r c hrelb]
    exact cellAt_updCell_ne _ _ hne
  · rw [releaseClaim_playerStates, hps, mget_mset_self]
  · intro q hq
    rw [releaseClaim_playerStates, hps, mget_mset_ne _ _ (fun h => hq h.symm)]
  · rw [releaseClaim_listeners, hlis]
  · have hcond : mget (cellKey row column) bN.claimLocks = some playerId := by
      rw [hclk, mget_mset_self]
    show (releaseClaim bN row column playerId).claimLocks = b.claimLocks
    simp only [releaseClaim, hcond, if_true, eq_self_iff_true]
    rw [hclk]
    exact mdel_mset_of_mget_none _ hclaim
  · rw [releaseClaim_height]; exact hhh
  · rw [releaseClaim_width]; exact hww

/-- Evaluation of a second flip whose in-bounds target holds no card
(Rule 2-A, `board.ts` lines 369–383): release the first card's control,
record the absent second card, publish, fail with `invalid card position`. -/
theorem second_flip_nocard_eval (b : Board) (playerId : String) (row column : Int)
    (f : Coord) (cell fcell : CardCell)
    (hst : mget playerId b.playerStates = some ⟨some f, none, false⟩)
    (hr0 : 0 ≤ row) (hr1 : row < (b.height : Int))
    (hc0 : 0 ≤ column) (hc1 : column < (b.width : Int))
    (hcell : b.cellAt row column = some cell)
    (hcard : cell.card = "")
    (hf : b.cellAt f.row f.col = some fcell) :
    ∃ b' : Board,
      b.flip playerId row column = (.error "invalid card position", b') ∧
      b'.cellAt f.row f.col = some { fcell with controller := none } ∧
      (∀ r c : Int, r ≠ f.row ∨ c ≠ f.col → b'.cellAt r c = b.cellAt r c) ∧
      mget playerId b'.playerStates = some ⟨some f, some noneCard, false⟩ ∧
      (∀ q, q ≠ playerId → mget q b'.playerStates = mget q b.playerStates) ∧
      b'.listeners = [] ∧
      b'.claimLocks = b.claimLocks ∧
      b'.height = b.height ∧ b'.width = b.width := by
  have hb3 : mset playerId ⟨some f, none, false⟩ b.playerStates = b.playerStates :=
    mset_eq_of_mget hst
  have hclean : b.cleanupPreviousMove playerId = b :=
    cleanup_noop _ _ (fun st hst' => by rw [hst] at hst'; cases hst'; exact Or.inr rfl)
  have hbnd : ¬(row < 0 ∨ row ≥ (b.height : Int) ∨ column < 0 ∨ column ≥ (b.width : Int)) := by
    omega
  obtain ⟨bN, hBN⟩ : ∃ x : Board, notifyAll { b.updCell f.row f.col
      (fun c => { c with controller := none }) with
    playerStates := mset playerId ⟨some f, some noneCard, false⟩ b.playerStates } = x := ⟨_, rfl⟩
  have hflip : b.flip playerId row column = (.error "invalid card position", bN) := by
    rw [← hBN]
    simp only [flip, hst, if_neg hbnd, hclean, Option.getD_some, hb3, flipNoCard, hcell,
      if_pos hcard, hf]
    simp only [updCell_board, updCell_height, updCell_width, updCell_playerStates,
      updCell_listeners, updCell_claimLocks]
  have hps : bN.playerStates = mset playerId ⟨some f, some noneCard, false⟩ b.playerStates := by
    rw [← hBN]; rfl
  have hbb : bN.board =
      (b.updCell f.row f.col (fun c => { c with controller := none })).board := by
    rw [← hBN]; rfl
  refine ⟨bN, hflip, ?_, ?_, ?_, ?_, ?_, ?_, ?_, ?_⟩
  · rw [@cellAt_congr (b.updCell f.row f.col (fun c => { c with controller := none })) bN
      f.row f.col hbb]
    rw [cellAt_updCell_self, hf]
    rfl
  · intro r c hne
    rw [@cellAt_congr (b.updCell f.row f.col (fun c => { c with controller := none })) bN
      r c hbb]
    exact cellAt_updCell_ne _ _ hne
  · rw [hps, mget_mset_self]
  · intro q hq
    rw [hps, mget_mset_ne _ _ (fun h => hq h.symm)]
  · rw [← hBN]; rfl
  · rw [← hBN]; simp
  · rw [← hBN]; simp
  · rw [← hBN]; simp

/-- Evaluation of a second flip whose target is face-up and controlled
(Rule 2-B, `board.ts` lines 444–453): release the first card's control,
record the absent second card, publish, fail with
`card is controlled by another player`. -/
theorem second_flip_controlled_eval (b : Board) (playerId : String) (row column : Int)
    (f : Coord) (cell fcell : CardCell)
    (hst : mget playerId b.playerStates = some ⟨some f, none, false⟩)
    (hr0 : 0 ≤ row) (hr1 : row < (b.height : Int))
    (hc0 : 0 ≤ column) (hc1 : column < (b.width : Int))
    (hcell : b.cellAt row column = some cell)
    (hcard : ¬cell.card = "")
    (hfup : cell.faceUp = true)
    (hctl : cell.controller ≠ none)
    (hf : b.cellAt f.row f.col = some fcell) :
    ∃ b' : Board,
      b.flip playerId row column = (.error "card is controlled by another player", b') ∧
      b'.cellAt f.row f.col = some { fcell with controller := none } ∧
      (∀ r c : Int, r ≠ f.row ∨ c ≠ f.col → b'.cellAt r c = b.cellAt r c) ∧
      mget playerId b'.playerStates = some ⟨some f, some noneCard, false⟩ ∧
      (∀ q, q ≠ playerId → mget q b'.playerStates = mget q b.playerStates) ∧
      b'.listeners = [] ∧
      b'.claimLocks = b.claimLocks ∧
      b'.height = b.height ∧ b'.width = b.width := by
  have hb3 : mset playerId ⟨some f, none, false⟩ b.playerStates = b.playerStates :=
    mset_eq_of_mget hst
  have hclean : b.cleanupPreviousMove playerId = b :=
    cleanup_noop _ _ (fun st hst' => by rw [hst] at hst'; cases hst'; exact Or.inr rfl)
  have hbnd : ¬(row < 0 ∨ row ≥ (b.height : Int) ∨ column < 0 ∨ column ≥ (b.width : Int)) := by
    omega
  have h2b : cell.faceUp = true ∧ cell.controller ≠ none := ⟨hfup, hctl⟩
  obtain ⟨bN, hBN⟩ : ∃ x : Board, notifyAll { b.updCell f.row f.col
      (fun c => { c with controller := none }) with
    playerStates := mset playerId ⟨some f, some noneCard, false⟩ b.playerStates } = x := ⟨_, rfl⟩
  have hflip : b.flip playerId row column =
      (.error "card is controlled by another player", bN) := by
    rw [← hBN]
    simp only [flip, hst, if_neg hbnd, hclean, Option.getD_some, hb3, flipSecond, hcell,
      if_neg hcard, if_pos h2b, hf]
    simp only [updCell_board, updCell_height, updCell_width, updCell_playerStates,
      updCell_listeners, updCell_claimLocks]
  have hps : bN.playerStates = mset playerId ⟨some f, some noneCard, false⟩ b.playerStates := by
    rw [← hBN]; rfl
  have hbb : bN.board =
      (b.updCell f.row f.col (fun c => { c with controller := none })).board := by
    rw [← hBN]; rfl
  refine ⟨bN, hflip, ?_, ?_, ?_, ?_, ?_, ?_, ?_, ?_⟩
  · rw [@cellAt_congr (b.updCell f.row f.col (fun c => { c with controller := none })) bN
      f.row f.col hbb]
    rw [cellAt_updCell_self, hf]
    rfl
  · intro r c hne
    rw [@cellAt_congr (b.updCell f.row f.col (fun c => { c with controller := none })) bN
      r c hbb]
    exact cellAt_updCell_ne _ _ hne
  · rw [hps, mget_mset_self]
  · intro q hq
    rw [hps, mget_mset_ne _ _ (fun h => hq h.symm)]
  · rw [← hBN]; rfl
  · rw [← hBN]; simp
  · rw [← hBN]; simp
  · rw [← hBN]; simp

end Board

/-! ### Claim theorems -/

/-- C1: the claim says a face-down cell with a card renders `"down"`, and that
`look` before any flip shows all `"down"` lines.  The code's `look` (the
commented-out face-down branch in `board.ts` line 317) instead renders every
face-down card as `"up {card}"`: on a fresh `1x2` board with cards `A A`,
`look` returns `"1x2\nup A\nup A"`, not the all-`"down"` snapshot the claim
(and the repository's own test suite) requires. -/
theorem C1_look_renders_facedown_as_up :
    (parseFromFile "1x2\nA\nA").map (fun b => b.look "player1") = .ok "1x2\nup A\nup A" ∧
    ("1x2\nup A\nup A" : String) ≠ "1x2\ndown\ndown" ∧
    Board.renderCell "player1" ⟨"A", false, none⟩ = "up A" := by
  exact ⟨by rfl, by decide, by rfl⟩

/-- C2 (counterexample): the claim says a token count different from `H*W`
yields `expected {H*W} cards ({H}x{W}), but got {actual} cards`, but on the
input `"3x2\nA\nB"` (2 tokens, `H*W = 6`) the code fails earlier, with
`insufficient board rows`. -/
theorem C2_counterexample_insufficient_rows :
    parseFromFile "3x2\nA\nB" = .error "insufficient board rows" ∧
    ("insufficient board rows" : String) ≠ "expected 6 cards (3x2), but got 2 cards" := by
  exact ⟨by rfl, by decide⟩

/-- C7: a first flip by a player in state Idle on an in-bounds cell that holds
a card, is not controlled by another player, and is unclaimed succeeds without
blocking: the cell becomes face-up and controlled by the player, every other
cell is untouched, the player's state becomes `HoldingFirst(row, column)`,
the change is published (listener list drained), the claim taken on the cell
is released (claim registry restored), and the snapshot for the player is
returned. -/
theorem C7_first_flip_succeeds (b : Board) (playerId : String) (row column : Int)
    (cell : CardCell)
    (hIdle : mget playerId b.playerStates = none ∨ mget playerId b.playerStates = some idleState)
    (hr0 : 0 ≤ row) (hr1 : row < (b.height : Int))
    (hc0 : 0 ≤ column) (hc1 : column < (b.width : Int))
    (hcell : b.cellAt row column = some cell)
    (hcard : ¬cell.card = "")
    (hctl : cell.controller = none ∨ cell.controller = some playerId)
    (hclaim : mget (Board.cellKey row column) b.claimLocks = none) :
    ∃ b' : Board,
      b.flip playerId row column = (.ok (b'.look playerId), b') ∧
      b'.cellAt row column = some { cell with faceUp := true, controller := some playerId } ∧
      (∀ r c : Int, r ≠ row ∨ c ≠ column → b'.cellAt r c = b.cellAt r c) ∧
      mget playerId b'.playerStates = some ⟨some ⟨row, column⟩, none, false⟩ ∧
      (∀ q, q ≠ playerId → mget q b'.playerStates = mget q b.playerStates) ∧
      b'.listeners = [] ∧
      b'.claimLocks = b.claimLocks ∧
      b'.height = b.height ∧ b'.width = b.width := by
  rcases hIdle with hnone | hsome
  · obtain ⟨b', hA, hB, hC, hD, hE, hF, hG, hH, hI⟩ :=
      Board.first_flip_eval { b with playerStates := mset playerId idleState b.playerStates }
        playerId row column cell (mget_mset_self ..) hr0 hr1 hc0 hc1 hcell hcard hctl hclaim
    refine ⟨b', ?_, hB, hC, hD, ?_, hF, hG, hH, hI⟩
    · rw [Board.flip_init_none b playerId row column hnone]
      exact hA
    · intro q hq
      rw [hE q hq]
      exact mget_mset_ne _ _ (fun h => hq h.symm)
  · exact Board.first_flip_eval b playerId row column cell hsome hr0 hr1 hc0 hc1 hcell
      hcard hctl hclaim

/-- Witness for C7 on a concrete fresh `1x2` board. -/
theorem C7_witness :
    ((Board.fromCards 1 2 [["A", "A"]]).flip "p1" 0 0).2.cellAt 0 0 =
      some ⟨"A", true, some "p1"⟩ ∧
    mget "p1" ((Board.fromCards 1 2 [["A", "A"]]).flip "p1" 0 0).2.playerStates =
      some ⟨some ⟨0, 0⟩, none, false⟩ ∧
    ((Board.fromCards 1 2 [["A", "A"]]).flip "p1" 0 0).2.claimLocks = [] := by
  obtain ⟨b', h1, h2, h3, h4, h5, h6, h7, h8, h9⟩ :=
    C7_first_flip_succeeds (Board.fromCards 1 2 [["A", "A"]]) "p1" 0 0 ⟨"A", false, none⟩
      (Or.inl rfl) (by decide) (by decide) (by decide) (by decide) rfl (by decide)
      (Or.inl rfl) rfl
  rw [h1]
  exact ⟨h2, h4, h7⟩

/-- C6: when a player mid-second-flip (state `HoldingFirst(f)`) targets an
in-bounds cell holding no card, the first card's controller is cleared, the
pending second card is recorded as the absent sentinel
(`HoldingPair(f, None, matched=false)`), a change is published, and the call
fails with `invalid card position`; when the second-flip target is face-up
and controlled, the same release happens and the call fails with
`card is controlled by another player`. -/
theorem C6_second_flip_release_paths :
    (∀ (b : Board) (playerId : String) (row column : Int) (f : Coord) (cell fcell : CardCell),
      mget playerId b.playerStates = some ⟨some f, none, false⟩ →
      0 ≤ row → row < (b.height : Int) → 0 ≤ column → column < (b.width : Int) →
      b.cellAt row column = some cell → cell.card = "" →
      b.cellAt f.row f.col = some fcell →
      ∃ b' : Board,
        b.flip playerId row column = (.error "invalid card position", b') ∧
        b'.cellAt f.row f.col = some { fcell with controller := none } ∧
        mget playerId b'.playerStates = some ⟨some f, some noneCard, false⟩ ∧
        b'.listeners = []) ∧
    (∀ (b : Board) (playerId : String) (row column : Int) (f : Coord) (cell fcell : CardCell),
      mget playerId b.playerStates = some ⟨some f, none, false⟩ →
      0 ≤ row → row < (b.height : Int) → 0 ≤ column → column < (b.width : Int) →
      b.cellAt row column = some cell → ¬cell.card = "" →
      cell.faceUp = true → cell.controller ≠ none →
      b.cellAt f.row f.col = some fcell →
      ∃ b' : Board,
        b.flip playerId row column = (.error "card is controlled by another player", b') ∧
        b'.cellAt f.row f.col = some { fcell with controller := none } ∧
        mget playerId b'.playerStates = some ⟨some f, some noneCard, false⟩ ∧
        b'.listeners = []) := by
  constructor
  · intro b playerId row column f cell fcell hst hr0 hr1 hc0 hc1 hcell hcard hf
    obtain ⟨b', h1, h2, h3, h4, h5, h6, h7, h8, h9⟩ :=
      Board.second_flip_nocard_eval b playerId row column f cell fcell hst hr0 hr1 hc0 hc1
        hcell hcard hf
    exact ⟨b', h1, h2, h4, h6⟩
  · intro b playerId row column f cell fcell hst hr0 hr1 hc0 hc1 hcell hcard hfup hctl hf
    obtain ⟨b', h1, h2, h3, h4, h5, h6, h7, h8, h9⟩ :=
      Board.second_flip_controlled_eval b playerId row column f cell fcell hst hr0 hr1 hc0 hc1
        hcell hcard hfup hctl hf
    exact ⟨b', h1, h2, h4, h6⟩

/-- Witness for C6 on concrete boards exercising both failure paths. -/
theorem C6_witness :
    ((Board.mk 1 2 [[⟨"A", true, some "p1"⟩, ⟨"", false, none⟩]]
          [("p1", ⟨some ⟨0, 0⟩, none, false⟩)] [] []).flip "p1" 0 1).1 =
        .error "invalid card position" ∧
    (((Board.mk 1 2 [[⟨"A", true, some "p1"⟩, ⟨"", false, none⟩]]
          [("p1", ⟨some ⟨0, 0⟩, none, false⟩)] [] []).flip "p1" 0 1).2.cellAt 0 0 =
        some ⟨"A", true, none⟩) ∧
    ((Board.mk 1 2 [[⟨"A", true, some "p1"⟩, ⟨"B", true, some "p2"⟩]]
          [("p1", ⟨some ⟨0, 0⟩, none, false⟩)] [] []).flip "p1" 0 1).1 =
        .error "card is controlled by another player" ∧
    mget "p1" (((Board.mk 1 2 [[⟨"A", true, some "p1"⟩, ⟨"B", true, some "p2"⟩]]
          [("p1", ⟨some ⟨0, 0⟩, none, false⟩)] [] []).flip "p1" 0 1).2.playerStates) =
        some ⟨some ⟨0, 0⟩, some noneCard, false⟩ := by
  obtain ⟨bA, hA1, hA2, hA3, hA4⟩ :=
    C6_second_flip_release_paths.1
      (Board.mk 1 2 [[⟨"A", true, some "p1"⟩, ⟨"", false, none⟩]]
        [("p1", ⟨some ⟨0, 0⟩, none, false⟩)] [] [])
      "p1" 0 1 ⟨0, 0⟩ ⟨"", false, none⟩ ⟨"A", true, some "p1"⟩
      rfl (by decide) (by decide) (by decide) (by decide) rfl rfl rfl
  obtain ⟨bB, hB1, hB2, hB3, hB4⟩ :=
    C6_second_flip_release_paths.2
      (Board.mk 1 2 [[⟨"A", true, some "p1"⟩, ⟨"B", true, some "p2"⟩]]
        [("p1", ⟨some ⟨0, 0⟩, none, false⟩)] [] [])
      "p1" 0 1 ⟨0, 0⟩ ⟨"B", true, some "p2"⟩ ⟨"A", true, some "p1"⟩
      rfl (by decide) (by decide) (by decide) (by decide) rfl (by decide) rfl
      (by decide) rfl
  rw [hA1, hB1]
  exact ⟨rfl, hA2, rfl, hB3⟩

/-- C10: a player in state `HoldingFirst(first)` who flips their own first
card (face-up and controlled by themself) gets the error
`card is controlled by another player` even though the controller is the
player themself; as a side effect the first card's controller is cleared
(the card stays face up) and the pending second card is recorded as absent. -/
theorem C10_self_controlled_second_flip (b : Board) (playerId : String) (row column : Int)
    (f : Coord) (fcell : CardCell)
    (hst : mget playerId b.playerStates = some ⟨some f, none, false⟩)
    (hself : f = ⟨row, column⟩)
    (hr0 : 0 ≤ row) (hr1 : row < (b.height : Int))
    (hc0 : 0 ≤ column) (hc1 : column < (b.width : Int))
    (hf : b.cellAt row column = some fcell)
    (hcard : ¬fcell.card = "")
    (hfup : fcell.faceUp = true)
    (hctl : fcell.controller = some playerId) :
    ∃ b' : Board,
      b.flip playerId row column = (.error "card is controlled by another player", b') ∧
      b'.cellAt row column = some { fcell with controller := none } ∧
      (b'.cellAt row column).map CardCell.faceUp = some true ∧
      (∀ r c : Int, r ≠ row ∨ c ≠ column → b'.cellAt r c = b.cellAt r c) ∧
      mget playerId b'.playerStates = some ⟨some ⟨row, column⟩, some noneCard, false⟩ ∧
      b'.listeners = [] := by
  subst hself
  obtain ⟨b', h1, h2, h3, h4, h5, h6, h7, h8, h9⟩ :=
    Board.second_flip_controlled_eval b playerId row column ⟨row, column⟩ fcell fcell hst
      hr0 hr1 hc0 hc1 hf hcard hfup (by rw [hctl]; exact fun h => Option.noConfusion h) hf
  refine ⟨b', h1, h2, ?_, h3, h4, h6⟩
  rw [h2]
  simp [hfup]

/-- Witness for C10 on a concrete board. -/
theorem C10_witness :
    (((Board.mk 1 2 [[⟨"A", true, some "p1"⟩, ⟨"A", false, none⟩]]
        [("p1", ⟨some ⟨0, 0⟩, none, false⟩)] [] []).flip "p1" 0 0).1 =
      .error "card is controlled by another player") ∧
    (((Board.mk 1 2 [[⟨"A", true, some "p1"⟩, ⟨"A", false, none⟩]]
        [("p1", ⟨some ⟨0, 0⟩, none, false⟩)] [] []).flip "p1" 0 0).2.cellAt 0 0 =
      some ⟨"A", true, none⟩) ∧
    mget "p1" (((Board.mk 1 2 [[⟨"A", true, some "p1"⟩, ⟨"A", false, none⟩]]
        [("p1", ⟨some ⟨0, 0⟩, none, false⟩)] [] []).flip "p1" 0 0).2.playerStates) =
      some ⟨some ⟨0, 0⟩, some noneCard, false⟩ := by
  obtain ⟨b', h1, h2, h3, h4, h5, h6⟩ :=
    C10_self_controlled_second_flip
      (Board.mk 1 2 [[⟨"A", true, some "p1"⟩, ⟨"A", false, none⟩]]
        [("p1", ⟨some ⟨0, 0⟩, none, false⟩)] [] [])
      "p1" 0 0 ⟨0, 0⟩ ⟨"A", true, some "p1"⟩ rfl rfl (by decide) (by decide) (by decide)
      (by decide) rfl (by decide) rfl rfl
  rw [h1]
  exact ⟨rfl, h2, h5⟩

/-- C4: for a player in state `HoldingFirst(f)` whose second flip targets an
in-bounds cell (distinct from `f`) that holds a card and is not
face-up-and-controlled: the target is set face up; if its card equals the
first card's value both cells' controller becomes the player and the state
becomes `HoldingPair(f, target, matched=true)`; otherwise both cells'
controller is cleared while both cards stay face up, and the state becomes
`HoldingPair(f, target, matched=false)`; in either case the change is
published and the player's snapshot is returned. -/
theorem C4_second_flip_resolution (b : Board) (playerId : String) (row column : Int)
    (f : Coord) (cell fcell : CardCell)
    (hst : mget playerId b.playerStates = some ⟨some f, none, false⟩)
    (hr0 : 0 ≤ row) (hr1 : row < (b.height : Int))
    (hc0 : 0 ≤ column) (hc1 : column < (b.width : Int))
    (hcell : b.cellAt row column = some cell)
    (hcard : ¬cell.card = "")
    (hnotctl : ¬(cell.faceUp = true ∧ cell.controller ≠ none))
    (hfst : b.cellAt f.row f.col = some fcell)
    (hne : f.row ≠ row ∨ f.col ≠ column) :
    ∃ b' : Board,
      b.flip playerId row column = (.ok (b'.look playerId), b') ∧
      b'.cellAt row column =
        some ⟨cell.card, true, if cell.card = fcell.card then some playerId else none⟩ ∧
      b'.cellAt f.row f.col =
        some ⟨fcell.card, fcell.faceUp, if cell.card = fcell.card then some playerId else none⟩ ∧
      (∀ r c : Int, (r ≠ row ∨ c ≠ column) → (r ≠ f.row ∨ c ≠ f.col) →
        b'.cellAt r c = b.cellAt r c) ∧
      mget playerId b'.playerStates =
        some ⟨some f, some ⟨row, column⟩, decide (cell.card = fcell.card)⟩ ∧
      (∀ q, q ≠ playerId → mget q b'.playerStates = mget q b.playerStates) ∧
      b'.listeners = [] ∧
      b'.claimLocks = b.claimLocks ∧
      b'.height = b.height ∧ b'.width = b.width := by
  have hb3 : mset playerId ⟨some f, none, false⟩ b.playerStates = b.playerStates :=
    mset_eq_of_mget hst
  have hclean : b.cleanupPreviousMove playerId = b :=
    Board.cleanup_noop _ _ (fun st hst' => by rw [hst] at hst'; cases hst'; exact Or.inr rfl)
  have hbnd : ¬(row < 0 ∨ row ≥ (b.height : Int) ∨ column < 0 ∨ column ≥ (b.width : Int)) := by
    omega
  have hneTgt : row ≠ f.row ∨ column ≠ f.col := hne.imp Ne.symm Ne.symm
  have hf2 : (b.updCell row column (fun c => { c with faceUp := true })).cellAt f.row f.col =
      some fcell := by
    rw [Board.cellAt_updCell_ne _ _ hne]
    exact hfst
  by_cases hm : cell.card = fcell.card
  · obtain ⟨bN, hBN⟩ : ∃ x : Board, Board.notifyAll
        { ((b.updCell row column (fun c => { c with faceUp := true })).updCell row column
            (fun c => { c with controller := some playerId })).updCell f.row f.col
            (fun c => { c with controller := some playerId }) with
          playerStates := mset playerId ⟨some f, some ⟨row, column⟩, true⟩ b.playerStates } =
        x := ⟨_, rfl⟩
    have hflip : b.flip playerId row column = (.ok (bN.look playerId), bN) := by
      rw [← hBN]
      simp only [Board.flip, hst, if_neg hbnd, hclean, Option.getD_some, hb3,
        Board.flipSecond, hcell, if_neg hcard, if_neg hnotctl, hf2, if_pos hm]
      simp only [Board.updCell_board, Board.updCell_height, Board.updCell_width,
        Board.updCell_playerStates, Board.updCell_listeners, Board.updCell_claimLocks]
    have hbb : bN.board =
        (((b.updCell row column (fun c => { c with faceUp := true })).updCell row column
            (fun c => { c with controller := some playerId })).updCell f.row f.col
            (fun c => { c with controller := some playerId })).board := by
      rw [← hBN]; rfl
    have hps : bN.playerStates =
        mset playerId ⟨some f, some ⟨row, column⟩, true⟩ b.playerStates := by
      rw [← hBN]; rfl
    refine ⟨bN, hflip, ?_, ?_, ?_, ?_, ?_, ?_, ?_, ?_, ?_⟩
    · rw [@Board.cellAt_congr _ bN row column hbb,
        Board.cellAt_updCell_ne _ _ hneTgt, Board.cellAt_updCell_self,
        Board.cellAt_updCell_self, hcell]
      simp [hm]
    · rw [@Board.cellAt_congr _ bN f.row f.col hbb,
        Board.cellAt_updCell_self, Board.cellAt_updCell_ne _ _ hne,
        Board.cellAt_updCell_ne _ _ hne, hfst]
      simp [hm]
    · intro r c hrc hrf
      rw [@Board.cellAt_congr _ bN r c hbb,
        Board.cellAt_updCell_ne _ _ hrf, Board.cellAt_updCell_ne _ _ hrc,
        Board.cellAt_updCell_ne _ _ hrc]
    · rw [hps, mget_mset_self]
      simp [hm]
    · intro q hq
      rw [hps, mget_mset_ne _ _ (fun h => hq h.symm)]
    · rw [← hBN]; rfl
    · rw [← hBN]; simp
    · rw [← hBN]; simp
    · rw [← hBN]; simp
  · obtain ⟨bN, hBN⟩ : ∃ x : Board, Board.notifyAll
        { ((b.updCell row column (fun c => { c with faceUp := true })).updCell row column
            (fun c => { c with controller := none })).updCell f.row f.col
            (fun c => { c with controller := none }) with
          playerStates := mset playerId ⟨some f, some ⟨row, column⟩, false⟩ b.playerStates } =
        x := ⟨_, rfl⟩
    have hflip : b.flip playerId row column = (.ok (bN.look playerId), bN) := by
      rw [← hBN]
      simp only [Board.flip, hst, if_neg hbnd, hclean, Option.getD_some, hb3,
        Board.flipSecond, hcell, if_neg hcard, if_neg hnotctl, hf2, if_neg hm]
      simp only [Board.updCell_board, Board.updCell_height, Board.updCell_width,
        Board.updCell_playerStates, Board.updCell_listeners, Board.updCell_claimLocks]
    have hbb : bN.board =
        (((b.updCell row column (fun c => { c with faceUp := true })).updCell row column
            (fun c => { c with controller := none })).updCell f.row f.col
            (fun c => { c with controller := none })).board := by
      rw [← hBN]; rfl
    have hps : bN.playerStates =
        mset playerId ⟨some f, some ⟨row, column⟩, false⟩ b.playerStates := by
      rw [← hBN]; rfl
    refine ⟨bN, hflip, ?_, ?_, ?_, ?_, ?_, ?_, ?_, ?_, ?_⟩
    · rw [@Board.cellAt_congr _ bN row column hbb,
        Board.cellAt_updCell_ne _ _ hneTgt, Board.cellAt_updCell_self,
        Board.cellAt_updCell_self, hcell]
      simp [hm]
    · rw [@Board.cellAt_congr _ bN f.row f.col hbb,
        Board.cellAt_updCell_self, Board.cellAt_updCell_ne _ _ hne,
        Board.cellAt_updCell_ne _ _ hne, hfst]
      simp [hm]
    · intro r c hrc hrf
      rw [@Board.cellAt_congr _ bN r c hbb,
        Board.cellAt_updCell_ne _ _ hrf, Board.cellAt_updCell_ne _ _ hrc,
        Board.cellAt_updCell_ne _ _ hrc]
    · rw [hps, mget_mset_self]
      simp [hm]
    · intro q hq
      rw [hps, mget_mset_ne _ _ (fun h => hq h.symm)]
    · rw [← hBN]; rfl
    · rw [← hBN]; simp
    · rw [← hBN]; simp
    · rw [← hBN]; simp

/-- Witness for C4: a matching and a non-matching second flip on concrete
boards. -/
theorem C4_witness :
    (mget "p1" (((Board.mk 1 2 [[⟨"A", true, some "p1"⟩, ⟨"A", false, none⟩]]
        [("p1", ⟨some ⟨0, 0⟩, none, false⟩)] [] []).flip "p1" 0 1).2.playerStates) =
      some ⟨some ⟨0, 0⟩, some ⟨0, 1⟩, true⟩) ∧
    (((Board.mk 1 2 [[⟨"A", true, some "p1"⟩, ⟨"A", false, none⟩]]
        [("p1", ⟨some ⟨0, 0⟩, none, false⟩)] [] []).flip "p1" 0 1).2.cellAt 0 1 =
      some ⟨"A", true, some "p1"⟩) ∧
    (mget "p1" (((Board.mk 1 2 [[⟨"A", true, some "p1"⟩, ⟨"B", false, none⟩]]
        [("p1", ⟨some ⟨0, 0⟩, none, false⟩)] [] []).flip "p1" 0 1).2.playerStates) =
      some ⟨some ⟨0, 0⟩, some ⟨0, 1⟩, false⟩) ∧
    (((Board.mk 1 2 [[⟨"A", true, some "p1"⟩, ⟨"B", false, none⟩]]
        [("p1", ⟨some ⟨0, 0⟩, none, false⟩)] [] []).flip "p1" 0 1).2.cellAt 0 0 =
      some ⟨"A", true, none⟩) := by
  obtain ⟨bA, hA1, hA2, hA3, hA4, hA5, hA6, hA7, hA8, hA9, hA10⟩ :=
    C4_second_flip_resolution
      (Board.mk 1 2 [[⟨"A", true, some "p1"⟩, ⟨"A", false, none⟩]]
        [("p1", ⟨some ⟨0, 0⟩, none, false⟩)] [] [])
      "p1" 0 1 ⟨0, 0⟩ ⟨"A", false, none⟩ ⟨"A", true, some "p1"⟩
      rfl (by decide) (by decide) (by decide) (by decide) rfl (by decide) (by decide)
      rfl (by decide)
  obtain ⟨bB, hB1, hB2, hB3, hB4, hB5, hB6, hB7, hB8, hB9, hB10⟩ :=
    C4_second_flip_resolution
      (Board.mk 1 2 [[⟨"A", true, some "p1"⟩, ⟨"B", false, none⟩]]
        [("p1", ⟨some ⟨0, 0⟩, none, false⟩)] [] [])
      "p1" 0 1 ⟨0, 0⟩ ⟨"B", false, none⟩ ⟨"A", true, some "p1"⟩
      rfl (by decide) (by decide) (by decide) (by decide) rfl (by decide) (by decide)
      rfl (by decide)
  rw [hA1, hB1]
  exact ⟨hA5, hA2, hB5, hB3⟩

namespace Board

@[simp] theorem faceDownStep_playerStates (b : Board) (p : String) (pos : Coord) :
    (b.faceDownStep p pos).playerStates = b.playerStates := by
  unfold faceDownStep
  cases b.cellAt pos.row pos.col with
  | none => rfl
  | some cell =>
    dsimp only
    split <;> simp

@[simp] theorem faceDownStep_listeners (b : Board) (p : String) (pos : Coord) :
    (b.faceDownStep p pos).listeners = b.listeners := by
  unfold faceDownStep
  cases b.cellAt pos.row pos.col with
  | none => rfl
  | some cell =>
    dsimp only
    split <;> simp

@[simp] theorem faceDownStep_height (b : Board) (p : String) (pos : Coord) :
    (b.faceDownStep p pos).height = b.height := by
  unfold faceDownStep
  cases b.cellAt pos.row pos.col with
  | none => rfl
  | some cell =>
    dsimp only
    split <;> simp

@[simp] theorem faceDownStep_width (b : Board) (p : String) (pos : Coord) :
    (b.faceDownStep p pos).width = b.width := by
  unfold faceDownStep
  cases b.cellAt pos.row pos.col with
  | none => rfl
  | some cell =>
    dsimp only
    split <;> simp

theorem faceDownStep_cellAt_ne (b : Board) (p : String) (pos : Coord) {r c : Int}
    (hne : r ≠ pos.row ∨ c ≠ pos.col) :
    (b.faceDownStep p pos).cellAt r c = b.cellAt r c := by
  unfold faceDownStep
  cases b.cellAt pos.row pos.col with
  | none => rfl
  | some cell =>
    dsimp only
    split
    · exact cellAt_updCell_ne _ _ hne
    · rfl

theorem faceDownStep_cellAt_self (b : Board) (p : String) (pos : Coord) {cell : CardCell}
    (h : b.cellAt pos.row pos.col = some cell) :
    (b.faceDownStep p pos).cellAt pos.row pos.col =
      some (if cell.faceUp = true ∧ cell.controller = none ∧
          ¬ isCardInPlayerStates b.playerStates p pos.row pos.col = true then
        { cell with faceUp := false } else cell) := by
  unfold faceDownStep
  rw [h]
  dsimp only
  by_cases hc : cell.faceUp = true ∧ cell.controller = none ∧
      ¬ isCardInPlayerStates b.playerStates p pos.row pos.col = true
  · rw [if_pos hc, if_pos hc, cellAt_updCell_self, h]
    rfl
  · rw [if_neg hc, if_neg hc]
    exact h

end Board

/-- C3: the cleanup run at the start of every flip call behaves exactly by
the caller's state.  In Idle (no entry, or the idle entry) it changes
nothing.  In `HoldingPair(a, s, matched=true)` it removes both cells (card,
face-up flag, and controller cleared) and resets the state to Idle, and the
removed cells render `"none"` to every viewer.  In
`HoldingPair(a, s, matched=false)` with a real second coordinate, each
recorded cell that still exists, is face up, and has no controller is turned
face down unless some other player's tracked state references that exact
coordinate as their pending first or second card; the state resets to Idle.
In `HoldingPair(a, None, matched=false)` only the first cell is subject to
the face-down rule, and the state resets to Idle. -/
theorem C3_cleanup_behavior :
    (∀ (b : Board) (playerId : String),
      (mget playerId b.playerStates = none ∨ mget playerId b.playerStates = some idleState) →
      b.cleanupPreviousMove playerId = b) ∧
    (∀ (b : Board) (playerId : String) (a s : Coord) (ca cs : CardCell),
      mget playerId b.playerStates = some ⟨some a, some s, true⟩ →
      (a.row ≠ s.row ∨ a.col ≠ s.col) →
      b.cellAt a.row a.col = some ca →
      b.cellAt s.row s.col = some cs →
      (b.cleanupPreviousMove playerId).cellAt a.row a.col = some (Board.clearCell ca) ∧
      (b.cleanupPreviousMove playerId).cellAt s.row s.col = some (Board.clearCell cs) ∧
      (∀ r c : Int, (r ≠ a.row ∨ c ≠ a.col) → (r ≠ s.row ∨ c ≠ s.col) →
        (b.cleanupPreviousMove playerId).cellAt r c = b.cellAt r c) ∧
      mget playerId (b.cleanupPreviousMove playerId).playerStates = some idleState ∧
      (∀ q, q ≠ playerId →
        mget q (b.cleanupPreviousMove playerId).playerStates = mget q b.playerStates) ∧
      (∀ viewer : String, Board.renderCell viewer (Board.clearCell ca) = "none" ∧
        Board.renderCell viewer (Board.clearCell cs) = "none")) ∧
    (∀ (b : Board) (playerId : String) (a s : Coord) (ca cs : CardCell),
      mget playerId b.playerStates = some ⟨some a, some s, false⟩ →
      s ≠ noneCard →
      (a.row ≠ s.row ∨ a.col ≠ s.col) →
      b.cellAt a.row a.col = some ca →
      b.cellAt s.row s.col = some cs →
      (b.cleanupPreviousMove playerId).cellAt a.row a.col =
        some (if ca.faceUp = true ∧ ca.controller = none ∧
            ¬ Board.isCardInPlayerStates b.playerStates playerId a.row a.col = true then
          { ca with faceUp := false } else ca) ∧
      (b.cleanupPreviousMove playerId).cellAt s.row s.col =
        some (if cs.faceUp = true ∧ cs.controller = none ∧
            ¬ Board.isCardInPlayerStates b.playerStates playerId s.row s.col = true then
          { cs with faceUp := false } else cs) ∧
      (∀ r c : Int, (r ≠ a.row ∨ c ≠ a.col) → (r ≠ s.row ∨ c ≠ s.col) →
        (b.cleanupPreviousMove playerId).cellAt r c = b.cellAt r c) ∧
      mget playerId (b.cleanupPreviousMove playerId).playerStates = some idleState ∧
      (b.cleanupPreviousMove playerId).listeners = b.listeners) ∧
    (∀ (b : Board) (playerId : String) (a : Coord) (ca : CardCell),
      mget playerId b.playerStates = some ⟨some a, some noneCard, false⟩ →
      b.cellAt a.row a.col = some ca →
      (b.cleanupPreviousMove playerId).cellAt a.row a.col =
        some (if ca.faceUp = true ∧ ca.controller = none ∧
            ¬ Board.isCardInPlayerStates b.playerStates playerId a.row a.col = true then
          { ca with faceUp := false } else ca) ∧
      (∀ r c : Int, (r ≠ a.row ∨ c ≠ a.col) →
        (b.cleanupPreviousMove playerId).cellAt r c = b.cellAt r c) ∧
      mget playerId (b.cleanupPreviousMove playerId).playerStates = some idleState ∧
      (b.cleanupPreviousMove playerId).listeners = []) := by
  refine ⟨?_, ?_, ?_, ?_⟩
  · intro b playerId h
    rcases h with h | h
    · unfold Board.cleanupPreviousMove
      rw [h]
    · unfold Board.cleanupPreviousMove
      rw [h]
      rfl
  · intro b playerId a s ca cs hst hne ha hs
    have hneS : s.row ≠ a.row ∨ s.col ≠ a.col := hne.imp Ne.symm Ne.symm
    have hboard : (b.cleanupPreviousMove playerId).board =
        ((b.updCell a.row a.col Board.clearCell).updCell s.row s.col Board.clearCell).board := by
      simp only [Board.cleanupPreviousMove, hst]
    have hstates : (b.cleanupPreviousMove playerId).playerStates =
        mset playerId idleState b.playerStates := by
      simp only [Board.cleanupPreviousMove, hst]
      simp only [Board.updCell_playerStates]
    have hs1 : (b.updCell a.row a.col Board.clearCell).cellAt s.row s.col = some cs := by
      rw [Board.cellAt_updCell_ne _ _ hneS]
      exact hs
    refine ⟨?_, ?_, ?_, ?_, ?_, ?_⟩
    · rw [@Board.cellAt_congr
        ((b.updCell a.row a.col Board.clearCell).updCell s.row s.col Board.clearCell)
        (b.cleanupPreviousMove playerId) a.row a.col hboard,
        Board.cellAt_updCell_ne _ _ hne, Board.cellAt_updCell_self, ha]
      rfl
    · rw [@Board.cellAt_congr
        ((b.updCell a.row a.col Board.clearCell).updCell s.row s.col Board.clearCell)
        (b.cleanupPreviousMove playerId) s.row s.col hboard,
        Board.cellAt_updCell_self, hs1]
      rfl
    · intro r c hra hrs
      rw [@Board.cellAt_congr
        ((b.updCell a.row a.col Board.clearCell).updCell s.row s.col Board.clearCell)
        (b.cleanupPreviousMove playerId) r c hboard,
        Board.cellAt_updCell_ne _ _ hrs, Board.cellAt_updCell_ne _ _ hra]
    · rw [hstates]
      exact mget_mset_self ..
    · intro q hq
      rw [hstates]
      exact mget_mset_ne _ _ (fun h => hq h.symm)
    · intro viewer
      constructor <;> rfl
  · intro b playerId a s ca cs hst hsnc hne ha hs
    have hneS : s.row ≠ a.row ∨ s.col ≠ a.col := hne.imp Ne.symm Ne.symm
    have hboard : (b.cleanupPreviousMove playerId).board =
        ((b.faceDownStep playerId a).faceDownStep playerId s).board := by
      simp only [Board.cleanupPreviousMove, hst, if_neg hsnc]
    have hstates : (b.cleanupPreviousMove playerId).playerStates =
        mset playerId idleState b.playerStates := by
      simp only [Board.cleanupPreviousMove, hst, if_neg hsnc]
      simp only [Board.faceDownStep_playerStates]
    have hlist : (b.cleanupPreviousMove playerId).listeners = b.listeners := by
      simp only [Board.cleanupPreviousMove, hst, if_neg hsnc]
      simp only [Board.faceDownStep_listeners]
    have hsA : (b.faceDownStep playerId a).cellAt s.row s.col = some cs := by
      rw [Board.faceDownStep_cellAt_ne _ _ _ hneS]
      exact hs
    refine ⟨?_, ?_, ?_, ?_, ?_⟩
    · rw [@Board.cellAt_congr ((b.faceDownStep playerId a).faceDownStep playerId s)
        (b.cleanupPreviousMove playerId) a.row a.col hboard,
        Board.faceDownStep_cellAt_ne _ _ _ hne, Board.faceDownStep_cellAt_self _ _ _ ha]
    · rw [@Board.cellAt_congr ((b.faceDownStep playerId a).faceDownStep playerId s)
        (b.cleanupPreviousMove playerId) s.row s.col hboard,
        Board.faceDownStep_cellAt_self _ _ _ hsA]
      simp only [Board.faceDownStep_playerStates]
    · intro r c hra hrs
      rw [@Board.cellAt_congr ((b.faceDownStep playerId a).faceDownStep playerId s)
        (b.cleanupPreviousMove playerId) r c hboard,
        Board.faceDownStep_cellAt_ne _ _ _ hrs, Board.faceDownStep_cellAt_ne _ _ _ hra]
    · rw [hstates]
      exact mget_mset_self ..
    · exact hlist
  · intro b playerId a ca hst ha
    have hboard : (b.cleanupPreviousMove playerId).board =
        (b.faceDownStep playerId a).board := by
      simp only [Board.cleanupPreviousMove, hst, eq_self_iff_true, if_true]
      simp only [Board.notifyAll_board]
    have hstates : (b.cleanupPreviousMove playerId).playerStates =
        mset playerId idleState b.playerStates := by
      simp only [Board.cleanupPreviousMove, hst, eq_self_iff_true, if_true]
      simp only [Board.notifyAll_playerStates, Board.faceDownStep_playerStates]
    have hlist : (b.cleanupPreviousMove playerId).listeners = [] := by
      simp only [Board.cleanupPreviousMove, hst, eq_self_iff_true, if_true]
      simp only [Board.notifyAll_listeners]
    refine ⟨?_, ?_, ?_, ?_⟩
    · rw [@Board.cellAt_congr (b.faceDownStep playerId a)
        (b.cleanupPreviousMove playerId) a.row a.col hboard,
        Board.faceDownStep_cellAt_self _ _ _ ha]
    · intro r c hra
      rw [@Board.cellAt_congr (b.faceDownStep playerId a)
        (b.cleanupPreviousMove playerId) r c hboard,
        Board.faceDownStep_cellAt_ne _ _ _ hra]
    · rw [hstates]
      exact mget_mset_self ..
    · exact hlist

/-- Witness for C3: a matched pair is removed and renders `"none"`; an
unmatched pair is turned face down; the idle state is untouched. -/
theorem C3_witness :
    ((Board.mk 1 2 [[⟨"A", true, some "p1"⟩, ⟨"A", true, some "p1"⟩]]
        [("p1", ⟨some ⟨0, 0⟩, some ⟨0, 1⟩, true⟩)] [] []).cleanupPreviousMove "p1").cellAt 0 0 =
      some ⟨"", false, none⟩ ∧
    mget "p1" ((Board.mk 1 2 [[⟨"A", true, some "p1"⟩, ⟨"A", true, some "p1"⟩]]
        [("p1", ⟨some ⟨0, 0⟩, some ⟨0, 1⟩, true⟩)] [] []).cleanupPreviousMove "p1").playerStates =
      some idleState ∧
    Board.renderCell "p2" (Board.clearCell ⟨"A", true, some "p1"⟩) = "none" ∧
    ((Board.mk 1 2 [[⟨"A", true, none⟩, ⟨"B", true, none⟩]]
        [("p1", ⟨some ⟨0, 0⟩, some ⟨0, 1⟩, false⟩)] [] []).cleanupPreviousMove "p1").cellAt 0 1 =
      some ⟨"B", false, none⟩ ∧
    (Board.mk 1 2 [[⟨"A", false, none⟩, ⟨"B", false, none⟩]]
        [("p1", idleState)] [] []).cleanupPreviousMove "p1" =
      Board.mk 1 2 [[⟨"A", false, none⟩, ⟨"B", false, none⟩]] [("p1", idleState)] [] [] := by
  obtain ⟨h1, h2, h3, h4, h5, h6⟩ :=
    C3_cleanup_behavior.2.1
      (Board.mk 1 2 [[⟨"A", true, some "p1"⟩, ⟨"A", true, some "p1"⟩]]
        [("p1", ⟨some ⟨0, 0⟩, some ⟨0, 1⟩, true⟩)] [] [])
      "p1" ⟨0, 0⟩ ⟨0, 1⟩ ⟨"A", true, some "p1"⟩ ⟨"A", true, some "p1"⟩
      rfl (by decide) rfl rfl
  obtain ⟨g1, g2, g3, g4, g5⟩ :=
    C3_cleanup_behavior.2.2.1
      (Board.mk 1 2 [[⟨"A", true, none⟩, ⟨"B", true, none⟩]]
        [("p1", ⟨some ⟨0, 0⟩, some ⟨0, 1⟩, false⟩)] [] [])
      "p1" ⟨0, 0⟩ ⟨0, 1⟩ ⟨"A", true, none⟩ ⟨"B", true, none⟩
      rfl (by decide) (by decide) rfl rfl
  refine ⟨h1, h4, (h6 "p2").1, ?_, ?_⟩
  · rw [g2]
    rfl
  · exact C3_cleanup_behavior.1
      (Board.mk 1 2 [[⟨"A", false, none⟩, ⟨"B", false, none⟩]] [("p1", idleState)] [] [])
      "p1" (Or.inr rfl)

namespace Board

/-- One `map` step: with a sound memo table, the cell's label is replaced by
`fn` pointwise, the table stays sound, and its key list grows exactly when a
new non-empty label is first seen. -/
theorem mapCell_spec (fn : String → String) (memo : List (String × String)) (cell : CardCell)
    (hinv : ∀ e ∈ memo, e.2 = fn e.1) :
    (mapCell fn memo cell).1 =
      (if cell.card = "" then cell else { cell with card := fn cell.card }) ∧
    (∀ e ∈ (mapCell fn memo cell).2, e.2 = fn e.1) ∧
    ((mapCell fn memo cell).2.map Prod.fst =
      if cell.card = "" ∨ (mget cell.card memo).isSome then memo.map Prod.fst
      else memo.map Prod.fst ++ [cell.card]) := by
  by_cases hc : cell.card = ""
  · refine ⟨?_, ?_, ?_⟩
    · simp [mapCell, hc]
    · simp only [mapCell, if_pos hc]
      exact fun e he => hinv e he
    · simp [mapCell, hc]
  · cases hmem : mget cell.card memo with
    | some v =>
      have hv : v = fn cell.card := hinv _ (mget_some_mem hmem)
      refine ⟨?_, ?_, ?_⟩
      · simp [mapCell, hc, hmem, hv]
      · simp only [mapCell, if_neg hc, hmem, Option.isSome_some, if_true, if_pos]
        exact fun e he => hinv e he
      · simp [mapCell, hc, hmem]
    | none =>
      refine ⟨?_, ?_, ?_⟩
      · simp [mapCell, hc, hmem, mget_mset_self]
      · intro e he
        simp only [mapCell, if_neg hc, hmem, Option.isSome_none, Bool.false_eq_true,
          if_false] at he
        rcases mem_mset he with h | h
        · exact hinv e h
        · rw [h]
      · simp only [mapCell, if_neg hc, hmem, Option.isSome_none, Bool.false_eq_true,
          if_false, or_false]
        exact map_fst_mset_of_mget_none _ hmem

/-- `map`'s sweep over one row: pointwise relabelling, memo soundness, key
uniqueness, and key coverage. -/
theorem mapRow_spec (fn : String → String) :
    ∀ (row : List CardCell) (memo : List (String × String)),
    (∀ e ∈ memo, e.2 = fn e.1) → ((memo.map Prod.fst).Nodup) →
    (mapRow fn memo row).1 =
      row.map (fun cell => if cell.card = "" then cell else { cell with card := fn cell.card }) ∧
    (∀ e ∈ (mapRow fn memo row).2, e.2 = fn e.1) ∧
    (((mapRow fn memo row).2.map Prod.fst).Nodup) ∧
    (∀ k, k ∈ (mapRow fn memo row).2.map Prod.fst ↔
      (k ∈ memo.map Prod.fst ∨ (k ≠ "" ∧ ∃ cl ∈ row, cl.card = k))) := by
  intro row
  induction row with
  | nil =>
    intro memo hinv hnd
    refine ⟨rfl, fun e he => hinv e he, hnd, ?_⟩
    simp [mapRow]
  | cons cell rest ih =>
    intro memo hinv hnd
    obtain ⟨hc1, hc2, hc3⟩ := mapCell_spec fn memo cell hinv
    have hnd' : (((mapCell fn memo cell).2.map Prod.fst)).Nodup := by
      rw [hc3]
      by_cases h : cell.card = "" ∨ (mget cell.card memo).isSome
      · simp [h, hnd]
      · simp only [h, if_false]
        push_neg at h
        rw [List.nodup_append]
        refine ⟨hnd, List.nodup_singleton _, ?_⟩
        intro a ha hb
        simp at hb
        subst hb
        have : mget cell.card memo = none := by
          cases hm : mget cell.card memo with
          | none => rfl
          | some v => rw [hm] at h; simp at h
        exact (mget_eq_none_iff.mp this) ha
    obtain ⟨ih1, ih2, ih3, ih4⟩ := ih (mapCell fn memo cell).2 hc2 hnd'
    refine ⟨?_, ih2, ih3, ?_⟩
    · simp only [mapRow, List.map_cons]
      rw [ih1, hc1]
    · intro k
      rw [show (mapRow fn memo (cell :: rest)).2 = (mapRow fn (mapCell fn memo cell).2 rest).2
          from rfl]
      rw [ih4 k]
      constructor
      · rintro (hk | hk)
        · rw [hc3] at hk
          by_cases h : cell.card = "" ∨ (mget cell.card memo).isSome
          · simp only [if_pos h] at hk
            exact Or.inl hk
          · simp only [if_neg h] at hk
            push_neg at h
            rcases List.mem_append.mp hk with hk | hk
            · exact Or.inl hk
            · simp at hk
              subst hk
              exact Or.inr ⟨h.1, cell, by simp, rfl⟩
        · exact Or.inr ⟨hk.1, hk.2.choose, ⟨by
            have := hk.2.choose_spec
            exact List.mem_cons_of_mem _ this.1, hk.2.choose_spec.2⟩⟩
      · rintro (hk | ⟨hne, cl, hcl, hk⟩)
        · left
          rw [hc3]
          by_cases h : cell.card = "" ∨ (mget cell.card memo).isSome
          · simp only [if_pos h]; exact hk
          · simp only [if_neg h]; exact List.mem_append.mpr (Or.inl hk)
        · rcases List.mem_cons.mp hcl with hcl | hcl
          · subst hcl
            left
            rw [hc3]
            by_cases h : cl.card = "" ∨ (mget cl.card memo).isSome
            · rcases h with h | h
              · exact absurd (hk ▸ h) (hk ▸ hne)
              · simp only [if_pos (Or.inr h)]
                subst hk
                by_contra hmem
                rw [← mget_eq_none_iff] at hmem
                rw [hmem] at h
                simp at h
            · simp only [if_neg h]
              subst hk
              exact List.mem_append.mpr (Or.inr (by simp))
          · right
            exact ⟨hne, cl, hcl, hk⟩

/-- `map`'s sweep over the grid: pointwise relabelling, memo soundness, key
uniqueness, and key coverage. -/
theorem mapGrid_spec (fn : String → String) :
    ∀ (grid : List (List CardCell)) (memo : List (String × String)),
    (∀ e ∈ memo, e.2 = fn e.1) → ((memo.map Prod.fst).Nodup) →
    (mapGrid fn memo grid).1 =
      grid.map (fun row => row.map
        (fun cell => if cell.card = "" then cell else { cell with card := fn cell.card })) ∧
    (∀ e ∈ (mapGrid fn memo grid).2, e.2 = fn e.1) ∧
    (((mapGrid fn memo grid).2.map Prod.fst).Nodup) ∧
    (∀ k, k ∈ (mapGrid fn memo grid).2.map Prod.fst ↔
      (k ∈ memo.map Prod.fst ∨ (k ≠ "" ∧ ∃ row ∈ grid, ∃ cl ∈ row, cl.card = k))) := by
  intro grid
  induction grid with
  | nil =>
    intro memo hinv hnd
    refine ⟨rfl, fun e he => hinv e he, hnd, ?_⟩
    simp [mapGrid]
  | cons row rest ih =>
    intro memo hinv hnd
    obtain ⟨hr1, hr2, hr3, hr4⟩ := mapRow_spec fn row memo hinv hnd
    obtain ⟨ih1, ih2, ih3, ih4⟩ := ih (mapRow fn memo row).2 hr2 hr3
    refine ⟨?_, ih2, ih3, ?_⟩
    · simp only [mapGrid, List.map_cons]
      rw [ih1, hr1]
    · intro k
      rw [show (mapGrid fn memo (row :: rest)).2 = (mapGrid fn (mapRow fn memo row).2 rest).2
          from rfl]
      rw [ih4 k, hr4 k]
      constructor
      · rintro ((hk | ⟨hne, cl, hcl, hk⟩) | ⟨hne, r, hr, cl, hcl, hk⟩)
        · exact Or.inl hk
        · exact Or.inr ⟨hne, row, by simp, cl, hcl, hk⟩
        · exact Or.inr ⟨hne, r, List.mem_cons_of_mem _ hr, cl, hcl, hk⟩
      · rintro (hk | ⟨hne, r, hr, cl, hcl, hk⟩)
        · exact Or.inl (Or.inl hk)
        · rcases List.mem_cons.mp hr with hr | hr
          · subst hr
            exact Or.inl (Or.inr ⟨hne, cl, hcl, hk⟩)
          · exact Or.inr ⟨hne, r, hr, cl, hcl, hk⟩

end Board

theorem jsIndex_map {α β : Type} (g : α → β) (l : List α) (i : Int) :
    jsIndex (l.map g) i = (jsIndex l i).map g := by
  unfold jsIndex
  split
  · rfl
  · simp

/-- A board whose grid is the row-wise image of another's reads pointwise. -/
theorem cellAt_of_mapped {b b2 : Board} (g : CardCell → CardCell)
    (h : b2.board = b.board.map (fun row => row.map g)) (r c : Int) :
    b2.cellAt r c = (b.cellAt r c).map g := by
  unfold Board.cellAt
  rw [h, jsIndex_map]
  cases jsIndex b.board r with
  | none => rfl
  | some row => simp [jsIndex_map]

/-- C5: after `map(playerId, fn)` every cell that held a non-empty card `c`
holds `fn c`, empty cells are untouched, two cells with equal labels before
hold equal labels after (for every observer), face-up flags, controllers,
player states, claims, and dimensions are unchanged, the change is published,
and the caller's snapshot of the new board is returned; the memo table
computed by the sweep has one sound entry (`value = fn key`) per distinct
non-empty label present, with no duplicate keys. -/
theorem C5_map_memoized_pointwise (b : Board) (playerId : String) (fn : String → String) :
    ∃ b' : Board,
      b.map playerId fn = (b'.look playerId, b') ∧
      (∀ r c : Int, b'.cellAt r c = (b.cellAt r c).map
        (fun cell => if cell.card = "" then cell else { cell with card := fn cell.card })) ∧
      (∀ r c r' c' : Int, ∀ cl cl' : CardCell,
        b.cellAt r c = some cl → b.cellAt r' c' = some cl' → cl.card = cl'.card →
        (b'.cellAt r c).map CardCell.card = (b'.cellAt r' c').map CardCell.card) ∧
      b'.playerStates = b.playerStates ∧
      b'.claimLocks = b.claimLocks ∧
      b'.listeners = [] ∧
      b'.height = b.height ∧ b'.width = b.width ∧
      (∀ e ∈ (Board.mapGrid fn [] b.board).2, e.2 = fn e.1) ∧
      ((Board.mapGrid fn [] b.board).2.map Prod.fst).Nodup ∧
      (∀ k, k ∈ (Board.mapGrid fn [] b.board).2.map Prod.fst ↔
        (k ≠ "" ∧ ∃ row ∈ b.board, ∃ cl ∈ row, cl.card = k)) := by
  obtain ⟨hg1, hg2, hg3, hg4⟩ := Board.mapGrid_spec fn b.board [] (by simp) (by simp)
  have hbb : (b.map playerId fn).2.board = b.board.map (fun row => row.map
      (fun cell => if cell.card = "" then cell else { cell with card := fn cell.card })) := by
    show (Board.notifyAll { b with board := (Board.mapGrid fn [] b.board).1 }).board = _
    rw [Board.notifyAll_board]
    exact hg1
  have hpt : ∀ r c : Int, (b.map playerId fn).2.cellAt r c = (b.cellAt r c).map
      (fun cell => if cell.card = "" then cell else { cell with card := fn cell.card }) :=
    fun r c => cellAt_of_mapped _ hbb r c
  refine ⟨(b.map playerId fn).2, rfl, hpt, ?_, rfl, rfl, rfl, rfl, rfl, hg2, hg3, ?_⟩
  · intro r c r' c' cl cl' h1 h2 hcc
    rw [hpt r c, hpt r' c', h1, h2]
    simp only [Option.map_some']
    congr 1
    by_cases he : cl.card = ""
    · have he' : cl'.card = "" := by rw [← hcc]; exact he
      simp [he, he', hcc]
    · have he' : ¬cl'.card = "" := by rw [← hcc]; exact he
      simp [he, he', hcc]
  · intro k
    rw [hg4 k]
    simp

/-- Witness for C5 on a concrete board and relabelling function. -/
theorem C5_witness :
    ∃ b' : Board,
      (Board.mk 1 2 [[⟨"A", true, some "p1"⟩, ⟨"A", false, none⟩]]
        [("p1", ⟨some ⟨0, 0⟩, none, false⟩)] [] []).map "p1" (fun s => s ++ "!") =
        (b'.look "p1", b') ∧
      b'.cellAt 0 0 = some ⟨"A!", true, some "p1"⟩ ∧
      b'.cellAt 0 1 = some ⟨"A!", false, none⟩ ∧
      (b'.cellAt 0 0).map CardCell.card = (b'.cellAt 0 1).map CardCell.card ∧
      b'.playerStates = [("p1", ⟨some ⟨0, 0⟩, none, false⟩)] := by
  obtain ⟨b', h1, h2, h3, h4, h5, h6, h7, h8, h9, h10, h11⟩ :=
    C5_map_memoized_pointwise
      (Board.mk 1 2 [[⟨"A", true, some "p1"⟩, ⟨"A", false, none⟩]]
        [("p1", ⟨some ⟨0, 0⟩, none, false⟩)] [] [])
      "p1" (fun s => s ++ "!")
  refine ⟨b', h1, ?_, ?_, ?_, h4⟩
  · rw [h2 0 0]; rfl
  · rw [h2 0 1]; rfl
  · exact h3 0 0 0 1 ⟨"A", true, some "p1"⟩ ⟨"A", false, none⟩ rfl rfl rfl

namespace Board

@[simp] theorem faceDownStep_claimLocks (b : Board) (p : String) (pos : Coord) :
    (b.faceDownStep p pos).claimLocks = b.claimLocks := by
  unfold faceDownStep
  cases b.cellAt pos.row pos.col with
  | none => rfl
  | some cell =>
    dsimp only
    split <;> simp

@[simp] theorem cleanup_claimLocks (b : Board) (p : String) :
    (b.cleanupPreviousMove p).claimLocks = b.claimLocks := by
  unfold cleanupPreviousMove
  cases mget p b.playerStates with
  | none => rfl
  | some st =>
    obtain ⟨fc, sc, hm⟩ := st
    dsimp only
    cases fc with
    | none => cases sc <;> cases hm <;> rfl
    | some a =>
      cases sc with
      | none => cases hm <;> rfl
      | some s =>
        cases hm
        · dsimp only
          split <;> simp
        · simp

@[simp] theorem cleanup_height (b : Board) (p : String) :
    (b.cleanupPreviousMove p).height = b.height := by
  unfold cleanupPreviousMove
  cases mget p b.playerStates with
  | none => rfl
  | some st =>
    obtain ⟨fc, sc, hm⟩ := st
    dsimp only
    cases fc with
    | none => cases sc <;> cases hm <;> rfl
    | some a =>
      cases sc with
      | none => cases hm <;> rfl
      | some s =>
        cases hm
        · dsimp only
          split <;> simp
        · simp

@[simp] theorem cleanup_width (b : Board) (p : String) :
    (b.cleanupPreviousMove p).width = b.width := by
  unfold cleanupPreviousMove
  cases mget p b.playerStates with
  | none => rfl
  | some st =>
    obtain ⟨fc, sc, hm⟩ := st
    dsimp only
    cases fc with
    | none => cases sc <;> cases hm <;> rfl
    | some a =>
      cases sc with
      | none => cases hm <;> rfl
      | some s =>
        cases hm
        · dsimp only
          split <;> simp
        · simp

theorem flipNoCard_claimLocks (b : Board) (p : String) (st : PlayerState) :
    (b.flipNoCard p st).2.claimLocks = b.claimLocks := by
  unfold flipNoCard
  cases st.firstCard with
  | none => rfl
  | some f =>
    dsimp only
    cases b.cellAt f.row f.col with
    | none => rfl
    | some q => simp

theorem flipSecond_claimLocks (b : Board) (p : String) (r c : Int) (cell : CardCell)
    (st : PlayerState) (f : Coord) :
    (b.flipSecond p r c cell st f).2.claimLocks = b.claimLocks := by
  unfold flipSecond
  split
  · split <;> simp
  · dsimp only
    split
    · simp
    · split <;> simp

theorem releaseClaim_claimLocks (b : Board) (r c : Int) (o : String) :
    (b.releaseClaim r c o).claimLocks =
      if mget (cellKey r c) b.claimLocks = some o then mdel (cellKey r c) b.claimLocks
      else b.claimLocks := by
  unfold releaseClaim
  by_cases h : mget (cellKey r c) b.claimLocks = some o <;> simp [h]

theorem flipFirst_claimLocks (b : Board) (p : String) (r c : Int) (cell : CardCell)
    (st : PlayerState) (h : (b.flipFirst p r c cell st).1 ≠ .blocked) :
    (b.flipFirst p r c cell st).2.claimLocks = b.claimLocks := by
  by_cases h1 : cell.faceUp = true ∧ cell.controller ≠ none ∧ cell.controller ≠ some p
  · simp only [flipFirst, if_pos h1] at h
    exact absurd rfl h
  · by_cases h2 : cell.card = ""
    · simp only [flipFirst, if_neg h1, if_pos h2]
    · by_cases h3 : cell.controller ≠ none ∧ cell.controller ≠ some p
      · simp only [flipFirst, if_neg h1, if_neg h2, if_pos h3] at h
        exact absurd rfl h
      · by_cases h4 : (mget (cellKey r c) b.claimLocks).isSome
        · simp only [flipFirst, if_neg h1, if_neg h2, if_neg h3, tryClaimCell,
            if_pos h4] at h
          exact absurd rfl h
        · have h4' : mget (cellKey r c) b.claimLocks = none := by
            cases hm : mget (cellKey r c) b.claimLocks with
            | none => rfl
            | some v => rw [hm] at h4; simp at h4
          simp only [flipFirst, if_neg h1, if_neg h2, if_neg h3, tryClaimCell,
            if_neg h4, if_neg h2, if_neg h3]
          simp only [releaseClaim_claimLocks, notifyAll_claimLocks, updCell_claimLocks,
            mget_mset_self, eq_self_iff_true, if_true]
          exact mdel_mset_of_mget_none _ h4'

end Board

namespace Board

/-- A completed `flip` call (with a recorded caller state) restores the claim
registry exactly. -/
theorem flip_completed_claimLocks_aux (b : Board) (playerId : String) (r c : Int)
    (st : PlayerState) (hst : mget playerId b.playerStates = some st) :
    (b.flip playerId r c).1 ≠ .blocked → (b.flip playerId r c).2.claimLocks = b.claimLocks := by
  by_cases hbd : (r < 0 ∨ r ≥ (b.height : Int) ∨ c < 0 ∨ c ≥ (b.width : Int))
  · simp only [flip, hst, if_pos hbd]
    intro _
    trivial
  · simp only [flip, hst, if_neg hbd]
    split
    · intro _
      rw [flipNoCard_claimLocks]
      simp
    · split
      · intro _
        rw [flipNoCard_claimLocks]
        simp
      · split
        · intro h
          rw [flipFirst_claimLocks _ _ _ _ _ _ h]
          simp
        · intro _
          rw [flipSecond_claimLocks]
          simp

/-- A completed `flip` call restores the claim registry exactly. -/
theorem flip_completed_claimLocks (b : Board) (playerId : String) (r c : Int) :
    (b.flip playerId r c).1 ≠ .blocked → (b.flip playerId r c).2.claimLocks = b.claimLocks := by
  cases hmg : mget playerId b.playerStates with
  | none =>
    rw [flip_init_none b playerId r c hmg]
    intro h
    rw [flip_completed_claimLocks_aux _ playerId r c idleState (mget_mset_self ..) h]
  | some st => exact flip_completed_claimLocks_aux b playerId r c st hmg

end Board

/-- C8: `tryClaim` succeeds (returning `true` and recording the owner) iff no
claim currently exists for the cell, and returns `false` leaving the registry
unchanged otherwise; `release` removes a cell's claim iff it is currently
held by the releasing owner; and every completed `flip` call (returning or
failing, as opposed to suspending) leaves the claim registry exactly as it
found it, so no flip leaves a stale claim behind. -/
theorem C8_claim_registry :
    (∀ (b : Board) (row col : Int) (owner : String),
      ((b.tryClaimCell row col owner).1 = true ↔
        mget (Board.cellKey row col) b.claimLocks = none) ∧
      ((b.tryClaimCell row col owner).1 = true →
        (b.tryClaimCell row col owner).2.claimLocks =
          mset (Board.cellKey row col) owner b.claimLocks ∧
        mget (Board.cellKey row col) (b.tryClaimCell row col owner).2.claimLocks =
          some owner) ∧
      ((b.tryClaimCell row col owner).1 = false → (b.tryClaimCell row col owner).2 = b)) ∧
    (∀ (b : Board) (row col : Int) (owner : String),
      (b.releaseClaim row col owner).claimLocks =
        if mget (Board.cellKey row col) b.claimLocks = some owner then
          mdel (Board.cellKey row col) b.claimLocks
        else b.claimLocks) ∧
    (∀ (b : Board) (playerId : String) (r c : Int),
      (b.flip playerId r c).1 ≠ .blocked →
      (b.flip playerId r c).2.claimLocks = b.claimLocks) := by
  refine ⟨?_, ?_, ?_⟩
  · intro b row col owner
    refine ⟨?_, ?_, ?_⟩
    · cases hm : mget (Board.cellKey row col) b.claimLocks with
      | none => simp [Board.tryClaimCell, hm]
      | some v => simp [Board.tryClaimCell, hm]
    · intro ht
      cases hm : mget (Board.cellKey row col) b.claimLocks with
      | none =>
        constructor
        · simp [Board.tryClaimCell, hm]
        · simp [Board.tryClaimCell, hm, mget_mset_self]
      | some v =>
        simp [Board.tryClaimCell, hm] at ht
    · intro hf
      cases hm : mget (Board.cellKey row col) b.claimLocks with
      | none => simp [Board.tryClaimCell, hm] at hf
      | some v => simp [Board.tryClaimCell, hm]
  · exact Board.releaseClaim_claimLocks
  · exact Board.flip_completed_claimLocks

/-- Witness for C8 on concrete claim registries and a completed flip. -/
theorem C8_witness :
    ((Board.mk 1 2 [[⟨"A", false, none⟩, ⟨"A", false, none⟩]] [] [] []).tryClaimCell
      0 0 "p1").1 = true ∧
    ((Board.mk 1 2 [[⟨"A", false, none⟩, ⟨"A", false, none⟩]] [] [] []).tryClaimCell
      0 0 "p1").2.claimLocks = [("0,0", "p1")] ∧
    ((Board.mk 1 2 [[⟨"A", false, none⟩, ⟨"A", false, none⟩]] [] []
      [("0,0", "p2")]).tryClaimCell 0 0 "p1").1 = false ∧
    ((Board.mk 1 2 [[⟨"A", false, none⟩, ⟨"A", false, none⟩]] [] []
      [("0,0", "p2")]).releaseClaim 0 0 "p2").claimLocks = [] ∧
    ((Board.fromCards 1 2 [["A", "A"]]).flip "p1" 0 0).2.claimLocks = [] := by
  obtain ⟨hT, hR, hF⟩ := C8_claim_registry
  obtain ⟨h1, h2, h3⟩ := hT (Board.mk 1 2 [[⟨"A", false, none⟩, ⟨"A", false, none⟩]] [] [] [])
    0 0 "p1"
  refine ⟨h1.mpr rfl, ?_, ?_, ?_, ?_⟩
  · exact (h2 (h1.mpr rfl)).1
  · obtain ⟨g1, g2, g3⟩ := hT (Board.mk 1 2 [[⟨"A", false, none⟩, ⟨"A", false, none⟩]] [] []
      [("0,0", "p2")]) 0 0 "p1"
    by_contra hc
    have := g1.mp (by
      cases hx : ((Board.mk 1 2 [[⟨"A", false, none⟩, ⟨"A", false, none⟩]] [] []
        [("0,0", "p2")]).tryClaimCell 0 0 "p1").1
      · exact absurd hx hc
      · rfl)
    exact Option.noConfusion this
  · rw [hR (Board.mk 1 2 [[⟨"A", false, none⟩, ⟨"A", false, none⟩]] [] []
      [("0,0", "p2")]) 0 0 "p2"]
    rfl
  · rw [hF (Board.fromCards 1 2 [["A", "A"]]) "p1" 0 0 (by decide)]
    rfl

/-! ### The board invariant (C9) -/

/-- Per-cell invariant: a controlled cell is face up, and a removed cell
(card `""`) is face down and uncontrolled (the checks of
`checkRepFunctions`, `board.ts` lines 101–111). -/
def cellInvB (c : CardCell) : Bool :=
  (c.controller == none || c.faceUp) &&
  (!(c.card == "") || (!c.faceUp && c.controller == none))

/-- A coordinate lies inside the board. -/
def inBoundsB (b : Board) (f : Coord) : Bool :=
  decide (0 ≤ f.row) && decide (f.row < (b.height : Int)) &&
  decide (0 ≤ f.col) && decide (f.col < (b.width : Int))

/-- The cell at `f` (if any) is controlled by `p`. -/
def controllerIs (b : Board) (f : Coord) (p : String) : Bool :=
  match b.cellAt f.row f.col with
  | some cc => cc.controller == some p
  | none => true

/-- Auxiliary player-state invariant: a `HoldingFirst` state points at an
in-bounds cell controlled by its player; a matched pair points at two
in-bounds cells controlled by its player; a state never has a second card
without a first, nor a match without a second card. -/
def stateInvB (b : Board) (p : String) (st : PlayerState) : Bool :=
  (match st.firstCard, st.secondCard with
   | some f, none => inBoundsB b f && controllerIs b f p
   | none, some _ => false
   | _, _ => true) &&
  (match st.hasMatch, st.firstCard, st.secondCard with
   | true, some a, some s =>
     inBoundsB b a && inBoundsB b s && controllerIs b a p && controllerIs b s p
   | _, _, _ => true) &&
  (match st.hasMatch, st.secondCard with
   | true, none => false
   | _, _ => true)

/-- The grid is a `height × width` rectangle. -/
def boardShape (b : Board) : Prop :=
  b.board.length = b.height ∧ ∀ row ∈ b.board, row.length = b.width

/-- The inductive board invariant: shape, per-cell invariant, and the
auxiliary per-player-state invariant. -/
def StrongInv (b : Board) : Prop :=
  boardShape b ∧
  (∀ row ∈ b.board, ∀ cc ∈ row, cellInvB cc = true) ∧
  (∀ e ∈ b.playerStates, stateInvB b e.1 e.2 = true) ∧
  ((b.playerStates.map Prod.fst).Nodup)

instance (b : Board) : Decidable (boardShape b) := by
  unfold boardShape
  infer_instance

instance (b : Board) : Decidable (StrongInv b) := by
  unfold StrongInv
  infer_instance

/-- Controller monotonicity between two boards, for one player: any cell of
the new board was a cell of the old one, and a cell the old board showed as
controlled by `q` is still controlled by `q`. -/
def ctrlMono (b b' : Board) (q : String) : Prop :=
  ∀ r c cc', b'.cellAt r c = some cc' → ∃ cc, b.cellAt r c = some cc ∧
    (cc.controller = some q → cc'.controller = some q)

theorem ctrlMono_refl (b : Board) (q : String) : ctrlMono b b q :=
  fun _ _ cc' h => ⟨cc', h, fun hq => hq⟩

theorem ctrlMono_trans {a b c : Board} {q : String} (h1 : ctrlMono a b q)
    (h2 : ctrlMono b c q) : ctrlMono a c q := by
  intro r co cc' hc
  obtain ⟨cb, hcb, hqb⟩ := h2 r co cc' hc
  obtain ⟨ca, hca, hqa⟩ := h1 r co cb hcb
  exact ⟨ca, hca, fun hq => hqb (hqa hq)⟩

theorem ctrlMono_of_board_eq {b b' : Board} (q : String) (h : b'.board = b.board) :
    ctrlMono b b' q := by
  intro r c cc' hc
  rw [Board.cellAt_congr r c h] at hc
  exact ⟨cc', hc, fun hq => hq⟩

theorem ctrlMono_updCell (b : Board) (r0 c0 : Int) (g : CardCell → CardCell) (q : String)
    (hg : ∀ cc, b.cellAt r0 c0 = some cc → cc.controller = some q →
      (g cc).controller = some q) :
    ctrlMono b (b.updCell r0 c0 g) q := by
  intro r c cc' hc
  by_cases he : r = r0 ∧ c = c0
  · obtain ⟨rfl, rfl⟩ := he
    rw [Board.cellAt_updCell_self] at hc
    cases hb : b.cellAt r c with
    | none => rw [hb] at hc; exact Option.noConfusion hc
    | some cc =>
      rw [hb] at hc
      injection hc with hcc
      exact ⟨cc, rfl, fun hq => hcc ▸ hg cc hb hq⟩
  · have hne : r ≠ r0 ∨ c ≠ c0 := by
      by_contra hcon
      push_neg at hcon
      exact he ⟨hcon.1, hcon.2⟩
    rw [Board.cellAt_updCell_ne _ _ hne] at hc
    exact ⟨cc', hc, fun hq => hq⟩

theorem inBoundsB_congr {b b' : Board} (f : Coord) (hH : b'.height = b.height)
    (hW : b'.width = b.width) : inBoundsB b' f = inBoundsB b f := by
  unfold inBoundsB
  rw [hH, hW]

theorem controllerIs_mono {b b' : Board} {q : String} (f : Coord) (hm : ctrlMono b b' q)
    (h : controllerIs b f q = true) : controllerIs b' f q = true := by
  unfold controllerIs at h ⊢
  cases hc : b'.cellAt f.row f.col with
  | none => rfl
  | some cc' =>
    obtain ⟨cc, hcc, hmono⟩ := hm f.row f.col cc' hc
    rw [hcc] at h
    dsimp only at h
    have hq : cc.controller = some q := eq_of_beq h
    simp [hmono hq]

theorem stateInvB_mono {b b' : Board} {q : String} {st : PlayerState}
    (hH : b'.height = b.height) (hW : b'.width = b.width) (hm : ctrlMono b b' q)
    (h : stateInvB b q st = true) : stateInvB b' q st = true := by
  unfold stateInvB at h ⊢
  obtain ⟨fc, sc, hmm⟩ := st
  simp only [Bool.and_eq_true] at h ⊢
  obtain ⟨⟨h1, h2⟩, h3⟩ := h
  refine ⟨⟨?_, ?_⟩, h3⟩
  · cases fc with
    | none => cases sc <;> simpa using h1
    | some f =>
      cases sc with
      | none =>
        simp only [] at h1 ⊢
        rw [Bool.and_eq_true] at h1 ⊢
        exact ⟨(inBoundsB_congr f hH hW).symm ▸ h1.1, controllerIs_mono f hm h1.2⟩
      | some s => simpa using h1
  · cases hmm with
    | false => cases fc <;> cases sc <;> simpa using h2
    | true =>
      cases fc with
      | none => cases sc <;> simpa using h2
      | some a =>
        cases sc with
        | none => simpa using h2
        | some s =>
          simp only [] at h2 ⊢
          rw [Bool.and_eq_true, Bool.and_eq_true, Bool.and_eq_true] at h2 ⊢
          obtain ⟨⟨⟨ha1, ha2⟩, ha3⟩, ha4⟩ := h2
          exact ⟨⟨⟨(inBoundsB_congr a hH hW).symm ▸ ha1,
            (inBoundsB_congr s hH hW).symm ▸ ha2⟩,
            controllerIs_mono a hm ha3⟩, controllerIs_mono s hm ha4⟩

/-- Any cell reachable by `cellAt` is a member of the grid. -/
theorem cellAt_mem {b : Board} {r c : Int} {cc : CardCell} (h : b.cellAt r c = some cc) :
    ∃ row ∈ b.board, cc ∈ row := by
  unfold Board.cellAt jsIndex at h
  by_cases hr : r < 0
  · rw [if_pos hr] at h
    exact Option.noConfusion h
  · rw [if_neg hr] at h
    cases hrow : b.board[r.toNat]? with
    | none => rw [hrow] at h; exact Option.noConfusion h
    | some row =>
      rw [hrow] at h
      simp only [Option.some_bind] at h
      by_cases hc : c < 0
      · rw [if_pos hc] at h
        exact Option.noConfusion h
      · rw [if_neg hc] at h
        exact ⟨row, List.getElem?_mem hrow, List.getElem?_mem h⟩

/-- Any grid member is reachable by `cellAt`. -/
theorem mem_cellAt {b : Board} {row : List CardCell} {cc : CardCell}
    (hrow : row ∈ b.board) (hcc : cc ∈ row) : ∃ r c : Int, b.cellAt r c = some cc := by
  obtain ⟨i, hi⟩ := List.getElem_of_mem hrow
  obtain ⟨j, hj⟩ := List.getElem_of_mem hcc
  refine ⟨(i : Int), (j : Int), ?_⟩
  unfold Board.cellAt jsIndex
  rw [if_neg (by omega : ¬((i : Int) < 0))]
  have h1 : b.board[((i : Int)).toNat]? = some row := by
    rw [Int.toNat_natCast, List.getElem?_eq_getElem hi.1]
    exact congrArg some hi.2
  rw [h1]
  simp only [Option.some_bind]
  rw [if_neg (by omega : ¬((j : Int) < 0))]
  rw [Int.toNat_natCast, List.getElem?_eq_getElem hj.1]
  exact congrArg some hj.2

/-- The grid-membership form of the per-cell invariant is equivalent to the
`cellAt` form. -/
theorem cellsInv_iff (b : Board) (P : CardCell → Prop) :
    (∀ row ∈ b.board, ∀ cc ∈ row, P cc) ↔
      (∀ r c : Int, ∀ cc : CardCell, b.cellAt r c = some cc → P cc) := by
  constructor
  · intro h r c cc hcc
    obtain ⟨row, hrow, hmem⟩ := cellAt_mem hcc
    exact h row hrow cc hmem
  · intro h row hrow cc hcc
    obtain ⟨r, c, hrc⟩ := mem_cellAt hrow hcc
    exact h r c cc hrc

/-- `updCell` preserves a per-cell property when the update function does at
the updated position. -/
theorem cellAtInv_updCell {b : Board} {r0 c0 : Int} {g : CardCell → CardCell}
    {P : CardCell → Prop}
    (h : ∀ r c : Int, ∀ cc : CardCell, b.cellAt r c = some cc → P cc)
    (hg : ∀ cc, b.cellAt r0 c0 = some cc → P cc → P (g cc)) :
    ∀ r c : Int, ∀ cc' : CardCell, (b.updCell r0 c0 g).cellAt r c = some cc' → P cc' := by
  intro r c cc' hc
  by_cases he : r = r0 ∧ c = c0
  · obtain ⟨rfl, rfl⟩ := he
    rw [Board.cellAt_updCell_self] at hc
    cases hb : b.cellAt r c with
    | none => rw [hb] at hc; exact Option.noConfusion hc
    | some cc =>
      rw [hb] at hc
      injection hc with hcc
      exact hcc ▸ hg cc hb (h r c cc hb)
  · have hne : r ≠ r0 ∨ c ≠ c0 := by
      by_contra hcon
      push_neg at hcon
      exact he ⟨hcon.1, hcon.2⟩
    rw [Board.cellAt_updCell_ne _ _ hne] at hc
    exact h r c cc' hc

/-- `updCell` preserves the rectangular shape. -/
theorem boardShape_updCell (b : Board) (r c : Int) (g : CardCell → CardCell)
    (h : boardShape b) : boardShape (b.updCell r c g) := by
  obtain ⟨h1, h2⟩ := h
  constructor
  · rw [Board.updCell_board, Board.updCell_height]
    split
    · exact h1
    · rw [lmodify_length]; exact h1
  · intro row hrow
    rw [Board.updCell_width]
    rw [Board.updCell_board] at hrow
    split at hrow
    · exact h2 row hrow
    · rcases mem_lmodify hrow with hr | ⟨y, hy, hxy⟩
      · exact h2 row hr
      · rw [hxy, lmodify_length]
        exact h2 y hy

/-- Entries of `mset` under unique keys: either an untouched entry with a
different key, or the new binding. -/
theorem mem_mset_cases {α : Type} {e : String × α} {k : String} {v : α}
    {m : List (String × α)} (hnd : (m.map Prod.fst).Nodup) (he : e ∈ mset k v m) :
    (e ∈ m ∧ e.1 ≠ k) ∨ e = (k, v) := by
  induction m with
  | nil =>
    simp [mset] at he
    right
    simp [he]
  | cons hd tl ih =>
    obtain ⟨k', v'⟩ := hd
    rw [List.map_cons, List.nodup_cons] at hnd
    by_cases hk : k' = k
    · subst hk
      simp only [mset, if_pos rfl] at he
      rcases List.mem_cons.mp he with he | he
      · right; exact he
      · left
        refine ⟨List.mem_cons_of_mem _ he, ?_⟩
        intro hek
        exact hnd.1 (List.mem_map.mpr ⟨e, he, hek⟩)
    · simp only [mset, if_neg hk] at he
      rcases List.mem_cons.mp he with he | he
      · left
        refine ⟨he ▸ List.mem_cons_self .., ?_⟩
        rw [he]
        exact hk
      · rcases ih hnd.2 he with ⟨h1, h2⟩ | h1
        · exact Or.inl ⟨List.mem_cons_of_mem _ h1, h2⟩
        · exact Or.inr h1

/-- The idle state satisfies the auxiliary state invariant on any board. -/
theorem stateInvB_idle (b : Board) (p : String) : stateInvB b p idleState = true := rfl

theorem controllerIs_elim {b : Board} {f : Coord} {p : String}
    (h : controllerIs b f p = true) :
    ∀ cc, b.cellAt f.row f.col = some cc → cc.controller = some p := by
  intro cc hcc
  unfold controllerIs at h
  rw [hcc] at h
  dsimp only at h
  exact eq_of_beq h

theorem stateInvB_matched {b : Board} {p : String} {a s : Coord}
    (h : stateInvB b p ⟨some a, some s, true⟩ = true) :
    inBoundsB b a = true ∧ inBoundsB b s = true ∧
    controllerIs b a p = true ∧ controllerIs b s p = true := by
  simp only [stateInvB, Bool.and_eq_true] at h
  tauto

theorem stateInvB_first {b : Board} {p : String} {f : Coord} {hm : Bool}
    (h : stateInvB b p ⟨some f, none, hm⟩ = true) :
    inBoundsB b f = true ∧ controllerIs b f p = true ∧ hm = false := by
  cases hm with
  | false =>
    simp only [stateInvB, Bool.and_eq_true] at h
    tauto
  | true =>
    simp only [stateInvB, Bool.and_eq_true] at h
    tauto

theorem boardShape_of_eq {b b' : Board} (h : boardShape b) (hb : b'.board = b.board)
    (hH : b'.height = b.height) (hW : b'.width = b.width) : boardShape b' := by
  unfold boardShape at h ⊢
  rw [hb, hH, hW]
  exact h

theorem ctrlMono_faceDownStep (b : Board) (pid : String) (pos : Coord) (q : String) :
    ctrlMono b (b.faceDownStep pid pos) q := by
  unfold Board.faceDownStep
  cases b.cellAt pos.row pos.col with
  | none => exact ctrlMono_refl b q
  | some cell =>
    dsimp only
    split
    · exact ctrlMono_updCell b pos.row pos.col _ q (fun cc _ hq => hq)
    · exact ctrlMono_refl b q

theorem cellsInv_faceDownStep {b : Board} (pid : String) (pos : Coord)
    (h : ∀ r c : Int, ∀ cc : CardCell, b.cellAt r c = some cc → cellInvB cc = true) :
    ∀ r c : Int, ∀ cc : CardCell, (b.faceDownStep pid pos).cellAt r c = some cc →
      cellInvB cc = true := by
  unfold Board.faceDownStep
  cases hcell : b.cellAt pos.row pos.col with
  | none => exact h
  | some cell =>
    dsimp only
    split
    · rename_i hcond
      refine cellAtInv_updCell h ?_
      intro cc hcc _
      rw [hcell] at hcc
      injection hcc with hcc
      subst hcc
      simp [cellInvB, hcond.2.1]
    · exact h

theorem boardShape_faceDownStep (b : Board) (pid : String) (pos : Coord)
    (h : boardShape b) : boardShape (b.faceDownStep pid pos) := by
  unfold Board.faceDownStep
  cases b.cellAt pos.row pos.col with
  | none => exact h
  | some cell =>
    dsimp only
    split
    · exact boardShape_updCell b pos.row pos.col _ h
    · exact h

/-- Assemble `StrongInv` for a board obtained by transforming the grid and
replacing the acting player's state. -/
theorem strongInv_assemble (b bT : Board) (pid : String) (st' : PlayerState)
    (hInv : StrongInv b)
    (hH : bT.height = b.height) (hW : bT.width = b.width)
    (hShape : boardShape bT)
    (hCells : ∀ row ∈ bT.board, ∀ cc ∈ row, cellInvB cc = true)
    (hStates : bT.playerStates = mset pid st' b.playerStates)
    (hNew : stateInvB bT pid st' = true)
    (hMono : ∀ q, q ≠ pid → ctrlMono b bT q) :
    StrongInv bT := by
  refine ⟨hShape, hCells, ?_, ?_⟩
  · intro e he
    rw [hStates] at he
    rcases mem_mset_cases hInv.2.2.2 he with ⟨hin, hne⟩ | heq
    · exact stateInvB_mono hH hW (hMono e.1 hne) (hInv.2.2.1 e hin)
    · rw [heq]
      exact hNew
  · rw [hStates]
    exact nodup_mset _ hInv.2.2.2

/-- `cleanupPreviousMove` preserves the board invariant. -/
theorem cleanup_strongInv (b : Board) (pid : String) (h : StrongInv b) :
    StrongInv (b.cleanupPreviousMove pid) := by
  cases hmg : mget pid b.playerStates with
  | none =>
    unfold Board.cleanupPreviousMove
    rw [hmg]
    exact h
  | some st =>
    obtain ⟨fc, sc, hm⟩ := st
    have hCellAt : ∀ r c : Int, ∀ cc : CardCell, b.cellAt r c = some cc →
        cellInvB cc = true := (cellsInv_iff b _).mp h.2.1
    cases fc with
    | none =>
      cases sc with
      | none =>
        cases hm <;> (unfold Board.cleanupPreviousMove; rw [hmg]; exact h)
      | some s =>
        cases hm <;> (unfold Board.cleanupPreviousMove; rw [hmg]; exact h)
    | some a =>
      cases sc with
      | none =>
        cases hm <;> (unfold Board.cleanupPreviousMove; rw [hmg]; exact h)
      | some s =>
        cases hm with
        | true =>
          -- Rule 3-A: both cells removed
          obtain ⟨hba, hbs, hca, hcs⟩ := stateInvB_matched (h.2.2.1 _ (mget_some_mem hmg))
          have hboard : (b.cleanupPreviousMove pid).board =
              ((b.updCell a.row a.col Board.clearCell).updCell s.row s.col
                Board.clearCell).board := by
            simp only [Board.cleanupPreviousMove, hmg]
          have hstates : (b.cleanupPreviousMove pid).playerStates =
              mset pid idleState b.playerStates := by
            simp only [Board.cleanupPreviousMove, hmg]
            simp only [Board.updCell_playerStates]
          have hmono1 : ∀ q, q ≠ pid → ctrlMono b (b.updCell a.row a.col Board.clearCell) q := by
            intro q hq
            refine ctrlMono_updCell b a.row a.col _ q ?_
            intro cc hcc hctl
            have := controllerIs_elim hca cc hcc
            rw [this] at hctl
            injection hctl with hctl
            exact absurd hctl.symm hq
          have hmono2 : ∀ q, q ≠ pid →
              ctrlMono (b.updCell a.row a.col Board.clearCell)
                ((b.updCell a.row a.col Board.clearCell).updCell s.row s.col
                  Board.clearCell) q := by
            intro q hq
            refine ctrlMono_updCell _ s.row s.col _ q ?_
            intro cc hcc hctl
            by_cases he : s.row = a.row ∧ s.col = a.col
            · rw [he.1, he.2, Board.cellAt_updCell_self] at hcc
              cases hb2 : b.cellAt a.row a.col with
              | none => rw [hb2] at hcc; exact Option.noConfusion hcc
              | some cd =>
                rw [hb2] at hcc
                injection hcc with hcc
                rw [← hcc] at hctl
                exact Option.noConfusion hctl
            · have hne : s.row ≠ a.row ∨ s.col ≠ a.col := by
                by_contra hcon
                push_neg at hcon
                exact he ⟨hcon.1, hcon.2⟩
              rw [Board.cellAt_updCell_ne _ _ hne] at hcc
              have := controllerIs_elim hcs cc hcc
              rw [this] at hctl
              injection hctl with hctl
              exact absurd hctl.symm hq
          refine strongInv_assemble b _ pid idleState h (Board.cleanup_height ..)
            (Board.cleanup_width ..) ?_ ?_ hstates (stateInvB_idle ..) ?_
          · refine boardShape_of_eq ?_ hboard ?_ ?_
            · exact boardShape_updCell _ s.row s.col _ (boardShape_updCell b a.row a.col _ h.1)
            · rw [Board.cleanup_height]; simp
            · rw [Board.cleanup_width]; simp
          · rw [cellsInv_iff]
            intro r c cc hcc
            rw [Board.cellAt_congr r c hboard] at hcc
            refine cellAtInv_updCell (cellAtInv_updCell hCellAt ?_) ?_ r c cc hcc
            · intro cd _ _
              rfl
            · intro cd _ _
              rfl
          · intro q hq
            exact ctrlMono_trans (ctrlMono_trans (hmono1 q hq) (hmono2 q hq))
              (ctrlMono_of_board_eq q hboard)
        | false =>
          -- Rule 3-B: face-down steps
          by_cases hsnc : s = noneCard
          · subst hsnc
            have hboard : (b.cleanupPreviousMove pid).board =
                (b.faceDownStep pid a).board := by
              simp only [Board.cleanupPreviousMove, hmg, eq_self_iff_true, if_true]
              simp only [Board.notifyAll_board]
            have hstates : (b.cleanupPreviousMove pid).playerStates =
                mset pid idleState b.playerStates := by
              simp only [Board.cleanupPreviousMove, hmg, eq_self_iff_true, if_true]
              simp only [Board.notifyAll_playerStates, Board.faceDownStep_playerStates]
            refine strongInv_assemble b _ pid idleState h (Board.cleanup_height ..)
              (Board.cleanup_width ..) ?_ ?_ hstates (stateInvB_idle ..) ?_
            · refine boardShape_of_eq (boardShape_faceDownStep b pid a h.1) hboard ?_ ?_
              · rw [Board.cleanup_height]; simp
              · rw [Board.cleanup_width]; simp
            · rw [cellsInv_iff]
              intro r c cc hcc
              rw [Board.cellAt_congr r c hboard] at hcc
              exact cellsInv_faceDownStep pid a hCellAt r c cc hcc
            · intro q hq
              exact ctrlMono_trans (ctrlMono_faceDownStep b pid a q)
                (ctrlMono_of_board_eq q hboard)
          · have hboard : (b.cleanupPreviousMove pid).board =
                ((b.faceDownStep pid a).faceDownStep pid s).board := by
              simp only [Board.cleanupPreviousMove, hmg, if_neg hsnc]
            have hstates : (b.cleanupPreviousMove pid).playerStates =
                mset pid idleState b.playerStates := by
              simp only [Board.cleanupPreviousMove, hmg, if_neg hsnc]
              simp only [Board.faceDownStep_playerStates]
            refine strongInv_assemble b _ pid idleState h (Board.cleanup_height ..)
              (Board.cleanup_width ..) ?_ ?_ hstates (stateInvB_idle ..) ?_
            · refine boardShape_of_eq
                (boardShape_faceDownStep _ pid s (boardShape_faceDownStep b pid a h.1))
                hboard ?_ ?_
              · rw [Board.cleanup_height]; simp
              · rw [Board.cleanup_width]; simp
            · rw [cellsInv_iff]
              intro r c cc hcc
              rw [Board.cellAt_congr r c hboard] at hcc
              exact cellsInv_faceDownStep pid s (cellsInv_faceDownStep pid a hCellAt) r c cc hcc
            · intro q hq
              exact ctrlMono_trans (ctrlMono_trans (ctrlMono_faceDownStep b pid a q)
                (ctrlMono_faceDownStep _ pid s q)) (ctrlMono_of_board_eq q hboard)

theorem cellInv_clear_ctrl {cc : CardCell} (h : cellInvB cc = true) :
    cellInvB { cc with controller := none } = true := by
  simp only [cellInvB, Bool.and_eq_true, Bool.or_eq_true] at h ⊢
  refine ⟨Or.inl rfl, ?_⟩
  rcases h.2 with h2 | h2
  · exact Or.inl h2
  · exact Or.inr ⟨h2.1, rfl⟩

/-- `StrongInv` only reads the grid, the player states, and the dimensions. -/
theorem strongInv_congr {b b' : Board} (hb : b'.board = b.board)
    (hp : b'.playerStates = b.playerStates) (hH : b'.height = b.height)
    (hW : b'.width = b.width) (h : StrongInv b) : StrongInv b' := by
  refine ⟨boardShape_of_eq h.1 hb hH hW, ?_, ?_, ?_⟩
  · rw [hb]
    exact h.2.1
  · intro e he
    rw [hp] at he
    exact stateInvB_mono hH hW (ctrlMono_of_board_eq e.1 hb) (h.2.2.1 e he)
  · rw [hp]
    exact h.2.2.2

theorem stateInvB_none {b : Board} {p : String} {sc : Option Coord} {hm : Bool}
    (h : stateInvB b p ⟨none, sc, hm⟩ = true) : sc = none ∧ hm = false := by
  cases sc with
  | some s =>
    rw [show stateInvB b p ⟨none, some s, hm⟩ = false from rfl] at h
    exact Bool.noConfusion h
  | none =>
    cases hm with
    | false => exact ⟨rfl, rfl⟩
    | true =>
      rw [show stateInvB b p ⟨none, none, true⟩ = false from rfl] at h
      exact Bool.noConfusion h

/-- The Rule 2-A error path of `flip` preserves the board invariant. -/
theorem flipNoCard_strongInv (b : Board) (pid : String) (st : PlayerState)
    (hInv : StrongInv b) (hst : mget pid b.playerStates = some st)
    (hsec : st.firstCard ≠ none → st.secondCard = none) :
    StrongInv (b.flipNoCard pid st).2 := by
  cases hfc : st.firstCard with
  | none =>
    have hres : (b.flipNoCard pid st).2 = b := by
      simp only [Board.flipNoCard, hfc]
    rw [hres]
    exact hInv
  | some f =>
    cases hcf : b.cellAt f.row f.col with
    | none =>
      have hres : (b.flipNoCard pid st).2 = b := by
        simp only [Board.flipNoCard, hfc, hcf]
      rw [hres]
      exact hInv
    | some fcell =>
      have hsc : st.secondCard = none := hsec (by rw [hfc]; exact fun h => Option.noConfusion h)
      have hstv : stateInvB b pid ⟨some f, none, st.hasMatch⟩ = true := by
        have hmem := hInv.2.2.1 (pid, st) (mget_some_mem hst)
        rw [show st = ⟨some f, none, st.hasMatch⟩ from by
          obtain ⟨a1, a2, a3⟩ := st
          simp at hfc hsc
          rw [hfc, hsc]] at hmem
        exact hmem
      obtain ⟨hbf, hctf, hhm⟩ := stateInvB_first hstv
      have hCellAt : ∀ r c : Int, ∀ cc : CardCell, b.cellAt r c = some cc →
          cellInvB cc = true := (cellsInv_iff b _).mp hInv.2.1
      have hst' : { st with secondCard := some noneCard } =
          (⟨some f, some noneCard, false⟩ : PlayerState) := by
        obtain ⟨a1, a2, a3⟩ := st
        simp at hfc hhm
        rw [hfc, hhm]
      obtain ⟨bN, hBN⟩ : ∃ x : Board, Board.notifyAll { b.updCell f.row f.col
          (fun cd => { cd with controller := none }) with
        playerStates := mset pid ⟨some f, some noneCard, false⟩ b.playerStates } = x := ⟨_, rfl⟩
      have hres : (b.flipNoCard pid st).2 = bN := by
        rw [← hBN]
        simp only [Board.flipNoCard, hfc, hcf, hhm]
        simp only [Board.updCell_board, Board.updCell_height, Board.updCell_width,
          Board.updCell_playerStates, Board.updCell_listeners, Board.updCell_claimLocks]
      have hbb : bN.board =
          (b.updCell f.row f.col (fun cd => { cd with controller := none })).board := by
        rw [← hBN]; rfl
      have hps : bN.playerStates = mset pid ⟨some f, some noneCard, false⟩ b.playerStates := by
        rw [← hBN]; rfl
      have hHH : bN.height = b.height := by rw [← hBN]; simp
      have hWW : bN.width = b.width := by rw [← hBN]; simp
      rw [hres]
      refine strongInv_assemble b bN pid ⟨some f, some noneCard, false⟩ hInv hHH hWW
        ?_ ?_ hps rfl ?_
      · refine boardShape_of_eq (boardShape_updCell b f.row f.col _ hInv.1) hbb ?_ ?_
        · rw [Board.updCell_height]; exact hHH
        · rw [Board.updCell_width]; exact hWW
      · rw [cellsInv_iff]
        intro r c cc hcc
        rw [Board.cellAt_congr r c hbb] at hcc
        refine cellAtInv_updCell hCellAt ?_ r c cc hcc
        intro cd _ hcd
        exact cellInv_clear_ctrl hcd
      · intro q hq
        refine ctrlMono_trans (ctrlMono_updCell b f.row f.col _ q ?_)
          (ctrlMono_of_board_eq q hbb)
        intro cc hcc hctl
        have := controllerIs_elim hctf cc hcc
        rw [this] at hctl
        injection hctl with hctl
        exact absurd hctl.symm hq

theorem strongInv_watch {b : Board} (p : String) (h : StrongInv b) :
    StrongInv (b.watch p) :=
  strongInv_congr rfl rfl rfl rfl h

theorem strongInv_releaseClaim {b : Board} (r c : Int) (o : String) (h : StrongInv b) :
    StrongInv (b.releaseClaim r c o) :=
  strongInv_congr (by simp) (by simp) (by simp) (by simp) h

/-- The successful first-flip update (Rules 1-B/1-C) preserves the invariant. -/
theorem flipTake_strongInv (b : Board) (pid : String) (row column : Int)
    (cell : CardCell) (st : PlayerState)
    (hInv : StrongInv b) (hst : mget pid b.playerStates = some st)
    (hfc : st.firstCard = none)
    (hcell : b.cellAt row column = some cell)
    (hcard : ¬cell.card = "")
    (hctl : cell.controller = none ∨ cell.controller = some pid)
    (hlo : 0 ≤ row) (hhi : row < (b.height : Int))
    (hclo : 0 ≤ column) (hchi : column < (b.width : Int)) :
    StrongInv ((Board.notifyAll { b.updCell row column
        (fun c => { c with faceUp := true, controller := some pid }) with
      playerStates := mset pid { st with firstCard := some ⟨row, column⟩ }
        (b.updCell row column
          (fun c => { c with faceUp := true, controller := some pid })).playerStates
      }).releaseClaim row column pid) := by
  obtain ⟨fc0, sc0, hm0⟩ := st
  have hstv : stateInvB b pid ⟨fc0, sc0, hm0⟩ = true :=
    hInv.2.2.1 (pid, ⟨fc0, sc0, hm0⟩) (mget_some_mem hst)
  simp only at hfc
  subst hfc
  obtain ⟨hsc, hhm⟩ := stateInvB_none hstv
  subst hsc
  subst hhm
  have hCellAt : ∀ r c : Int, ∀ cc : CardCell, b.cellAt r c = some cc →
      cellInvB cc = true := (cellsInv_iff b _).mp hInv.2.1
  refine strongInv_releaseClaim _ _ _ ?_
  show StrongInv (Board.notifyAll { b.updCell row column
      (fun c => { c with faceUp := true, controller := some pid }) with
    playerStates := mset pid ⟨some ⟨row, column⟩, none, false⟩
      (b.updCell row column
        (fun c => { c with faceUp := true, controller := some pid })).playerStates })
  obtain ⟨bN, hBN⟩ : ∃ x : Board, Board.notifyAll { b.updCell row column
      (fun c => { c with faceUp := true, controller := some pid }) with
    playerStates := mset pid ⟨some ⟨row, column⟩, none, false⟩
      (b.updCell row column
        (fun c => { c with faceUp := true, controller := some pid })).playerStates } = x :=
    ⟨_, rfl⟩
  rw [hBN]
  have hbb : bN.board = (b.updCell row column
      (fun c => { c with faceUp := true, controller := some pid })).board := by
    rw [← hBN]; rfl
  have hps : bN.playerStates = mset pid ⟨some ⟨row, column⟩, none, false⟩ b.playerStates := by
    rw [← hBN]
    simp only [Board.notifyAll_playerStates, Board.updCell_playerStates]
  have hHH : bN.height = b.height := by rw [← hBN]; simp
  have hWW : bN.width = b.width := by rw [← hBN]; simp
  have hcAt : bN.cellAt row column =
      some { cell with faceUp := true, controller := some pid } := by
    rw [Board.cellAt_congr row column hbb, Board.cellAt_updCell_self, hcell]
    rfl
  have hib : inBoundsB bN ⟨row, column⟩ = true := by
    simp [inBoundsB, hHH, hWW, hlo, hhi, hclo, hchi]
  have hcis : controllerIs bN ⟨row, column⟩ pid = true := by
    simp [controllerIs, hcAt]
  have hNew : stateInvB bN pid ⟨some ⟨row, column⟩, none, false⟩ = true := by
    simp [stateInvB, hib, hcis]
  refine strongInv_assemble b bN pid ⟨some ⟨row, column⟩, none, false⟩ hInv hHH hWW
    ?_ ?_ hps hNew ?_
  · refine boardShape_of_eq (boardShape_updCell b row column _ hInv.1) hbb ?_ ?_
    · rw [Board.updCell_height]; exact hHH
    · rw [Board.updCell_width]; exact hWW
  · rw [cellsInv_iff]
    intro r c cc hcc
    rw [Board.cellAt_congr r c hbb] at hcc
    refine cellAtInv_updCell hCellAt ?_ r c cc hcc
    intro cd hcd _
    have hcdc : cd = cell := by
      rw [hcell] at hcd
      exact (Option.some.inj hcd).symm
    subst hcdc
    simp [cellInvB, hcard]
  · intro q hq
    refine ctrlMono_trans (ctrlMono_updCell b row column _ q ?_)
      (ctrlMono_of_board_eq q hbb)
    intro cc hcc hctlq
    have hcce : cc = cell := by
      rw [hcell] at hcc
      exact (Option.some.inj hcc).symm
    subst hcce
    rcases hctl with hn | hp
    · rw [hn] at hctlq
      exact Option.noConfusion hctlq
    · rw [hp] at hctlq
      exact absurd (Option.some.inj hctlq).symm hq

/-- The first-card branch of `flip` preserves the board invariant. -/
theorem flipFirst_strongInv (b : Board) (pid : String) (row column : Int)
    (cell : CardCell) (st : PlayerState)
    (hInv : StrongInv b) (hst : mget pid b.playerStates = some st)
    (hfc : st.firstCard = none)
    (hcell : b.cellAt row column = some cell)
    (hlo : 0 ≤ row) (hhi : row < (b.height : Int))
    (hclo : 0 ≤ column) (hchi : column < (b.width : Int)) :
    StrongInv (b.flipFirst pid row column cell st).2 := by
  by_cases h1 : cell.faceUp = true ∧ cell.controller ≠ none ∧ cell.controller ≠ some pid
  · simp only [Board.flipFirst, if_pos h1]
    exact strongInv_watch pid hInv
  · by_cases h2 : cell.card = ""
    · simp only [Board.flipFirst, if_neg h1, if_pos h2]
      exact hInv
    · by_cases h3 : cell.controller ≠ none ∧ cell.controller ≠ some pid
      · simp only [Board.flipFirst, if_neg h1, if_neg h2, if_pos h3]
        exact strongInv_watch pid hInv
      · have hctl : cell.controller = none ∨ cell.controller = some pid := by
          by_cases hn : cell.controller = none
          · exact Or.inl hn
          · by_cases hp : cell.controller = some pid
            · exact Or.inr hp
            · exact absurd ⟨hn, hp⟩ h3
        by_cases h4 : (mget (Board.cellKey row column) b.claimLocks).isSome
        · simp only [Board.flipFirst, if_neg h1, if_neg h2, if_neg h3,
            Board.tryClaimCell, if_pos h4]
          exact strongInv_watch pid hInv
        · simp only [Board.flipFirst, if_neg h1, if_neg h2, if_neg h3,
            Board.tryClaimCell, if_neg h4, if_neg h2, if_neg h3]
          exact flipTake_strongInv
            { b with claimLocks := mset (Board.cellKey row column) pid b.claimLocks }
            pid row column cell st hInv hst hfc hcell h2 hctl hlo hhi hclo hchi

theorem cellInv_ctrl_facts {cc : CardCell} (h : cellInvB cc = true)
    (hc : cc.controller ≠ none) : cc.faceUp = true ∧ ¬cc.card = "" := by
  simp only [cellInvB, Bool.and_eq_true, Bool.or_eq_true] at h
  obtain ⟨h1, h2⟩ := h
  have hcb : (cc.controller == none) = false := by
    cases hcc : cc.controller with
    | none => exact absurd rfl (by rw [hcc] at hc; exact hc)
    | some v => rfl
  constructor
  · rcases h1 with h1 | h1
    · rw [hcb] at h1
      exact Bool.noConfusion h1
    · exact h1
  · rcases h2 with h2 | h2
    · intro hcard
      rw [hcard] at h2
      simp at h2
    · rw [hcb] at h2
      exact Bool.noConfusion h2.2

/-- Clearing the first card's controller and recording the `none` sentinel as
the second card preserves the invariant. -/
theorem clearFirst_strongInv (b : Board) (pid : String) (f : Coord) (st : PlayerState)
    (hInv : StrongInv b) (hst : mget pid b.playerStates = some st)
    (hfc : st.firstCard = some f) (hsc : st.secondCard = none) :
    StrongInv (Board.notifyAll { b.updCell f.row f.col
        (fun c => { c with controller := none }) with
      playerStates := mset pid { st with secondCard := some noneCard }
        (b.updCell f.row f.col
          (fun c => { c with controller := none })).playerStates }) := by
  obtain ⟨fc0, sc0, hm0⟩ := st
  simp only at hfc hsc
  subst hfc
  subst hsc
  have hstv : stateInvB b pid ⟨some f, none, hm0⟩ = true :=
    hInv.2.2.1 (pid, ⟨some f, none, hm0⟩) (mget_some_mem hst)
  obtain ⟨hbf, hctf, hhm⟩ := stateInvB_first hstv
  subst hhm
  have hCellAt : ∀ r c : Int, ∀ cc : CardCell, b.cellAt r c = some cc →
      cellInvB cc = true := (cellsInv_iff b _).mp hInv.2.1
  show StrongInv (Board.notifyAll { b.updCell f.row f.col
      (fun c => { c with controller := none }) with
    playerStates := mset pid ⟨some f, some noneCard, false⟩
      (b.updCell f.row f.col (fun c => { c with controller := none })).playerStates })
  obtain ⟨bN, hBN⟩ : ∃ x : Board, Board.notifyAll { b.updCell f.row f.col
      (fun c => { c with controller := none }) with
    playerStates := mset pid ⟨some f, some noneCard, false⟩
      (b.updCell f.row f.col
        (fun c => { c with controller := none })).playerStates } = x := ⟨_, rfl⟩
  rw [hBN]
  have hbb : bN.board =
      (b.updCell f.row f.col (fun c => { c with controller := none })).board := by
    rw [← hBN]; rfl
  have hps : bN.playerStates = mset pid ⟨some f, some noneCard, false⟩ b.playerStates := by
    rw [← hBN]
    simp only [Board.notifyAll_playerStates, Board.updCell_playerStates]
  have hHH : bN.height = b.height := by rw [← hBN]; simp
  have hWW : bN.width = b.width := by rw [← hBN]; simp
  refine strongInv_assemble b bN pid ⟨some f, some noneCard, false⟩ hInv hHH hWW
    ?_ ?_ hps rfl ?_
  · refine boardShape_of_eq (boardShape_updCell b f.row f.col _ hInv.1) hbb ?_ ?_
    · rw [Board.updCell_height]; exact hHH
    · rw [Board.updCell_width]; exact hWW
  · rw [cellsInv_iff]
    intro r c cc hcc
    rw [Board.cellAt_congr r c hbb] at hcc
    refine cellAtInv_updCell hCellAt ?_ r c cc hcc
    intro cd _ hcd
    exact cellInv_clear_ctrl hcd
  · intro q hq
    refine ctrlMono_trans (ctrlMono_updCell b f.row f.col _ q ?_)
      (ctrlMono_of_board_eq q hbb)
    intro cc hcc hctl
    have := controllerIs_elim hctf cc hcc
    rw [this] at hctl
    injection hctl with hctl
    exact absurd hctl.symm hq

/-- The second-card branch of `flip` preserves the board invariant. -/
theorem flipSecond_strongInv (b : Board) (pid : String) (row column : Int)
    (cell : CardCell) (st : PlayerState) (f : Coord)
    (hInv : StrongInv b) (hst : mget pid b.playerStates = some st)
    (hfc : st.firstCard = some f) (hsc : st.secondCard = none)
    (hcell : b.cellAt row column = some cell)
    (hcard : ¬cell.card = "")
    (hlo : 0 ≤ row) (hhi : row < (b.height : Int))
    (hclo : 0 ≤ column) (hchi : column < (b.width : Int)) :
    StrongInv (b.flipSecond pid row column cell st f).2 := by
  have hCellAt : ∀ r c : Int, ∀ cc : CardCell, b.cellAt r c = some cc →
      cellInvB cc = true := (cellsInv_iff b _).mp hInv.2.1
  by_cases hA : cell.faceUp = true ∧ cell.controller ≠ none
  · cases hcf : b.cellAt f.row f.col with
    | none =>
      simp only [Board.flipSecond, if_pos hA, hcf]
      exact hInv
    | some fcell =>
      simp only [Board.flipSecond, if_pos hA, hcf]
      exact clearFirst_strongInv b pid f st hInv hst hfc hsc
  · obtain ⟨fc0, sc0, hm0⟩ := st
    simp only at hfc hsc
    subst hfc
    subst hsc
    have hstv : stateInvB b pid ⟨some f, none, hm0⟩ = true :=
      hInv.2.2.1 (pid, ⟨some f, none, hm0⟩) (mget_some_mem hst)
    obtain ⟨hbf, hctf, hhm⟩ := stateInvB_first hstv
    subst hhm
    have hctl' : ∀ q : String, cell.controller = some q → False := by
      intro q hq
      have hfacts := cellInv_ctrl_facts (hCellAt row column cell hcell)
        (by rw [hq]; exact fun h => Option.noConfusion h)
      exact hA ⟨hfacts.1, by rw [hq]; exact fun h => Option.noConfusion h⟩
    cases hcf1 : (b.updCell row column
        (fun c => { c with faceUp := true })).cellAt f.row f.col with
    | none =>
      simp only [Board.flipSecond, if_neg hA, hcf1]
      show StrongInv { b.updCell row column (fun c => { c with faceUp := true }) with
        playerStates := mset pid ⟨none, none, false⟩
          (b.updCell row column (fun c => { c with faceUp := true })).playerStates }
      obtain ⟨bR, hBR⟩ : ∃ x : Board,
          ({ b.updCell row column (fun c => { c with faceUp := true }) with
            playerStates := mset pid ⟨none, none, false⟩
              (b.updCell row column
                (fun c => { c with faceUp := true })).playerStates } : Board) = x := ⟨_, rfl⟩
      rw [hBR]
      have hbb : bR.board =
          (b.updCell row column (fun c => { c with faceUp := true })).board := by
        rw [← hBR]
      have hps : bR.playerStates = mset pid ⟨none, none, false⟩ b.playerStates := by
        rw [← hBR]
        simp only [Board.updCell_playerStates]
      have hHH : bR.height = b.height := by rw [← hBR]; simp
      have hWW : bR.width = b.width := by rw [← hBR]; simp
      refine strongInv_assemble b bR pid ⟨none, none, false⟩ hInv hHH hWW ?_ ?_ hps rfl ?_
      · refine boardShape_of_eq (boardShape_updCell b row column _ hInv.1) hbb ?_ ?_
        · rw [Board.updCell_height]; exact hHH
        · rw [Board.updCell_width]; exact hWW
      · rw [cellsInv_iff]
        intro r c cc hcc
        rw [Board.cellAt_congr r c hbb] at hcc
        refine cellAtInv_updCell hCellAt ?_ r c cc hcc
        intro cd hcd _
        have hcdc : cd = cell := by
          rw [hcell] at hcd
          exact (Option.some.inj hcd).symm
        subst hcdc
        simp [cellInvB, hcard]
      · intro q hq
        refine ctrlMono_trans (ctrlMono_updCell b row column _ q ?_)
          (ctrlMono_of_board_eq q hbb)
        intro cc _ h
        exact h
    | some firstCell =>
      have hne : f.row ≠ row ∨ f.col ≠ column := by
        by_contra hcon
        push_neg at hcon
        have hcellf : b.cellAt f.row f.col = some cell := by
          rw [hcon.1, hcon.2]
          exact hcell
        exact hctl' pid (controllerIs_elim hctf cell hcellf)
      have hfcell : b.cellAt f.row f.col = some firstCell := by
        rw [Board.cellAt_updCell_ne b _ hne] at hcf1
        exact hcf1
      have hpcF : firstCell.controller = some pid := controllerIs_elim hctf firstCell hfcell
      have hfactsF := cellInv_ctrl_facts (hCellAt f.row f.col firstCell hfcell)
        (by rw [hpcF]; exact fun h => Option.noConfusion h)
      have hAt2 : ((b.updCell row column (fun c => { c with faceUp := true })).updCell
          row column (fun c => { c with controller := some pid })).cellAt row column =
          some ⟨cell.card, true, some pid⟩ := by
        rw [Board.cellAt_updCell_self, Board.cellAt_updCell_self, hcell]
        rfl
      have hAtF2 : ((b.updCell row column (fun c => { c with faceUp := true })).updCell
          row column (fun c => { c with controller := some pid })).cellAt f.row f.col =
          some firstCell := by
        rw [Board.cellAt_updCell_ne _ _ hne, Board.cellAt_updCell_ne _ _ hne]
        exact hfcell
      by_cases hm : cell.card = firstCell.card
      · simp only [Board.flipSecond, if_neg hA, hcf1, if_pos hm]
        show StrongInv (Board.notifyAll { ((b.updCell row column
            (fun c => { c with faceUp := true })).updCell row column
            (fun c => { c with controller := some pid })).updCell f.row f.col
            (fun c => { c with controller := some pid }) with
          playerStates := mset pid ⟨some f, some ⟨row, column⟩, true⟩
            (((b.updCell row column
              (fun c => { c with faceUp := true })).updCell row column
              (fun c => { c with controller := some pid })).updCell f.row f.col
              (fun c => { c with controller := some pid })).playerStates })
        obtain ⟨bR, hBR⟩ : ∃ x : Board, Board.notifyAll { ((b.updCell row column
            (fun c => { c with faceUp := true })).updCell row column
            (fun c => { c with controller := some pid })).updCell f.row f.col
            (fun c => { c with controller := some pid }) with
          playerStates := mset pid ⟨some f, some ⟨row, column⟩, true⟩
            (((b.updCell row column
              (fun c => { c with faceUp := true })).updCell row column
              (fun c => { c with controller := some pid })).updCell f.row f.col
              (fun c => { c with controller := some pid })).playerStates } = x := ⟨_, rfl⟩
        rw [hBR]
        have hbb : bR.board = (((b.updCell row column
            (fun c => { c with faceUp := true })).updCell row column
            (fun c => { c with controller := some pid })).updCell f.row f.col
            (fun c => { c with controller := some pid })).board := by
          rw [← hBR]; rfl
        have hps : bR.playerStates =
            mset pid ⟨some f, some ⟨row, column⟩, true⟩ b.playerStates := by
          rw [← hBR]
          simp only [Board.notifyAll_playerStates, Board.updCell_playerStates]
        have hHH : bR.height = b.height := by rw [← hBR]; simp
        have hWW : bR.width = b.width := by rw [← hBR]; simp
        have hAt3 : bR.cellAt row column = some ⟨cell.card, true, some pid⟩ := by
          rw [Board.cellAt_congr row column hbb,
            Board.cellAt_updCell_ne _ _ (hne.imp Ne.symm Ne.symm)]
          exact hAt2
        have hAtF3 : bR.cellAt f.row f.col =
            some ⟨firstCell.card, firstCell.faceUp, some pid⟩ := by
          rw [Board.cellAt_congr f.row f.col hbb, Board.cellAt_updCell_self, hAtF2]
          rfl
        have hcisS : controllerIs bR ⟨row, column⟩ pid = true := by
          simp [controllerIs, hAt3]
        have hcisF : controllerIs bR f pid = true := by
          simp [controllerIs, hAtF3]
        have hibF : inBoundsB bR f = true := by
          rw [inBoundsB_congr f hHH hWW]
          exact hbf
        have hibS : inBoundsB bR ⟨row, column⟩ = true := by
          simp [inBoundsB, hHH, hWW, hlo, hhi, hclo, hchi]
        have hNew : stateInvB bR pid ⟨some f, some ⟨row, column⟩, true⟩ = true := by
          simp [stateInvB, hibF, hibS, hcisF, hcisS]
        have hL0 : ∀ r c : Int, ∀ cc : CardCell,
            (b.updCell row column (fun c => { c with faceUp := true })).cellAt r c =
              some cc → cellInvB cc = true := by
          refine cellAtInv_updCell hCellAt ?_
          intro cd hcd _
          have hcdc : cd = cell := by
            rw [hcell] at hcd
            exact (Option.some.inj hcd).symm
          subst hcdc
          simp [cellInvB, hcard]
        have hL1 : ∀ r c : Int, ∀ cc : CardCell,
            ((b.updCell row column (fun c => { c with faceUp := true })).updCell
              row column (fun c => { c with controller := some pid })).cellAt r c =
              some cc → cellInvB cc = true := by
          refine cellAtInv_updCell hL0 ?_
          intro cd hcd _
          have hcdc : cd = { cell with faceUp := true } := by
            rw [Board.cellAt_updCell_self, hcell] at hcd
            exact (Option.some.inj hcd).symm
          subst hcdc
          simp [cellInvB, hcard]
        have hL2 : ∀ r c : Int, ∀ cc : CardCell,
            (((b.updCell row column (fun c => { c with faceUp := true })).updCell
              row column (fun c => { c with controller := some pid })).updCell f.row f.col
              (fun c => { c with controller := some pid })).cellAt r c =
              some cc → cellInvB cc = true := by
          refine cellAtInv_updCell hL1 ?_
          intro cd hcd _
          have hcdc : cd = firstCell := by
            rw [hAtF2] at hcd
            exact (Option.some.inj hcd).symm
          subst hcdc
          simp [cellInvB, hfactsF.1, hfactsF.2]
        refine strongInv_assemble b bR pid ⟨some f, some ⟨row, column⟩, true⟩ hInv hHH hWW
          ?_ ?_ hps hNew ?_
        · refine boardShape_of_eq (boardShape_updCell _ f.row f.col _
            (boardShape_updCell _ row column _
              (boardShape_updCell b row column _ hInv.1))) hbb ?_ ?_
          · simp only [Board.updCell_height]; exact hHH
          · simp only [Board.updCell_width]; exact hWW
        · rw [cellsInv_iff]
          intro r c cc hcc
          rw [Board.cellAt_congr r c hbb] at hcc
          exact hL2 r c cc hcc
        · intro q hq
          refine ctrlMono_trans (ctrlMono_trans (ctrlMono_trans
            (ctrlMono_updCell b row column (fun c => { c with faceUp := true }) q (fun cc _ h => h))
            (ctrlMono_updCell _ row column _ q ?_))
            (ctrlMono_updCell _ f.row f.col _ q ?_))
            (ctrlMono_of_board_eq q hbb)
          · intro cc hcc hctlq
            have hcdc : cc = { cell with faceUp := true } := by
              rw [Board.cellAt_updCell_self, hcell] at hcc
              exact (Option.some.inj hcc).symm
            subst hcdc
            exact (hctl' q hctlq).elim
          · intro cc hcc hctlq
            have hcdc : cc = firstCell := by
              rw [hAtF2] at hcc
              exact (Option.some.inj hcc).symm
            subst hcdc
            rw [hpcF] at hctlq
            exact absurd (Option.some.inj hctlq).symm hq
      · simp only [Board.flipSecond, if_neg hA, hcf1, if_neg hm]
        show StrongInv (Board.notifyAll { ((b.updCell row column
            (fun c => { c with faceUp := true })).updCell row column
            (fun c => { c with controller := none })).updCell f.row f.col
            (fun c => { c with controller := none }) with
          playerStates := mset pid ⟨some f, some ⟨row, column⟩, false⟩
            (((b.updCell row column
              (fun c => { c with faceUp := true })).updCell row column
              (fun c => { c with controller := none })).updCell f.row f.col
              (fun c => { c with controller := none })).playerStates })
        obtain ⟨bR, hBR⟩ : ∃ x : Board, Board.notifyAll { ((b.updCell row column
            (fun c => { c with faceUp := true })).updCell row column
            (fun c => { c with controller := none })).updCell f.row f.col
            (fun c => { c with controller := none }) with
          playerStates := mset pid ⟨some f, some ⟨row, column⟩, false⟩
            (((b.updCell row column
              (fun c => { c with faceUp := true })).updCell row column
              (fun c => { c with controller := none })).updCell f.row f.col
              (fun c => { c with controller := none })).playerStates } = x := ⟨_, rfl⟩
        rw [hBR]
        have hbb : bR.board = (((b.updCell row column
            (fun c => { c with faceUp := true })).updCell row column
            (fun c => { c with controller := none })).updCell f.row f.col
            (fun c => { c with controller := none })).board := by
          rw [← hBR]; rfl
        have hps : bR.playerStates =
            mset pid ⟨some f, some ⟨row, column⟩, false⟩ b.playerStates := by
          rw [← hBR]
          simp only [Board.notifyAll_playerStates, Board.updCell_playerStates]
        have hHH : bR.height = b.height := by rw [← hBR]; simp
        have hWW : bR.width = b.width := by rw [← hBR]; simp
        have hAtF2' : ((b.updCell row column (fun c => { c with faceUp := true })).updCell
            row column (fun c => { c with controller := none })).cellAt f.row f.col =
            some firstCell := by
          rw [Board.cellAt_updCell_ne _ _ hne, Board.cellAt_updCell_ne _ _ hne]
          exact hfcell
        have hL0 : ∀ r c : Int, ∀ cc : CardCell,
            (b.updCell row column (fun c => { c with faceUp := true })).cellAt r c =
              some cc → cellInvB cc = true := by
          refine cellAtInv_updCell hCellAt ?_
          intro cd hcd _
          have hcdc : cd = cell := by
            rw [hcell] at hcd
            exact (Option.some.inj hcd).symm
          subst hcdc
          simp [cellInvB, hcard]
        have hL1 : ∀ r c : Int, ∀ cc : CardCell,
            ((b.updCell row column (fun c => { c with faceUp := true })).updCell
              row column (fun c => { c with controller := none })).cellAt r c =
              some cc → cellInvB cc = true := by
          refine cellAtInv_updCell hL0 ?_
          intro cd _ hcd
          exact cellInv_clear_ctrl hcd
        have hL2 : ∀ r c : Int, ∀ cc : CardCell,
            (((b.updCell row column (fun c => { c with faceUp := true })).updCell
              row column (fun c => { c with controller := none })).updCell f.row f.col
              (fun c => { c with controller := none })).cellAt r c =
              some cc → cellInvB cc = true := by
          refine cellAtInv_updCell hL1 ?_
          intro cd _ hcd
          exact cellInv_clear_ctrl hcd
        refine strongInv_assemble b bR pid ⟨some f, some ⟨row, column⟩, false⟩ hInv hHH hWW
          ?_ ?_ hps rfl ?_
        · refine boardShape_of_eq (boardShape_updCell _ f.row f.col _
            (boardShape_updCell _ row column _
              (boardShape_updCell b row column _ hInv.1))) hbb ?_ ?_
          · simp only [Board.updCell_height]; exact hHH
          · simp only [Board.updCell_width]; exact hWW
        · rw [cellsInv_iff]
          intro r c cc hcc
          rw [Board.cellAt_congr r c hbb] at hcc
          exact hL2 r c cc hcc
        · intro q hq
          refine ctrlMono_trans (ctrlMono_trans (ctrlMono_trans
            (ctrlMono_updCell b row column (fun c => { c with faceUp := true }) q (fun cc _ h => h))
            (ctrlMono_updCell _ row column _ q ?_))
            (ctrlMono_updCell _ f.row f.col _ q ?_))
            (ctrlMono_of_board_eq q hbb)
          · intro cc hcc hctlq
            have hcdc : cc = { cell with faceUp := true } := by
              rw [Board.cellAt_updCell_self, hcell] at hcc
              exact (Option.some.inj hcc).symm
            subst hcdc
            exact (hctl' q hctlq).elim
          · intro cc hcc hctlq
            have hcdc : cc = firstCell := by
              rw [hAtF2'] at hcc
              exact (Option.some.inj hcc).symm
            subst hcdc
            rw [hpcF] at hctlq
            exact absurd (Option.some.inj hctlq).symm hq

/-- After `cleanupPreviousMove`, the caller still has a recorded state, and it
never holds two cards. -/
theorem cleanup_state (b : Board) (pid : String) (st0 : PlayerState)
    (hst0 : mget pid b.playerStates = some st0) :
    ∃ st2 : PlayerState, mget pid (b.cleanupPreviousMove pid).playerStates = some st2 ∧
      (st2.firstCard = none ∨ st2.secondCard = none) := by
  obtain ⟨fc, sc, hm⟩ := st0
  cases fc with
  | none =>
    refine ⟨⟨none, sc, hm⟩, ?_, Or.inl rfl⟩
    have hcl : b.cleanupPreviousMove pid = b := by
      unfold Board.cleanupPreviousMove
      rw [hst0]
    rw [hcl]
    exact hst0
  | some f =>
    cases sc with
    | none =>
      refine ⟨⟨some f, none, hm⟩, ?_, Or.inr rfl⟩
      have hcl : b.cleanupPreviousMove pid = b := by
        unfold Board.cleanupPreviousMove
        rw [hst0]
      rw [hcl]
      exact hst0
    | some s =>
      refine ⟨idleState, ?_, Or.inl rfl⟩
      cases hm with
      | true =>
        unfold Board.cleanupPreviousMove
        rw [hst0]
        simp only [Board.updCell_playerStates]
        exact mget_mset_self ..
      | false =>
        unfold Board.cleanupPreviousMove
        rw [hst0]
        by_cases hs : s = noneCard
        · simp only [hs, eq_self_iff_true, if_true, Board.notifyAll_playerStates,
            Board.faceDownStep_playerStates]
          exact mget_mset_self ..
        · simp only [if_neg hs, Board.faceDownStep_playerStates]
          exact mget_mset_self ..

/-- `flip` preserves the board invariant, when the caller has a recorded
state. -/
theorem flip_strongInv_aux (b : Board) (pid : String) (row column : Int)
    (hInv : StrongInv b) (st0 : PlayerState)
    (hst0 : mget pid b.playerStates = some st0) :
    StrongInv (b.flip pid row column).2 := by
  by_cases hbnd : (row < 0 ∨ row ≥ (b.height : Int) ∨ column < 0 ∨ column ≥ (b.width : Int))
  · simp only [Board.flip, hst0, if_pos hbnd]
    exact hInv
  · obtain ⟨st2, hmg2, hpost⟩ := cleanup_state b pid st0 hst0
    have hInv2 : StrongInv (b.cleanupPreviousMove pid) := cleanup_strongInv b pid hInv
    simp only [Board.flip, hst0, if_neg hbnd, hmg2, Option.getD_some]
    obtain ⟨B3, hB3⟩ : ∃ x : Board, ({ b.cleanupPreviousMove pid with
        playerStates := mset pid st2 (b.cleanupPreviousMove pid).playerStates } : Board) = x :=
      ⟨_, rfl⟩
    rw [hB3]
    push_neg at hbnd
    obtain ⟨hlo, hhi, hclo, hchi⟩ := hbnd
    have hbb3 : B3.board = (b.cleanupPreviousMove pid).board := by rw [← hB3]
    have hps3 : B3.playerStates = mset pid st2 (b.cleanupPreviousMove pid).playerStates := by
      rw [← hB3]
    have hh3c : B3.height = (b.cleanupPreviousMove pid).height := by rw [← hB3]
    have hw3c : B3.width = (b.cleanupPreviousMove pid).width := by rw [← hB3]
    have hH3 : B3.height = b.height := by rw [hh3c]; simp
    have hW3 : B3.width = b.width := by rw [hw3c]; simp
    have hmg3 : mget pid B3.playerStates = some st2 := by
      rw [hps3]
      exact mget_mset_self ..
    have hInv3 : StrongInv B3 := by
      refine strongInv_assemble (b.cleanupPreviousMove pid) B3 pid st2 hInv2 hh3c hw3c
        ?_ ?_ hps3 ?_ ?_
      · exact boardShape_of_eq hInv2.1 hbb3 hh3c hw3c
      · rw [hbb3]
        exact hInv2.2.1
      · exact stateInvB_mono hh3c hw3c (ctrlMono_of_board_eq pid hbb3)
          (hInv2.2.2.1 (pid, st2) (mget_some_mem hmg2))
      · exact fun q _ => ctrlMono_of_board_eq q hbb3
    cases hcell : B3.cellAt row column with
    | none =>
      exact flipNoCard_strongInv B3 pid st2 hInv3 hmg3 (fun h => hpost.resolve_left h)
    | some cell =>
      dsimp only
      by_cases hcc : cell.card = ""
      · rw [if_pos hcc]
        exact flipNoCard_strongInv B3 pid st2 hInv3 hmg3 (fun h => hpost.resolve_left h)
      · rw [if_neg hcc]
        cases hfc : st2.firstCard with
        | none =>
          exact flipFirst_strongInv B3 pid row column cell st2 hInv3 hmg3 hfc hcell
            hlo (by rw [hH3]; exact hhi) hclo (by rw [hW3]; exact hchi)
        | some f =>
          have hsc : st2.secondCard = none :=
            hpost.resolve_left (by rw [hfc]; exact fun h => Option.noConfusion h)
          exact flipSecond_strongInv B3 pid row column cell st2 f hInv3 hmg3 hfc hsc
            hcell hcc hlo (by rw [hH3]; exact hhi) hclo (by rw [hW3]; exact hchi)

/-- `flip` preserves the board invariant. -/
theorem flip_strongInv (b : Board) (pid : String) (row column : Int)
    (hInv : StrongInv b) : StrongInv (b.flip pid row column).2 := by
  cases hst0 : mget pid b.playerStates with
  | some st0 => exact flip_strongInv_aux b pid row column hInv st0 hst0
  | none =>
    rw [Board.flip_init_none b pid row column hst0]
    refine flip_strongInv_aux _ pid row column ?_ idleState (mget_mset_self ..)
    refine strongInv_assemble b
      ({ b with playerStates := mset pid idleState b.playerStates } : Board) pid idleState
      hInv rfl rfl ?_ ?_ rfl ?_ ?_
    · exact boardShape_of_eq hInv.1 rfl rfl rfl
    · exact hInv.2.1
    · exact stateInvB_idle _ pid
    · exact fun q _ => ctrlMono_of_board_eq q rfl

theorem flipNoCard_dims (b : Board) (pid : String) (st : PlayerState) :
    (b.flipNoCard pid st).2.height = b.height ∧ (b.flipNoCard pid st).2.width = b.width := by
  cases hfc : st.firstCard with
  | none => simp [Board.flipNoCard, hfc]
  | some f =>
    cases hcf : b.cellAt f.row f.col with
    | none => simp [Board.flipNoCard, hfc, hcf]
    | some fcell => simp [Board.flipNoCard, hfc, hcf]

theorem flipFirst_dims (b : Board) (p : String) (r c : Int) (cell : CardCell)
    (st : PlayerState) :
    (b.flipFirst p r c cell st).2.height = b.height ∧
    (b.flipFirst p r c cell st).2.width = b.width := by
  by_cases h1 : cell.faceUp = true ∧ cell.controller ≠ none ∧ cell.controller ≠ some p
  · simp [Board.flipFirst, if_pos h1]
  · by_cases h2 : cell.card = ""
    · simp [Board.flipFirst, if_neg h1, if_pos h2]
    · by_cases h3 : cell.controller ≠ none ∧ cell.controller ≠ some p
      · simp [Board.flipFirst, if_neg h1, if_neg h2, if_pos h3]
      · by_cases h4 : (mget (Board.cellKey r c) b.claimLocks).isSome
        · simp [Board.flipFirst, if_neg h1, if_neg h2, if_neg h3, Board.tryClaimCell,
            if_pos h4]
        · simp [Board.flipFirst, if_neg h1, if_neg h2, if_neg h3, Board.tryClaimCell,
            if_neg h4, if_neg h2]

theorem flipSecond_dims (b : Board) (p : String) (r c : Int) (cell : CardCell)
    (st : PlayerState) (f : Coord) :
    (b.flipSecond p r c cell st f).2.height = b.height ∧
    (b.flipSecond p r c cell st f).2.width = b.width := by
  by_cases hA : cell.faceUp = true ∧ cell.controller ≠ none
  · cases hcf : b.cellAt f.row f.col with
    | none => simp [Board.flipSecond, if_pos hA, hcf]
    | some fcell => simp [Board.flipSecond, if_pos hA, hcf]
  · cases hcf1 : (b.updCell r c (fun x => { x with faceUp := true })).cellAt f.row f.col with
    | none => simp [Board.flipSecond, if_neg hA, hcf1]
    | some firstCell =>
      by_cases hm : cell.card = firstCell.card
      · simp [Board.flipSecond, if_neg hA, hcf1, if_pos hm]
      · simp [Board.flipSecond, if_neg hA, hcf1, if_neg hm]

theorem flip_dims (b : Board) (pid : String) (r c : Int) :
    (b.flip pid r c).2.height = b.height ∧ (b.flip pid r c).2.width = b.width := by
  cases hmg : mget pid b.playerStates with
  | none =>
    simp only [Board.flip, hmg]
    split
    · exact ⟨rfl, rfl⟩
    · split
      · refine ⟨?_, ?_⟩
        · rw [(flipNoCard_dims _ _ _).1]; simp
        · rw [(flipNoCard_dims _ _ _).2]; simp
      · split
        · refine ⟨?_, ?_⟩
          · rw [(flipNoCard_dims _ _ _).1]; simp
          · rw [(flipNoCard_dims _ _ _).2]; simp
        · split
          · refine ⟨?_, ?_⟩
            · rw [(flipFirst_dims _ _ _ _ _ _).1]; simp
            · rw [(flipFirst_dims _ _ _ _ _ _).2]; simp
          · refine ⟨?_, ?_⟩
            · rw [(flipSecond_dims _ _ _ _ _ _ _).1]; simp
            · rw [(flipSecond_dims _ _ _ _ _ _ _).2]; simp
  | some st0 =>
    simp only [Board.flip, hmg]
    split
    · exact ⟨rfl, rfl⟩
    · split
      · refine ⟨?_, ?_⟩
        · rw [(flipNoCard_dims _ _ _).1]; simp
        · rw [(flipNoCard_dims _ _ _).2]; simp
      · split
        · refine ⟨?_, ?_⟩
          · rw [(flipNoCard_dims _ _ _).1]; simp
          · rw [(flipNoCard_dims _ _ _).2]; simp
        · split
          · refine ⟨?_, ?_⟩
            · rw [(flipFirst_dims _ _ _ _ _ _).1]; simp
            · rw [(flipFirst_dims _ _ _ _ _ _).2]; simp
          · refine ⟨?_, ?_⟩
            · rw [(flipSecond_dims _ _ _ _ _ _ _).1]; simp
            · rw [(flipSecond_dims _ _ _ _ _ _ _).2]; simp

/-- A freshly constructed board satisfies the invariant: its grid has the
stated dimensions and every card starts face down and uncontrolled. -/
theorem fromCards_strongInv (h w : Nat) (cards : List (List String))
    (hlen : cards.length = h) (hrow : ∀ r ∈ cards, r.length = w) :
    StrongInv (Board.fromCards h w cards) := by
  refine ⟨⟨?_, ?_⟩, ?_, ?_, ?_⟩
  · simp [Board.fromCards, hlen]
  · intro row hrowm
    simp only [Board.fromCards] at hrowm
    rw [List.mem_map] at hrowm
    obtain ⟨r0, hr0, rfl⟩ := hrowm
    simp [Board.fromCards, hrow r0 hr0]
  · intro row hrowm cc hcc
    simp only [Board.fromCards] at hrowm
    rw [List.mem_map] at hrowm
    obtain ⟨r0, hr0, rfl⟩ := hrowm
    rw [List.mem_map] at hcc
    obtain ⟨c0, hc0, rfl⟩ := hcc
    simp [cellInvB]
  · intro e he
    simp [Board.fromCards] at he
  · simp [Board.fromCards]

theorem chunkGrid_length (h w : Nat) (l : List String) : (chunkGrid h w l).length = h := by
  simp [chunkGrid]

theorem chunkGrid_rows (h w : Nat) (l : List String) :
    ∀ r ∈ chunkGrid h w l, r.length = w := by
  intro r hr
  simp only [chunkGrid, List.mem_map] at hr
  obtain ⟨i, _, rfl⟩ := hr
  simp

/-- Any board `parseFromFile` returns satisfies the invariant. -/
theorem parse_strongInv (content : String) (b : Board)
    (h : parseFromFile content = .ok b) : StrongInv b := by
  simp only [parseFromFile] at h
  repeat' split at h
  all_goals try exact Except.noConfusion h
  injection h with h
  subst h
  exact fromCards_strongInv _ _ _ (chunkGrid_length _ _ _) (chunkGrid_rows _ _ _)

/-- `map` preserves the board invariant, provided the relabelling function
maps cards to cards (never to the empty string). -/
theorem map_strongInv (b : Board) (pid : String) (fn : String → String)
    (hfn : ∀ s : String, ¬s = "" → ¬fn s = "")
    (hInv : StrongInv b) : StrongInv (b.map pid fn).2 := by
  obtain ⟨hg1, _, _, _⟩ := Board.mapGrid_spec fn b.board [] (by simp) (by simp)
  have hbb : (b.map pid fn).2.board = b.board.map (fun row => row.map
      (fun cell => if cell.card = "" then cell else { cell with card := fn cell.card })) := by
    show (Board.notifyAll { b with board := (Board.mapGrid fn [] b.board).1 }).board = _
    rw [Board.notifyAll_board]
    exact hg1
  have hH : (b.map pid fn).2.height = b.height := rfl
  have hW : (b.map pid fn).2.width = b.width := rfl
  have hPS : (b.map pid fn).2.playerStates = b.playerStates := rfl
  have hmono : ∀ q, ctrlMono b (b.map pid fn).2 q := by
    intro q r c cc' hcc'
    rw [cellAt_of_mapped _ hbb r c] at hcc'
    cases hb : b.cellAt r c with
    | none =>
      rw [hb] at hcc'
      exact Option.noConfusion hcc'
    | some cc =>
      rw [hb] at hcc'
      refine ⟨cc, rfl, ?_⟩
      intro hq
      have hcc2 : cc' = if cc.card = "" then cc else { cc with card := fn cc.card } :=
        (Option.some.inj hcc').symm
      rw [hcc2]
      by_cases hc : cc.card = ""
      · rw [if_pos hc]
        exact hq
      · rw [if_neg hc]
        exact hq
  refine ⟨⟨?_, ?_⟩, ?_, ?_, ?_⟩
  · rw [hbb, List.length_map, hH]
    exact hInv.1.1
  · intro row hrow
    rw [hbb] at hrow
    rw [List.mem_map] at hrow
    obtain ⟨r0, hr0, rfl⟩ := hrow
    rw [List.length_map, hW]
    exact hInv.1.2 r0 hr0
  · intro row hrow cc hcc
    rw [hbb] at hrow
    rw [List.mem_map] at hrow
    obtain ⟨r0, hr0, rfl⟩ := hrow
    rw [List.mem_map] at hcc
    obtain ⟨c0, hc0, rfl⟩ := hcc
    have hcInv := hInv.2.1 r0 hr0 c0 hc0
    by_cases hc : c0.card = ""
    · rw [if_pos hc]
      exact hcInv
    · rw [if_neg hc]
      simp only [cellInvB, Bool.and_eq_true, Bool.or_eq_true] at hcInv ⊢
      refine ⟨hcInv.1, Or.inl ?_⟩
      simp [hfn _ hc]
  · intro e he
    rw [hPS] at he
    exact stateInvB_mono hH hW (hmono e.1) (hInv.2.2.1 e he)
  · rw [hPS]
    exact hInv.2.2.2

/-- C9: every state-changing operation — `flip` (with its internal
`cleanupPreviousMove`), `map` (for a relabelling that maps cards to cards),
`watch`, and `cleanupPreviousMove` itself — preserves the board invariant
`StrongInv`, and preserves the board's height and width; the invariant
implies the claimed per-cell properties (a controlled card is face up, and an
empty cell is face down and uncontrolled) and the rectangular `height ×
width` grid shape; and every board built by `parseFromFile` satisfies the
invariant.  (`look` computes a snapshot string without producing a new board
state, so there is nothing for it to preserve.) -/
theorem C9_invariant_preservation :
    (∀ (b : Board) (pid : String) (row column : Int), StrongInv b →
      StrongInv (b.flip pid row column).2 ∧
      (b.flip pid row column).2.height = b.height ∧
      (b.flip pid row column).2.width = b.width) ∧
    (∀ (b : Board) (pid : String) (fn : String → String),
      (∀ s : String, ¬s = "" → ¬fn s = "") → StrongInv b →
      StrongInv (b.map pid fn).2 ∧
      (b.map pid fn).2.height = b.height ∧ (b.map pid fn).2.width = b.width) ∧
    (∀ (b : Board) (pid : String), StrongInv b →
      StrongInv (b.watch pid) ∧
      (b.watch pid).height = b.height ∧ (b.watch pid).width = b.width) ∧
    (∀ (b : Board) (pid : String), StrongInv b →
      StrongInv (b.cleanupPreviousMove pid) ∧
      (b.cleanupPreviousMove pid).height = b.height ∧
      (b.cleanupPreviousMove pid).width = b.width) ∧
    (∀ b : Board, StrongInv b →
      (∀ r c : Int, ∀ cc : CardCell, b.cellAt r c = some cc →
        (cc.controller ≠ none → cc.faceUp = true) ∧
        (cc.card = "" → cc.faceUp = false ∧ cc.controller = none)) ∧
      b.board.length = b.height ∧ (∀ row ∈ b.board, row.length = b.width)) ∧
    (∀ (content : String) (b : Board), parseFromFile content = .ok b → StrongInv b) := by
  refine ⟨?_, ?_, ?_, ?_, ?_, parse_strongInv⟩
  · intro b pid row column hInv
    exact ⟨flip_strongInv b pid row column hInv, flip_dims b pid row column⟩
  · intro b pid fn hfn hInv
    exact ⟨map_strongInv b pid fn hfn hInv, rfl, rfl⟩
  · intro b pid hInv
    exact ⟨strongInv_watch pid hInv, rfl, rfl⟩
  · intro b pid hInv
    exact ⟨cleanup_strongInv b pid hInv, by simp, by simp⟩
  · intro b hInv
    refine ⟨?_, hInv.1.1, hInv.1.2⟩
    intro r c cc hcc
    have hci := (cellsInv_iff b _).mp hInv.2.1 r c cc hcc
    constructor
    · intro hctrl
      exact (cellInv_ctrl_facts hci hctrl).1
    · intro hcard
      simp only [cellInvB, Bool.and_eq_true, Bool.or_eq_true] at hci
      rcases hci.2 with h2 | h2
      · rw [hcard] at h2
        simp at h2
      · refine ⟨by simpa using h2.1, eq_of_beq h2.2⟩

theorem C9_witness :
    StrongInv (Board.mk 1 2 [[⟨"A", false, none⟩, ⟨"A", false, none⟩]] [] [] []) ∧
    (∀ s : String, ¬s = "" → ¬(fun t : String => t) s = "") ∧
    StrongInv ((Board.mk 1 2 [[⟨"A", false, none⟩, ⟨"A", false, none⟩]] [] [] []).flip
      "p1" 0 0).2 ∧
    StrongInv ((Board.mk 1 2 [[⟨"A", false, none⟩, ⟨"A", false, none⟩]] [] [] []).map
      "p1" (fun t : String => t)).2 :=
  ⟨by decide, fun s h => h,
   (C9_invariant_preservation.1
     (Board.mk 1 2 [[⟨"A", false, none⟩, ⟨"A", false, none⟩]] [] [] []) "p1" 0 0
     (by decide)).1,
   (C9_invariant_preservation.2.1
     (Board.mk 1 2 [[⟨"A", false, none⟩, ⟨"A", false, none⟩]] [] [] []) "p1"
     (fun t : String => t) (fun s h => h) (by decide)).1⟩

theorem mget_append_single {α : Type} (m : List (String × α)) (a c : String) (v : α) :
    mget c (m ++ [(a, v)]) =
      match mget c m with
      | some n => some n
      | none => if a = c then some v else none := by
  induction m with
  | nil => simp [mget]
  | cons hd tl ih =>
    obtain ⟨k, w⟩ := hd
    by_cases hk : k = c
    · simp [mget, hk]
    · simp [mget, hk, ih]

theorem mget_bumpCount (m : List (String × Nat)) (a c : String) :
    mget c (bumpCount m a) =
      if a = c then some ((mget c m).getD 0 + 1) else mget c m := by
  unfold bumpCount
  cases hm : mget a m with
  | some n =>
    rw [mget_mset]
    by_cases hac : a = c
    · subst hac
      rw [hm]
      simp
    · simp [hac]
  | none =>
    rw [mget_append_single]
    by_cases hac : a = c
    · subst hac
      rw [hm]
      simp
    · cases hcm : mget c m <;> simp [hac, hcm]

theorem mget_foldl_bumpCount (l : List String) :
    ∀ (m : List (String × Nat)) (c : String),
    mget c (l.foldl bumpCount m) =
      match mget c m with
      | some n => some (n + l.count c)
      | none => if 0 < l.count c then some (l.count c) else none := by
  induction l with
  | nil =>
    intro m c
    cases hm : mget c m <;> simp [hm]
  | cons a t ih =>
    intro m c
    rw [List.foldl_cons, ih (bumpCount m a) c, mget_bumpCount]
    by_cases hac : a = c
    · rw [if_pos hac, hac]
      cases hm : mget c m with
      | some n =>
        dsimp only
        simp [List.count_cons]
        omega
      | none =>
        dsimp only
        simp [List.count_cons]
        omega
    · rw [if_neg hac]
      cases hm : mget c m with
      | some n =>
        dsimp only
        simp [List.count_cons, Ne.symm hac]
      | none =>
        dsimp only
        simp [List.count_cons, Ne.symm hac]

theorem countCards_count (l : List String) (c : String) :
    mget c (countCards l) =
      if 0 < l.count c then some (l.count c) else none := by
  rw [countCards, mget_foldl_bumpCount]
  rfl

theorem countCards_nodup_keys (l : List String) :
    ((countCards l).map Prod.fst).Nodup := by
  rw [countCards]
  suffices h : ∀ m : List (String × Nat), ((m.map Prod.fst).Nodup) →
      (((l.foldl bumpCount m).map Prod.fst).Nodup) from h [] (by simp)
  induction l with
  | nil => exact fun m hm => hm
  | cons a t ih =>
    intro m hm
    rw [List.foldl_cons]
    refine ih _ ?_
    unfold bumpCount
    cases hma : mget a m with
    | some n =>
      rw [map_fst_mset_of_mget_some _ (by rw [hma]; rfl)]
      exact hm
    | none =>
      rw [List.map_append]
      rw [List.nodup_append]
      refine ⟨hm, by simp, ?_⟩
      intro x hx hx2
      simp at hx2
      subst hx2
      exact (mget_eq_none_iff.mp hma) hx

theorem countCards_even_iff (l : List String) :
    ((countCards l).find? (fun p => p.2 % 2 ≠ 0) = none) ↔
      ∀ c ∈ l, l.count c % 2 = 0 := by
  rw [List.find?_eq_none]
  constructor
  · intro h c hc
    have hcnt : 0 < l.count c := List.count_pos_iff.mpr hc
    have hmem : (c, l.count c) ∈ countCards l :=
      mget_some_mem (by rw [countCards_count, if_pos hcnt])
    have := h _ hmem
    simpa using this
  · intro h p hp
    have hmg := mget_eq_of_mem_nodup hp (countCards_nodup_keys l)
    rw [countCards_count] at hmg
    by_cases hcnt : 0 < l.count p.1
    · rw [if_pos hcnt] at hmg
      have hp2 : p.2 = l.count p.1 := (Option.some.inj hmg).symm
      have hc : p.1 ∈ l := List.count_pos_iff.mp hcnt
      simp [hp2, h p.1 hc]
    · rw [if_neg hcnt] at hmg
      exact Option.noConfusion hmg

theorem find_missing_none (A : List String) (T : Nat) (hlen : A.length = T)
    (hA : ∀ a ∈ A, ¬a = "") :
    (List.range T).find? (fun idx => (A.get? idx).getD "" = "") = none := by
  rw [List.find?_eq_none]
  intro idx hidx
  rw [List.mem_range, ← hlen] at hidx
  cases hg : A.get? idx with
  | none =>
    rw [List.get?_eq_none] at hg
    omega
  | some a =>
    have ha : a ∈ A := List.get?_mem hg
    simp [hg, hA a ha]

theorem parse_eval_none (content : String) (lines : List String)
    (firstLine d0 d1 : String) (A : List String) (H W : Int)
    (hlines : lines = jsSplit (jsTrim content) '\n')
    (hfirst : firstLine = jsTrim ((lines.get? 0).getD ""))
    (hd0 : d0 = jsTrim (((jsSplit firstLine 'x').get? 0).getD ""))
    (hd1 : d1 = jsTrim (((jsSplit firstLine 'x').get? 1).getD ""))
    (hA : A = ((lines.drop 1).map jsTrim).filter (fun l => l ≠ ""))
    (hp2 : (jsSplit firstLine 'x').length = 2)
    (hd0ne : ¬d0 = "") (hd1ne : ¬d1 = "")
    (hPH : jsParseInt d0 = some H) (hPW : jsParseInt d1 = some W)
    (hHpos : 0 < H) (hWpos : 0 < W)
    (hrows : H + 1 ≤ (lines.length : Int))
    (heven : (H.toNat * W.toNat) % 2 = 0)
    (hcount : A.length = H.toNat * W.toNat)
    (hfind : (countCards A).find? (fun p => p.2 % 2 ≠ 0) = none) :
    parseFromFile content =
      .ok (Board.fromCards H.toNat W.toNat (chunkGrid H.toNat W.toNat A)) := by
  have hfne : ¬firstLine = "" := by
    intro h
    rw [h] at hp2
    exact absurd hp2 (by decide)
  have hfmt : ¬((jsSplit firstLine 'x').length ≠ 2 ∨ d0 = "" ∨ d1 = "") := by
    push_neg
    exact ⟨hp2, hd0ne, hd1ne⟩
  have hdim : ¬(H ≤ 0 ∨ W ≤ 0) := by
    push_neg
    exact ⟨hHpos, hWpos⟩
  have hnrows := not_lt.mpr hrows
  have hAne : ∀ a ∈ A, ¬a = "" := by
    intro a ha
    rw [hA] at ha
    have := List.of_mem_filter ha
    simpa using this
  have hmiss := find_missing_none A (H.toNat * W.toNat) hcount hAne
  simp only [parseFromFile]
  rw [← hlines, ← hfirst, ← hd0, ← hd1, ← hA]
  rw [if_neg hfne, if_neg hfmt]
  simp only [hPH, hPW]
  rw [if_neg hdim, if_neg hnrows,
    if_neg (show ¬(H.toNat * W.toNat % 2 ≠ 0) from by simp [heven]),
    if_neg (show ¬(A.length ≠ H.toNat * W.toNat) from by simp [hcount])]
  rw [hmiss, hfind]

theorem parse_eval_some (content : String) (lines : List String)
    (firstLine d0 d1 : String) (A : List String) (H W : Int) (p : String × Nat)
    (hlines : lines = jsSplit (jsTrim content) '\n')
    (hfirst : firstLine = jsTrim ((lines.get? 0).getD ""))
    (hd0 : d0 = jsTrim (((jsSplit firstLine 'x').get? 0).getD ""))
    (hd1 : d1 = jsTrim (((jsSplit firstLine 'x').get? 1).getD ""))
    (hA : A = ((lines.drop 1).map jsTrim).filter (fun l => l ≠ ""))
    (hp2 : (jsSplit firstLine 'x').length = 2)
    (hd0ne : ¬d0 = "") (hd1ne : ¬d1 = "")
    (hPH : jsParseInt d0 = some H) (hPW : jsParseInt d1 = some W)
    (hHpos : 0 < H) (hWpos : 0 < W)
    (hrows : H + 1 ≤ (lines.length : Int))
    (heven : (H.toNat * W.toNat) % 2 = 0)
    (hcount : A.length = H.toNat * W.toNat)
    (hfind : (countCards A).find? (fun p => p.2 % 2 ≠ 0) = some p) :
    parseFromFile content =
      .error s!"card \"{p.1}\" appears {p.2} times, which is not a multiple of 2" := by
  have hfne : ¬firstLine = "" := by
    intro h
    rw [h] at hp2
    exact absurd hp2 (by decide)
  have hfmt : ¬((jsSplit firstLine 'x').length ≠ 2 ∨ d0 = "" ∨ d1 = "") := by
    push_neg
    exact ⟨hp2, hd0ne, hd1ne⟩
  have hdim : ¬(H ≤ 0 ∨ W ≤ 0) := by
    push_neg
    exact ⟨hHpos, hWpos⟩
  have hnrows := not_lt.mpr hrows
  have hAne : ∀ a ∈ A, ¬a = "" := by
    intro a ha
    rw [hA] at ha
    have := List.of_mem_filter ha
    simpa using this
  have hmiss := find_missing_none A (H.toNat * W.toNat) hcount hAne
  simp only [parseFromFile]
  rw [← hlines, ← hfirst, ← hd0, ← hd1, ← hA]
  rw [if_neg hfne, if_neg hfmt]
  simp only [hPH, hPW]
  rw [if_neg hdim, if_neg hnrows,
    if_neg (show ¬(H.toNat * W.toNat % 2 ≠ 0) from by simp [heven]),
    if_neg (show ¬(A.length ≠ H.toNat * W.toNat) from by simp [hcount])]
  rw [hmiss, hfind]

/-- C2 (amended): `parseFromFile` succeeds iff the first line parses as
`{H}x{W}` with `H, W > 0`, the file has at least `H + 1` lines, `H * W` is
even, the number of card tokens equals `H * W`, and every distinct token
occurs an even number of times; an empty first line gives `empty board
file`; a file with fewer than `H + 1` lines gives `insufficient board rows`
(this check runs before the evenness and token-count checks); otherwise an
odd `H * W` gives the evenness error, a wrong token count gives the
`expected … cards` error, and a token of odd multiplicity gives the
`card … appears n times` error with its exact count. -/
theorem C2_parse_amended (content : String) (lines : List String)
    (firstLine d0 d1 : String) (A : List String)
    (hlines : lines = jsSplit (jsTrim content) '\n')
    (hfirst : firstLine = jsTrim ((lines.get? 0).getD ""))
    (hd0 : d0 = jsTrim (((jsSplit firstLine 'x').get? 0).getD ""))
    (hd1 : d1 = jsTrim (((jsSplit firstLine 'x').get? 1).getD ""))
    (hA : A = ((lines.drop 1).map jsTrim).filter (fun l => l ≠ "")) :
    (firstLine = "" → parseFromFile content = .error "empty board file") ∧
    (∀ H W : Int, (jsSplit firstLine 'x').length = 2 → ¬d0 = "" → ¬d1 = "" →
      jsParseInt d0 = some H → jsParseInt d1 = some W → 0 < H → 0 < W →
      (((lines.length : Int) < H + 1) →
        parseFromFile content = .error "insufficient board rows") ∧
      (H + 1 ≤ (lines.length : Int) →
        ((H.toNat * W.toNat) % 2 ≠ 0 →
          parseFromFile content = .error "total number of cards must be even") ∧
        ((H.toNat * W.toNat) % 2 = 0 →
          (¬A.length = H.toNat * W.toNat →
            parseFromFile content =
              .error s!"expected {H.toNat * W.toNat} cards ({H}x{W}), but got {A.length} cards") ∧
          (A.length = H.toNat * W.toNat →
            (∀ p : String × Nat, (countCards A).find? (fun q => q.2 % 2 ≠ 0) = some p →
              p.2 = A.count p.1 ∧ ¬p.2 % 2 = 0 ∧
              parseFromFile content =
                .error s!"card \"{p.1}\" appears {p.2} times, which is not a multiple of 2") ∧
            ((∀ c ∈ A, A.count c % 2 = 0) ↔
              parseFromFile content = .ok (Board.fromCards H.toNat W.toNat
                (chunkGrid H.toNat W.toNat A))))))) ∧
    ((∃ b : Board, parseFromFile content = .ok b) ↔
      (¬firstLine = "" ∧ (jsSplit firstLine 'x').length = 2 ∧ ¬d0 = "" ∧ ¬d1 = "" ∧
        ∃ H W : Int, jsParseInt d0 = some H ∧ jsParseInt d1 = some W ∧
          0 < H ∧ 0 < W ∧ H + 1 ≤ (lines.length : Int) ∧
          (H.toNat * W.toNat) % 2 = 0 ∧ A.length = H.toNat * W.toNat ∧
          ∀ c ∈ A, A.count c % 2 = 0)) := by
  refine ⟨?_, ?_, ?_⟩
  · intro h
    simp only [parseFromFile]
    rw [← hlines, ← hfirst]
    rw [if_pos h]
  · intro H W hp2 hd0ne hd1ne hPH hPW hHpos hWpos
    have hfne : ¬firstLine = "" := by
      intro h
      rw [h] at hp2
      exact absurd hp2 (by decide)
    have hfmt : ¬((jsSplit firstLine 'x').length ≠ 2 ∨ d0 = "" ∨ d1 = "") := by
      push_neg
      exact ⟨hp2, hd0ne, hd1ne⟩
    have hdim : ¬(H ≤ 0 ∨ W ≤ 0) := by
      push_neg
      exact ⟨hHpos, hWpos⟩
    refine ⟨?_, ?_⟩
    · intro hlt
      simp only [parseFromFile]
      rw [← hlines, ← hfirst, ← hd0, ← hd1]
      rw [if_neg hfne, if_neg hfmt]
      simp only [hPH, hPW]
      rw [if_neg hdim, if_pos hlt]
    · intro hrows
      have hnrows := not_lt.mpr hrows
      refine ⟨?_, ?_⟩
      · intro hodd
        simp only [parseFromFile]
        rw [← hlines, ← hfirst, ← hd0, ← hd1]
        rw [if_neg hfne, if_neg hfmt]
        simp only [hPH, hPW]
        rw [if_neg hdim, if_neg hnrows, if_pos hodd]
      · intro heven
        refine ⟨?_, ?_⟩
        · intro hneq
          simp only [parseFromFile]
          rw [← hlines, ← hfirst, ← hd0, ← hd1, ← hA]
          rw [if_neg hfne, if_neg hfmt]
          simp only [hPH, hPW]
          rw [if_neg hdim, if_neg hnrows,
            if_neg (show ¬(H.toNat * W.toNat % 2 ≠ 0) from by simp [heven]),
            if_pos hneq]
        · intro hcount
          refine ⟨?_, ?_⟩
          · intro p hp
            have hmem := List.mem_of_find?_eq_some hp
            have hpred : ¬p.2 % 2 = 0 := by simpa using List.find?_some hp
            have hmg := mget_eq_of_mem_nodup hmem (countCards_nodup_keys A)
            rw [countCards_count] at hmg
            have hpc : p.2 = A.count p.1 := by
              by_cases hpos : 0 < A.count p.1
              · rw [if_pos hpos] at hmg
                exact (Option.some.inj hmg).symm
              · rw [if_neg hpos] at hmg
                exact Option.noConfusion hmg
            exact ⟨hpc, hpred, parse_eval_some content lines firstLine d0 d1 A H W p
              hlines hfirst hd0 hd1 hA hp2 hd0ne hd1ne hPH hPW hHpos hWpos hrows
              heven hcount hp⟩
          · constructor
            · intro hall
              exact parse_eval_none content lines firstLine d0 d1 A H W
                hlines hfirst hd0 hd1 hA hp2 hd0ne hd1ne hPH hPW hHpos hWpos hrows
                heven hcount ((countCards_even_iff A).mpr hall)
            · intro hok
              cases hfind : (countCards A).find? (fun q => q.2 % 2 ≠ 0) with
              | none => exact (countCards_even_iff A).mp hfind
              | some p =>
                have herr := parse_eval_some content lines firstLine d0 d1 A H W p
                  hlines hfirst hd0 hd1 hA hp2 hd0ne hd1ne hPH hPW hHpos hWpos hrows
                  heven hcount hfind
                rw [herr] at hok
                exact Except.noConfusion hok
  · constructor
    · rintro ⟨b, hok⟩
      simp only [parseFromFile] at hok
      rw [← hlines, ← hfirst, ← hd0, ← hd1, ← hA] at hok
      split at hok
      · exact Except.noConfusion hok
      rename_i hfne
      split at hok
      · exact Except.noConfusion hok
      rename_i hfmt
      push_neg at hfmt
      obtain ⟨hp2, hd0ne, hd1ne⟩ := hfmt
      split at hok
      case _ H W hPH hPW =>
        split at hok
        · exact Except.noConfusion hok
        rename_i hdim
        push_neg at hdim
        split at hok
        · exact Except.noConfusion hok
        rename_i hlt
        rw [not_lt] at hlt
        split at hok
        · exact Except.noConfusion hok
        rename_i hodd
        rw [not_not] at hodd
        split at hok
        · exact Except.noConfusion hok
        rename_i hcnt
        rw [not_not] at hcnt
        split at hok
        · exact Except.noConfusion hok
        split at hok
        · exact Except.noConfusion hok
        rename_i hfind
        exact ⟨hfne, hp2, hd0ne, hd1ne, H, W, hPH, hPW, hdim.1, hdim.2, hlt, hodd,
          hcnt, (countCards_even_iff A).mp hfind⟩
      case _ =>
        exact Except.noConfusion hok
    · rintro ⟨hfne, hp2, hd0ne, hd1ne, H, W, hPH, hPW, hHpos, hWpos, hrows, heven,
        hcount, hall⟩
      exact ⟨_, parse_eval_none content lines firstLine d0 d1 A H W
        hlines hfirst hd0 hd1 hA hp2 hd0ne hd1ne hPH hPW hHpos hWpos hrows
        heven hcount ((countCards_even_iff A).mpr hall)⟩

theorem C2_amended_witness :
    parseFromFile "" = .error "empty board file" ∧
    (∃ b : Board, parseFromFile "1x2\nA\nA" = .ok b) :=
  ⟨(C2_parse_amended "" _ _ _ _ _ rfl rfl rfl rfl rfl).1 (by decide),
   (C2_parse_amended "1x2\nA\nA" _ _ _ _ _ rfl rfl rfl rfl rfl).2.2.mpr
     ⟨by decide, by decide, by decide, by decide, 1, 2, by decide, by decide,
      by decide, by decide, by decide, by decide, by decide, by decide⟩⟩

end MS
